import Mathlib

/-!
# GrooveSynth: a shallow embedding of the procedural groove synthesizer

The definitions below transcribe `GrooveSynthComponent.cpp` / `ProcAudio.cpp`.

Conventions of the embedding:
* `float` / `double` values are exact rationals (`ℚ`); `int32` values are `Int`;
* `TArray` indexing is fallible: an index outside the array yields `none`;
* the engine's random stream and transcendental math are parameters
  (`RngSource`, `FMathLib`), so every theorem holds for any generator and any
  implementation of `Pow` / `Sqrt`.
-/

namespace GrooveSynth

/-! ## Engine helpers (not part of the repository) -/

/-- Modelled from the spec: the engine math library the code calls for `PI`,
`FMath::Pow` and `FMath::Sqrt` is not in the repository; it is a parameter. -/
structure FMathLib where
  PI : ℚ
  Pow : ℚ → ℚ → ℚ
  Sqrt : ℚ → ℚ

/-- Modelled from the spec: `FMath::Clamp(X, Min, Max)` bounds `X` to the range
`[Min, Max]` (engine helper, computed as `Max(Min(X, MaxValue), MinValue)`). -/
def Clamp {α : Type} [LinearOrder α] (X MinValue MaxValue : α) : α :=
  max (min X MaxValue) MinValue

/-- Modelled from the spec: `FMath::RoundToInt` (engine helper) rounds to the
nearest integer, computed as `floor(F + 0.5)`. The engine returns an `int32`;
this is its value whenever `floor(F + 0.5)` fits one, and statements that rely
on the value are made for such `F` only. -/
def RoundToInt (F : ℚ) : Int := ⌊F + 1 / 2⌋

/-- Modelled from the spec: `FMath::IsNearlyEqual(A, B, Tolerance)` (engine
helper) holds when `|A - B| <= Tolerance`. -/
def IsNearlyEqual (A B Tolerance : ℚ) : Bool := decide (|A - B| ≤ Tolerance)

/-- Modelled from the spec: `TArray::operator[]` (engine container). Reading
an index outside `[0, Num)` is an out-of-bounds access, modelled as `none`. -/
def TArrayGet (A : List Int) (Index : Int) : Option Int :=
  if 0 ≤ Index ∧ Index < (A.length : Int) then A.get? Index.toNat else none

/-- Modelled from the spec: the raw material of the engine's `FRandomStream`
(§4.1): `ω seed k` is the `k`-th raw draw made after `Initialize(seed)`. -/
abbrev RngSource := Int → Nat → Nat

/-- Modelled from the spec: state of the engine's `FRandomStream` (§4.1): the
seed it was last initialised with and the number of draws made since. -/
structure FRandomStream where
  Seed : Int := 0
  Count : Nat := 0
  deriving DecidableEq

namespace FRandomStream

/-- Modelled from the spec: `Initialize(seed)` resets the stream so that later
draws are a function of the seed alone (§4.1). -/
def Initialize (InSeed : Int) : FRandomStream := { Seed := InSeed, Count := 0 }

/-- Modelled from the spec: `GetFraction()` consumes one draw and returns a
value in `[0,1)` (§4.1); the engine builds it from 23 random mantissa bits. -/
def GetFraction (ω : RngSource) (r : FRandomStream) : ℚ × FRandomStream :=
  (((ω r.Seed r.Count % 8388608 : Nat) : ℚ) / 8388608, { r with Count := r.Count + 1 })

/-- Modelled from the spec: `RandRange(Min, Max)` returns an integer in
`[Min, Max]` inclusive (§4.1); the engine computes it as
`Min + trunc(GetFraction() * (Max - Min + 1))`, drawing only for a positive range. -/
def RandRange (ω : RngSource) (r : FRandomStream) (MinValue MaxValue : Int) :
    Int × FRandomStream :=
  let Range := MaxValue - MinValue + 1
  if 0 < Range then
    (MinValue + ⌊(GetFraction ω r).1 * (Range : ℚ)⌋, (GetFraction ω r).2)
  else (MinValue, r)

end FRandomStream

/-! ## GrooveSynthComponent.h -/

/-- The scale selector `enum class EProcScale : uint8`, as its underlying byte. -/
abbrev EProcScale := Nat

/-- Enumerant `EProcScale::Ionian`. -/
def Ionian : EProcScale := 0
/-- Enumerant `EProcScale::Dorian`. -/
def Dorian : EProcScale := 1
/-- Enumerant `EProcScale::MinorPentatonic`. -/
def MinorPentatonic : EProcScale := 2
/-- Enumerant `EProcScale::HarmonicMinor`. -/
def HarmonicMinor : EProcScale := 3

/-- The host component `UGrooveSynthComponent`: user parameters, the private
`Motion` control and the seven meters. -/
structure UGrooveSynthComponent where
  BPM : ℚ := 100
  RootMidi : Int := 60
  Scale : EProcScale := Ionian
  Density : ℚ := 35 / 100
  Brightness : ℚ := 1 / 2
  Seed : Int := 12345
  bArpOn : Bool := true
  bPadOn : Bool := true
  bPercOn : Bool := true
  Motion : ℚ := 0
  AnRMS : ℚ := 0
  AnArpEnv : ℚ := 0
  AnPadEnv : ℚ := 0
  AnPercEnv : ℚ := 0
  AnBass : ℚ := 0
  AnMid : ℚ := 0
  AnTreble : ℚ := 0

/-! ## GrooveSynthComponent.cpp -/

/-- One synthesizer voice, `struct FGrooveVoice`. -/
structure FGrooveVoice where
  Phase : ℚ := 0
  Phase2 : ℚ := 0
  Freq : ℚ := 220
  Env : ℚ := 0
  EnvTime : ℚ := 0
  A : ℚ := 5 / 1000
  D : ℚ := 12 / 100
  S : ℚ := 35 / 100
  R : ℚ := 40 / 100
  Pan : ℚ := 0

/-- Retrigger helper `FGrooveVoice::Trigger`. -/
def FGrooveVoice.Trigger (V : FGrooveVoice) : FGrooveVoice :=
  { V with Env := 1, EnvTime := 0 }

/-- Internal state of `class FGrooveSoundGenerator` with its member initialisers. -/
structure FGrooveSoundGenerator where
  BPM : ℚ := 100
  BPMShadow : ℚ := -1
  Brightness : ℚ := 1 / 2
  Density : ℚ := 35 / 100
  Motion : ℚ := 0
  RootMidi : Int := 60
  SeedShadow : Int := 12345
  Scale : EProcScale := Ionian
  ScaleShadow : EProcScale := Ionian
  bArpOn : Bool := true
  bPadOn : Bool := true
  bPercOn : Bool := true
  SampleRate : Int := 48000
  Channels : Int := 2
  SamplesPerBeat : ℚ := 48000
  SixteenthPeriod : ℚ := 12000
  EighthPeriod : ℚ := 24000
  PadPeriod : ℚ := 96000
  Sixteenth : ℚ := 0
  Eighth : ℚ := 0
  PadGate : ℚ := 0
  ScaleSemis : List Int := []
  Walker : Int := 0
  Arp : FGrooveVoice := {}
  Pad : FGrooveVoice := {}
  PercEnv : ℚ := 0
  Rng : FRandomStream := {}
  LP : ℚ := 0
  BP : ℚ := 0
  HP : ℚ := 0
  ReverbL : ℚ := 0
  ReverbR : ℚ := 0

/-- MIDI note to frequency, `MidiToHz`, as an exact value. The source computes
it in doubles, which are finite for every note in the MIDI range and overflow
to `+inf` for notes above about 12250; statements about the signal path are
made for root notes in `[0,127]`. -/
def MidiToHz (M : FMathLib) (m : Int) : ℚ := 440 * M.Pow 2 (((m : ℚ) - 69) / 12)

/-- Soft saturation, `SoftClip`. -/
def SoftClip (x : ℚ) : ℚ := Clamp (x - (x * x * x) / 3) (-1) 1

/-- The `switch (Scale)` of `RebuildScale`: the semitone table of a selector;
a selector outside the four enumerants leaves the table empty. -/
def scaleTable (Scale : EProcScale) : List Int :=
  if Scale = Ionian then [0, 2, 4, 5, 7, 9, 11]
  else if Scale = Dorian then [0, 2, 3, 5, 7, 9, 10]
  else if Scale = MinorPentatonic then [0, 3, 5, 7, 10]
  else if Scale = HarmonicMinor then [0, 2, 3, 5, 7, 8, 11]
  else []

/-- Build the semitone offsets for the current scale, `RebuildScale`. -/
def RebuildScale (ω : RngSource) (g : FGrooveSoundGenerator) : FGrooveSoundGenerator :=
  let Semis := scaleTable g.Scale
  if Semis.length ≠ 0 then
    { g with
      ScaleSemis := Semis
      Walker := (g.Rng.RandRange ω 0 ((Semis.length : Int) - 1)).1
      Rng := (g.Rng.RandRange ω 0 ((Semis.length : Int) - 1)).2 }
  else { g with ScaleSemis := Semis, Walker := 0 }

/-- Recompute sample counts for musical periods from BPM, `UpdateTiming`. -/
def UpdateTiming (g : FGrooveSoundGenerator) : FGrooveSoundGenerator :=
  let SafeBPM := Clamp g.BPM 20 300
  let SamplesPerBeat := ((g.SampleRate : ℚ) * 60) / SafeBPM
  { g with
    SamplesPerBeat := SamplesPerBeat
    SixteenthPeriod := SamplesPerBeat / 4
    EighthPeriod := SamplesPerBeat / 2
    PadPeriod := SamplesPerBeat * 2 }

/-- Rebuild derived state if BPM or Scale changed, `UpdateTimingIfChanged`. -/
def UpdateTimingIfChanged (ω : RngSource) (g : FGrooveSoundGenerator) :
    FGrooveSoundGenerator :=
  let g1 := if IsNearlyEqual g.BPMShadow g.BPM (1 / 10000) then g
            else UpdateTiming { g with BPMShadow := g.BPM }
  if g1.ScaleShadow ≠ g1.Scale then RebuildScale ω { g1 with ScaleShadow := g1.Scale }
  else g1

/-- Arpeggio trigger on the sixteenth grid, `TriggerArp`; `none` when
`ScaleSemis[Walker]` is out of bounds. -/
def TriggerArp (M : FMathLib) (ω : RngSource) (g : FGrooveSoundGenerator) :
    Option FGrooveSoundGenerator :=
  let Step := (g.Rng.RandRange ω (-1) 1).1
  let Walker := Clamp (g.Walker + Step) 0 ((g.ScaleSemis.length : Int) - 1)
  match TArrayGet g.ScaleSemis Walker with
  | none => none
  | some Semi =>
    let Midi := g.RootMidi + Semi + 12
    some { g with
      Rng := (g.Rng.RandRange ω (-1) 1).2
      Walker := Walker
      Arp := ({ g.Arp with Freq := MidiToHz M Midi }).Trigger }

/-- Pad trigger on the 2-beat gate, `TriggerPad`; `none` when
`ScaleSemis[Walker]` is out of bounds. -/
def TriggerPad (M : FMathLib) (g : FGrooveSoundGenerator) : Option FGrooveSoundGenerator :=
  let i0 := g.Walker
  match TArrayGet g.ScaleSemis i0 with
  | none => none
  | some Semi =>
    let Midi := g.RootMidi + Semi
    some { g with
      Pad := ({ g.Pad with Freq := MidiToHz M Midi, Phase2 := 0 }).Trigger
      Arp := { g.Arp with Phase2 := 0 } }

/-- Start a noise burst, `TriggerPerc`. -/
def TriggerPerc (g : FGrooveSoundGenerator) : FGrooveSoundGenerator :=
  { g with PercEnv := 1 }

/-- Per-voice oscillator + envelope + pan mixed into `L` / `R`, `StepVoice`.
Returns the updated voice and accumulators. -/
def StepVoice (M : FMathLib) (g : FGrooveSoundGenerator) (V : FGrooveVoice)
    (Bright L R : ℚ) : FGrooveVoice × ℚ × ℚ :=
  let DetuneCents := 10 + 60 * Bright
  let Ratio := M.Pow 2 (DetuneCents / 1200)
  let f1 := V.Freq
  let f2 := V.Freq * Ratio
  let Phase := V.Phase + (2 * M.PI) * (f1 / (g.SampleRate : ℚ))
  let Phase2 := V.Phase2 + (2 * M.PI) * (f2 / (g.SampleRate : ℚ))
  let s1 := 2 * (Phase / (2 * M.PI) - ((⌊Phase / (2 * M.PI) + 1 / 2⌋ : Int) : ℚ))
  let s2 := 2 * (Phase2 / (2 * M.PI) - ((⌊Phase2 / (2 * M.PI) + 1 / 2⌋ : Int) : ℚ))
  let s := (1 / 2) * (s1 + s2)
  let EnvTime := V.EnvTime + 1
  let AtkS := V.A * (g.SampleRate : ℚ)
  let RelS := max 1 (V.R * (g.SampleRate : ℚ))
  let target := if EnvTime < AtkS then 1 else V.S
  let alpha := 1 / 1000 + (7 / 1000) * Bright
  let Env := (V.Env + (target - V.Env) * alpha) * (1 - 1 / RelS)
  let brightShape := Clamp (g.Brightness + (1 / 4) * g.Motion) 0 1
  let shaped := (1 - brightShape) * s + brightShape * |s|
  let out := SoftClip (Env * shaped * (1 / 4))
  ({ V with Phase := Phase, Phase2 := Phase2, EnvTime := EnvTime, Env := Env },
    L + out * ((1 / 2) * (1 - V.Pan)),
    R + out * ((1 / 2) * (1 + V.Pan)))

/-- Percussion: filtered noise blip with fast decay, `StepPerc`.
Returns the updated generator and accumulators. -/
def StepPerc (M : FMathLib) (ω : RngSource) (g : FGrooveSoundGenerator) (L R : ℚ) :
    FGrooveSoundGenerator × ℚ × ℚ :=
  if g.PercEnv ≤ 1 / 100000 then (g, L, R)
  else
    let n := (g.Rng.GetFraction ω).1 * 2 - 1
    let cf := 2000 + 4000 * (4 / 10 + (6 / 10) * g.Brightness)
    let a := Clamp (cf / (g.SampleRate : ℚ)) 0 (1 / 4)
    let LP := g.LP + a * (n - g.LP)
    let HP := g.HP + a * (LP - g.HP)
    let v := Clamp HP (-1) 1 * g.PercEnv * (6 / 10)
    ({ g with
        Rng := (g.Rng.GetFraction ω).2
        LP := LP
        HP := HP
        PercEnv := g.PercEnv * M.Pow (1 / 1000) (1 / ((4 / 100) * (g.SampleRate : ℚ))) },
      L + v * (35 / 100),
      R + v * (35 / 100))

/-- The counter idiom of the render loop, `if (++X >= Period) { X -= Period; ... }`:
the new counter value and whether it wrapped. -/
def clockTick (Counter Period : ℚ) : ℚ × Bool :=
  if Counter + 1 ≥ Period then (Counter + 1 - Period, true) else (Counter + 1, false)

/-- Sixteenth clock line of the render loop: tick, and on a wrap trigger the
arpeggio when it is enabled. -/
def tickSixteenth (M : FMathLib) (ω : RngSource) (g : FGrooveSoundGenerator) :
    Option FGrooveSoundGenerator :=
  let g1 := { g with Sixteenth := (clockTick g.Sixteenth g.SixteenthPeriod).1 }
  if (clockTick g.Sixteenth g.SixteenthPeriod).2 = true ∧ g1.bArpOn = true then
    TriggerArp M ω g1
  else some g1

/-- Eighth clock line of the render loop: tick, and on a wrap trigger the
percussion when it is enabled and a draw falls below `PercPr`. -/
def tickEighth (ω : RngSource) (PercPr : ℚ) (g : FGrooveSoundGenerator) :
    FGrooveSoundGenerator :=
  let g1 := { g with Eighth := (clockTick g.Eighth g.EighthPeriod).1 }
  if (clockTick g.Eighth g.EighthPeriod).2 = true ∧ g1.bPercOn = true then
    let g2 := { g1 with Rng := (g1.Rng.GetFraction ω).2 }
    if (g1.Rng.GetFraction ω).1 < PercPr then TriggerPerc g2 else g2
  else g1

/-- Pad clock line of the render loop: tick, and on a wrap trigger the pad
when it is enabled. -/
def tickPadGate (M : FMathLib) (g : FGrooveSoundGenerator) : Option FGrooveSoundGenerator :=
  let g1 := { g with PadGate := (clockTick g.PadGate g.PadPeriod).1 }
  if (clockTick g.PadGate g.PadPeriod).2 = true ∧ g1.bPadOn = true then TriggerPad M g1
  else some g1

/-- Voice mixing of one frame: step the enabled voices into fresh `L` / `R`. -/
def mixVoices (M : FMathLib) (ω : RngSource) (Bright : ℚ) (g : FGrooveSoundGenerator) :
    FGrooveSoundGenerator × ℚ × ℚ :=
  let L0 : ℚ := 0
  let R0 : ℚ := 0
  let p := if g.bPadOn = true then StepVoice M g g.Pad (Bright * (6 / 10)) L0 R0
           else (g.Pad, L0, R0)
  let g1 := { g with Pad := p.1 }
  let a := if g1.bArpOn = true then StepVoice M g1 g1.Arp Bright p.2.1 p.2.2
           else (g1.Arp, p.2.1, p.2.2)
  let g2 := { g1 with Arp := a.1 }
  if g2.bPercOn = true then StepPerc M ω g2 a.2.1 a.2.2 else (g2, a.2.1, a.2.2)

/-- What one iteration of the render loop hands back: the new state, the two
samples `dl`, `dr` and the mono mix used for metering. -/
structure FrameResult where
  Gen : FGrooveSoundGenerator
  dl : ℚ
  dr : ℚ
  mono : ℚ

/-- Body of the render loop for one frame (clocks, voices, feedback, band
split); the caller writes `dl` / `dr` to the buffer. -/
def renderFrame (M : FMathLib) (ω : RngSource) (Bright PercPr : ℚ)
    (g : FGrooveSoundGenerator) : Option FrameResult :=
  match tickSixteenth M ω g with
  | none => none
  | some g1 =>
    match tickPadGate M (tickEighth ω PercPr g1) with
    | none => none
    | some g3 =>
      let m := mixVoices M ω Bright g3
      let g4 := m.1
      let fb := 12 / 100 + (25 / 100) * Bright
      let dl := m.2.1 + g4.ReverbL * fb
      let dr := m.2.2 + g4.ReverbR * fb
      let mono := (1 / 2) * (dl + dr)
      let LP := g4.LP + (25 / 10000) * (mono - g4.LP)
      let HP := g4.HP + (2 / 100) * (mono - g4.HP)
      let BP := g4.BP + (mono - LP - (HP - mono))
      some { Gen := { g4 with ReverbL := dl, ReverbR := dr, LP := LP, HP := HP, BP := BP }
             dl := dl, dr := dr, mono := mono }

/-- State threaded through the render loop: the generator, the writes made to
`OutAudio` so far (index, value; oldest first) and `blockSumSq`. -/
structure LoopState where
  Gen : FGrooveSoundGenerator
  OutAudio : List (Int × ℚ)
  blockSumSq : ℚ

/-- The render loop `for (i = 0; i < NumSamples; i += Channels)`, started at
index `i`. The first argument bounds the number of iterations; `none` when it
is exhausted or a frame indexes the scale table out of bounds. -/
def renderLoop (M : FMathLib) (ω : RngSource) (Bright PercPr : ℚ) (NumSamples : Int) :
    Nat → Int → LoopState → Option LoopState
  | fuel, i, st =>
    if i < NumSamples then
      match fuel with
      | 0 => none
      | fuel + 1 =>
        match renderFrame M ω Bright PercPr st.Gen with
        | none => none
        | some fr =>
          let Out1 := st.OutAudio ++ [(i, fr.dl)]
          let Out2 := if fr.Gen.Channels > 1 then Out1 ++ [(i + 1, fr.dr)] else Out1
          renderLoop M ω Bright PercPr NumSamples fuel (i + fr.Gen.Channels)
            { Gen := fr.Gen, OutAudio := Out2, blockSumSq := st.blockSumSq + fr.mono * fr.mono }
    else some st

/-- Parameter refresh at the top of `OnGenerateAudio`: copy the component
fields and reseed when the seed changed; a dead owner leaves the state as is. -/
def pullParameters (g : FGrooveSoundGenerator) (Owner : Option UGrooveSynthComponent) :
    FGrooveSoundGenerator :=
  match Owner with
  | none => g
  | some C =>
    let g1 := { g with
      BPM := C.BPM, RootMidi := C.RootMidi, Scale := C.Scale, Density := C.Density
      Brightness := C.Brightness, Motion := C.Motion
      bArpOn := C.bArpOn, bPadOn := C.bPadOn, bPercOn := C.bPercOn }
    if g1.SeedShadow ≠ C.Seed then
      { g1 with SeedShadow := C.Seed, Rng := FRandomStream.Initialize C.Seed }
    else g1

/-- Meter publish at the end of `OnGenerateAudio`: one-pole smoothing of the
seven meters with `kMeterSmoothing = 0.20`. -/
def publishMeters (M : FMathLib) (g : FGrooveSoundGenerator) (blockSumSq : ℚ)
    (NumSamples : Int) (C : UGrooveSynthComponent) : UGrooveSynthComponent :=
  let rms := M.Sqrt (blockSumSq / ((max 1 (Int.tdiv NumSamples g.Channels) : Int) : ℚ))
  let k : ℚ := 20 / 100
  { C with
    AnRMS := (1 - k) * C.AnRMS + k * rms
    AnArpEnv := (1 - k) * C.AnArpEnv + k * g.Arp.Env
    AnPadEnv := (1 - k) * C.AnPadEnv + k * g.Pad.Env
    AnPercEnv := (1 - k) * C.AnPercEnv + k * g.PercEnv
    AnBass := (1 - k) * C.AnBass + k * |g.LP|
    AnMid := (1 - k) * C.AnMid + k * |g.BP|
    AnTreble := (1 - k) * C.AnTreble + k * |g.HP| }

/-- Result of one `OnGenerateAudio` call: the generator afterwards, the owner
with its meters updated, the writes made to `OutAudio` and the returned count. -/
structure AudioResult where
  Gen : FGrooveSoundGenerator
  Owner : Option UGrooveSynthComponent
  OutAudio : List (Int × ℚ)
  Returned : Int

/-- The render entry point `OnGenerateAudio(OutAudio, NumSamples)`; `none`
when the loop does not finish or indexes the scale table out of bounds. -/
def OnGenerateAudio (M : FMathLib) (ω : RngSource) (g : FGrooveSoundGenerator)
    (Owner : Option UGrooveSynthComponent) (NumSamples : Int) : Option AudioResult :=
  let g1 := UpdateTimingIfChanged ω (pullParameters g Owner)
  let Bright := Clamp (g1.Brightness + (30 / 100) * g1.Motion) 0 1
  let PercPr := Clamp (g1.Density + (20 / 100) * g1.Motion) 0 1
  match renderLoop M ω Bright PercPr NumSamples NumSamples.toNat 0
      { Gen := g1, OutAudio := [], blockSumSq := 0 } with
  | none => none
  | some st =>
    some { Gen := st.Gen
           Owner := Owner.map (publishMeters M st.Gen st.blockSumSq NumSamples)
           OutAudio := st.OutAudio
           Returned := NumSamples }

/-- The constructor `FGrooveSoundGenerator(Init, InOwner)`; `InitSampleRate` and
`InitNumChannels` are the host-supplied `Init.SampleRate` and `Init.NumChannels`.
The stored `SampleRate` is the source's `int32` member for host rates below
`2^31 - 0.5`. -/
def construct (ω : RngSource) (InitSampleRate : ℚ) (InitNumChannels : Int)
    (Owner : Option UGrooveSynthComponent) : FGrooveSoundGenerator :=
  let g0 : FGrooveSoundGenerator :=
    { SampleRate := if InitSampleRate > 0 then RoundToInt InitSampleRate else 48000
      Channels := if InitNumChannels > 0 then InitNumChannels else 2 }
  let g1 : FGrooveSoundGenerator :=
    match Owner with
    | none => g0
    | some C =>
      { g0 with
        BPM := C.BPM, RootMidi := C.RootMidi, Scale := C.Scale, Density := C.Density
        Brightness := C.Brightness, SeedShadow := C.Seed
        bArpOn := C.bArpOn, bPadOn := C.bPadOn, bPercOn := C.bPercOn }
  let g2 := { g1 with Rng := FRandomStream.Initialize g1.SeedShadow }
  let g3 := UpdateTiming (RebuildScale ω g2)
  { g3 with
    Arp := { g3.Arp with A := 8 / 100, D := 10 / 100, S := 30 / 100, R := 20 / 100,
                         Pan := -(2 / 10) }
    Pad := { g3.Pad with A := 20 / 100, D := 50 / 100, S := 60 / 100, R := 80 / 100,
                         Pan := 2 / 10 } }

/-! ## GrooveSynthComponent.cpp: host component -/

/-- Blueprint control `UGrooveSynthComponent::Reseed`. -/
def UGrooveSynthComponent.Reseed (C : UGrooveSynthComponent) (NewSeed : Int) :
    UGrooveSynthComponent :=
  { C with Seed := NewSeed }

/-- Blueprint control `UGrooveSynthComponent::SetMotionAmount`. -/
def UGrooveSynthComponent.SetMotionAmount (C : UGrooveSynthComponent) (Normalized01 : ℚ) :
    UGrooveSynthComponent :=
  { C with Motion := Clamp Normalized01 0 1 }

/-! ## ProcAudio.cpp -/

/-- The placeable actor `AProcAudio`: its `Synth` pointer, `none` when null. -/
structure AProcAudio where
  Synth : Option UGrooveSynthComponent := none

/-- Two's-complement wrap of an `int32` result (what the sums of `CycleScale`
hold after an overflow). -/
def wrapInt32 (x : Int) : Int := (x + 2147483648) % 4294967296 - 2147483648

/-- The conversion `static_cast<EProcScale>(Next)` of an `int32` to the enum's
underlying `uint8`: the value modulo 256. -/
def castToEProcScale (x : Int) : EProcScale := (x % 256).toNat

/-- Public control `AProcAudio::NudgeBPM`. -/
def AProcAudio.NudgeBPM (A : AProcAudio) (Delta : ℚ) : AProcAudio :=
  match A.Synth with
  | none => A
  | some S => { A with Synth := some { S with BPM := Clamp (S.BPM + Delta) 60 160 } }

/-- Public control `AProcAudio::CycleScale`; `%` is the truncating remainder of C++. -/
def AProcAudio.CycleScale (A : AProcAudio) (Dir : Int) : AProcAudio :=
  match A.Synth with
  | none => A
  | some S =>
    let Count : Int := 4
    let Cur : Int := (S.Scale : Int)
    let Next : Int := Int.tmod (wrapInt32 (wrapInt32 (Cur + Dir) + Count)) Count
    { A with Synth := some (({ S with Scale := castToEProcScale Next }).Reseed S.Seed) }

/-- Public control `AProcAudio::ReseedNow`; `RandValue` is what `FMath::Rand()` returns. -/
def AProcAudio.ReseedNow (A : AProcAudio) (RandValue : Int) : AProcAudio :=
  match A.Synth with
  | none => A
  | some S => { A with Synth := some (S.Reseed RandValue) }

/-- Public control `AProcAudio::UpdateFromSpeed`. -/
def AProcAudio.UpdateFromSpeed (A : AProcAudio) (Speed MaxSpeed : ℚ) : AProcAudio :=
  match A.Synth with
  | none => A
  | some S =>
    { A with Synth := some (S.SetMotionAmount (Clamp (Speed / max 1 MaxSpeed) 0 1)) }

/-! ## Auxiliary notions used in the statements and proofs -/

/-- Repeated arpeggio triggers: `n` calls of `TriggerArp` in a row. -/
def triggerArpN (M : FMathLib) (ω : RngSource) : Nat → FGrooveSoundGenerator →
    Option FGrooveSoundGenerator
  | 0, g => some g
  | n + 1, g =>
    match TriggerArp M ω g with
    | none => none
    | some g1 => triggerArpN M ω n g1

/-- An operation on a melodic voice: a retrigger, or one `StepVoice` call with
the given `Bright` argument. -/
inductive VoiceOp where
  | trigger : VoiceOp
  | step (Bright : ℚ) : VoiceOp

/-- Apply one voice operation (the voice is stepped by generator `g`). -/
def applyVoiceOp (M : FMathLib) (g : FGrooveSoundGenerator) (V : FGrooveVoice) :
    VoiceOp → FGrooveVoice
  | VoiceOp.trigger => V.Trigger
  | VoiceOp.step Bright => (StepVoice M g V Bright 0 0).1

/-- Apply a sequence of voice operations, first to last. -/
def runVoiceOps (M : FMathLib) (g : FGrooveSoundGenerator) (V : FGrooveVoice)
    (ops : List VoiceOp) : FGrooveVoice :=
  ops.foldl (applyVoiceOp M g) V

/-- A clock run for `n` frames from counter value `c` with a fixed period:
the counter afterwards and the number of wrap events emitted. -/
def clockRun (Period : ℚ) : Nat → ℚ → ℚ × Nat
  | 0, c => (c, 0)
  | n + 1, c =>
    ((clockTick (clockRun Period n c).1 Period).1,
     (clockRun Period n c).2 + (if (clockTick (clockRun Period n c).1 Period).2 then 1 else 0))

/-- The part of the generator state that no render-loop iteration writes
(parameters, shadows, rates, periods and the scale table): the state with
every per-frame field blanked. -/
def configOf (g : FGrooveSoundGenerator) : FGrooveSoundGenerator :=
  { g with
    Sixteenth := 0, Eighth := 0, PadGate := 0, Walker := 0, Arp := {}, Pad := {}
    PercEnv := 0, Rng := {}, LP := 0, BP := 0, HP := 0, ReverbL := 0, ReverbR := 0 }

/-- The walker is a valid index of the scale table. -/
def WalkerOK (g : FGrooveSoundGenerator) : Prop :=
  0 ≤ g.Walker ∧ g.Walker < (g.ScaleSemis.length : Int)

/-- The render loop unrolled for a given number of frames, started at index `i`. -/
def runFrames (M : FMathLib) (ω : RngSource) (Bright PercPr : ℚ) :
    Nat → Int → LoopState → Option LoopState
  | 0, _, st => some st
  | k + 1, i, st =>
    match renderFrame M ω Bright PercPr st.Gen with
    | none => none
    | some fr =>
      let Out1 := st.OutAudio ++ [(i, fr.dl)]
      let Out2 := if fr.Gen.Channels > 1 then Out1 ++ [(i + 1, fr.dr)] else Out1
      runFrames M ω Bright PercPr k (i + fr.Gen.Channels)
        { Gen := fr.Gen, OutAudio := Out2, blockSumSq := st.blockSumSq + fr.mono * fr.mono }

/-- Number of iterations of `for (i = 0; i < NumSamples; i += Channels)`. -/
def frameCount (NumSamples Channels : Int) : Nat :=
  ((NumSamples + Channels - 1) / Channels).toNat

/-- The first two steps of `OnGenerateAudio`: parameter refresh, then
timing / scale reconciliation. -/
def prepare (ω : RngSource) (g : FGrooveSoundGenerator) (Owner : Option UGrooveSynthComponent) :
    FGrooveSoundGenerator :=
  UpdateTimingIfChanged ω (pullParameters g Owner)

/-- The frames of the render loop in order: `k` iterations from generator `g`,
with the generator left afterwards; `none` when a frame reads the scale table
out of bounds. -/
def frameSeq (M : FMathLib) (ω : RngSource) (Bright PercPr : ℚ) :
    Nat → FGrooveSoundGenerator → Option (FGrooveSoundGenerator × List FrameResult)
  | 0, g => some (g, [])
  | k + 1, g =>
    match renderFrame M ω Bright PercPr g with
    | none => none
    | some fr =>
      match frameSeq M ω Bright PercPr k fr.Gen with
      | none => none
      | some r => some (r.1, fr :: r.2)

/-- The writes one iteration makes at index `i`: `OutAudio[i] = dl` and, with
more than one channel, `OutAudio[i + 1] = dr`. -/
def frameWrites (Channels i : Int) (fr : FrameResult) : List (Int × ℚ) :=
  if Channels > 1 then [(i, fr.dl), (i + 1, fr.dr)] else [(i, fr.dl)]

/-- The writes of consecutive iterations, the first at index `i`, each
advancing the index by `Channels`. -/
def writesOf (Channels : Int) : Int → List FrameResult → List (Int × ℚ)
  | _, [] => []
  | i, fr :: frs => frameWrites Channels i fr ++ writesOf Channels (i + Channels) frs

/-- The running `blockSumSq` after the given frames. -/
def sumSq (s : ℚ) (frs : List FrameResult) : ℚ :=
  frs.foldl (fun acc fr => acc + fr.mono * fr.mono) s

/-- Content of buffer slot `j` after the writes, oldest first: the value of
the last write to `j`, `none` for a slot never written. -/
def readBack : List (Int × ℚ) → Int → Option ℚ
  | [], _ => none
  | w :: rest, j =>
    match readBack rest j with
    | some v => some v
    | none => if w.1 = j then some w.2 else none

/-- The samples a call hands to the host: slots `0 .. NumSamples - 1` of the
buffer after the call's writes. -/
def bufferAfter (Out : List (Int × ℚ)) (NumSamples : Int) : List (Option ℚ) :=
  (List.range NumSamples.toNat).map (fun j : Nat => readBack Out (j : Int))

/-- The buffer slots of one whole frame: `dl`, then `dr`, then unwritten slots
for any further channel. -/
def slotsOf (Channels : Int) (fr : FrameResult) : List (Option ℚ) :=
  (List.range Channels.toNat).map
    (fun j => if j = 0 then some fr.dl else if j = 1 then some fr.dr else none)

/-- Render consecutive blocks of the given sizes with an owner whose
parameters stay fixed (each call hands its updated owner to the next), and
concatenate the samples of the blocks. -/
def renderBlocks (M : FMathLib) (ω : RngSource) :
    List Int → FGrooveSoundGenerator → Option UGrooveSynthComponent →
      Option (FGrooveSoundGenerator × List (Option ℚ))
  | [], g, _ => some (g, [])
  | n :: rest, g, Owner =>
    match OnGenerateAudio M ω g Owner n with
    | none => none
    | some res =>
      match renderBlocks M ω rest res.Gen res.Owner with
      | none => none
      | some r => some (r.1, bufferAfter res.OutAudio n ++ r.2)

/-- The per-block constant `Bright` of `OnGenerateAudio`. -/
def blockBright (g : FGrooveSoundGenerator) : ℚ :=
  Clamp (g.Brightness + (30 / 100) * g.Motion) 0 1

/-- The per-block constant `PercPr` of `OnGenerateAudio`. -/
def blockPercPr (g : FGrooveSoundGenerator) : ℚ :=
  Clamp (g.Density + (20 / 100) * g.Motion) 0 1

/-- The owner, when alive, selects one of the four enumerated scales. -/
def OwnerScaleOK (Owner : Option UGrooveSynthComponent) : Prop :=
  ∀ C, Owner = some C → C.Scale ≤ 3

/-- The generator already reflects the owner: a further parameter refresh and
reconciliation would change nothing. -/
def Settled (Owner : Option UGrooveSynthComponent) (g : FGrooveSoundGenerator) : Prop :=
  (∀ C, Owner = some C →
    g.BPM = C.BPM ∧ g.RootMidi = C.RootMidi ∧ g.Scale = C.Scale ∧ g.Density = C.Density ∧
    g.Brightness = C.Brightness ∧ g.Motion = C.Motion ∧ g.bArpOn = C.bArpOn ∧
    g.bPadOn = C.bPadOn ∧ g.bPercOn = C.bPercOn ∧ g.SeedShadow = C.Seed) ∧
  IsNearlyEqual g.BPMShadow g.BPM (1 / 10000) = true ∧ g.ScaleShadow = g.Scale

/-- The guard under which the next frame calls `TriggerArp`: the sixteenth
clock wraps on that frame and the arpeggio is enabled. -/
def arpTriggerDue (g : FGrooveSoundGenerator) : Prop :=
  (clockTick g.Sixteenth g.SixteenthPeriod).2 = true ∧ g.bArpOn = true

/-- Owner of the block-split counterexample: 150 BPM, percussion only, at full
density, so that the percussion trigger does not depend on the draws. -/
def cxOwner : UGrooveSynthComponent :=
  { BPM := 150, Density := 1, bArpOn := false, bPadOn := false }

/-- A melodic voice within its working bounds: envelope and sustain level in
`[0,1]`, pan within the `±0.2` of the two presets. -/
def VoiceOK (V : FGrooveVoice) : Prop :=
  0 ≤ V.Env ∧ V.Env ≤ 1 ∧ 0 ≤ V.S ∧ V.S ≤ 1 ∧ -(1 / 5) ≤ V.Pan ∧ V.Pan ≤ 1 / 5

/-- The signal-path invariant of the renderer: positive sample rate, both
voices within bounds, percussion envelope in `[0,1]`, feedback lines in `[-1,1]`. -/
def Bounded (g : FGrooveSoundGenerator) : Prop :=
  0 < g.SampleRate ∧ VoiceOK g.Arp ∧ VoiceOK g.Pad ∧ 0 ≤ g.PercEnv ∧ g.PercEnv ≤ 1 ∧
    |g.ReverbL| ≤ 1 ∧ |g.ReverbR| ≤ 1

/-- What is assumed of the engine's `Pow` for the percussion decay: the factor
`Pow(0.001, e)` of a positive exponent lies in `[0,1]`. -/
def PowOK (M : FMathLib) : Prop :=
  ∀ e : ℚ, 0 < e → 0 ≤ M.Pow (1 / 1000) e ∧ M.Pow (1 / 1000) e ≤ 1

/-- The owner, when alive, holds parameters within the documented ranges:
tempo in `[20,300]`, density, brightness and motion in `[0,1]`, one of the four
scales, and a root note within the MIDI range `[0,127]`, for which every note
frequency is a finite double (any seed and enable flags). -/
def InRange (Owner : Option UGrooveSynthComponent) : Prop :=
  ∀ C, Owner = some C →
    20 ≤ C.BPM ∧ C.BPM ≤ 300 ∧ 0 ≤ C.Density ∧ C.Density ≤ 1 ∧
    0 ≤ C.Brightness ∧ C.Brightness ≤ 1 ∧ 0 ≤ C.Motion ∧ C.Motion ≤ 1 ∧ C.Scale ≤ 3 ∧
    0 ≤ C.RootMidi ∧ C.RootMidi ≤ 127

/-- States reachable from a renderer freshly constructed at a host sample rate
that rounds to a positive `int32` (at least 0.5 and below `2^31 - 0.5`), by
rendering blocks of any size under owners whose parameters are within the
documented ranges. -/
inductive Reachable (M : FMathLib) (ω : RngSource) : FGrooveSoundGenerator → Prop where
  | fresh (sr : ℚ) (ch : Int) (Owner : Option UGrooveSynthComponent) :
      InRange Owner → 1 / 2 ≤ sr → sr < 2147483647 + 1 / 2 →
      Reachable M ω (construct ω sr ch Owner)
  | block (g : FGrooveSoundGenerator) (Owner : Option UGrooveSynthComponent) (N : Int)
      (res : AudioResult) :
      Reachable M ω g → InRange Owner → OnGenerateAudio M ω g Owner N = some res →
      Reachable M ω res.Gen

/-- The seven meters published at the end of `OnGenerateAudio`. -/
inductive Meter where
  | RMS
  | ArpEnv
  | PadEnv
  | PercEnv
  | Bass
  | Mid
  | Treble
  deriving DecidableEq

/-- The published value of a meter on the component. -/
def meterValue (C : UGrooveSynthComponent) : Meter → ℚ
  | .RMS => C.AnRMS
  | .ArpEnv => C.AnArpEnv
  | .PadEnv => C.AnPadEnv
  | .PercEnv => C.AnPercEnv
  | .Bass => C.AnBass
  | .Mid => C.AnMid
  | .Treble => C.AnTreble

/-- The per-block input of a meter, as the meter publish of `OnGenerateAudio`
computes it from the generator at the end of the block. -/
def meterInput (M : FMathLib) (g : FGrooveSoundGenerator) (blockSumSq : ℚ)
    (NumSamples : Int) : Meter → ℚ
  | .RMS => M.Sqrt (blockSumSq / ((max 1 (Int.tdiv NumSamples g.Channels) : Int) : ℚ))
  | .ArpEnv => g.Arp.Env
  | .PadEnv => g.Pad.Env
  | .PercEnv => g.PercEnv
  | .Bass => |g.LP|
  | .Mid => |g.BP|
  | .Treble => |g.HP|

/-- What the meter publish of one block reads: the generator at the end of
the block, `blockSumSq` and `NumSamples`. -/
structure MeterBlock where
  Gen : FGrooveSoundGenerator
  blockSumSq : ℚ
  NumSamples : Int

/-- The meter publishes of consecutive blocks, oldest first. -/
def publishRun (M : FMathLib) : UGrooveSynthComponent → List MeterBlock → UGrooveSynthComponent
  | C, [] => C
  | C, b :: bs => publishRun M (publishMeters M b.Gen b.blockSumSq b.NumSamples C) bs

/-- The envelope update of `StepPerc` over an ordered field, for a decay
factor `d`: at or below the threshold the envelope is kept, otherwise it is
multiplied by `d`. -/
def percEnvStep {K : Type} [LinearOrderedField K] (d e : K) : K :=
  if e ≤ 1 / 100000 then e else e * d

/-- Consecutive `StepPerc` calls, `n` of them, with nothing in between. -/
def stepPercN (M : FMathLib) (ω : RngSource) :
    Nat → FGrooveSoundGenerator × ℚ × ℚ → FGrooveSoundGenerator × ℚ × ℚ
  | 0, s => s
  | n + 1, s => stepPercN M ω n (StepPerc M ω s.1 s.2.1 s.2.2)

/-- The owner's tempo, when the owner is alive, lies in `[20, 300]`. -/
def TempoInRange (Owner : Option UGrooveSynthComponent) : Prop :=
  ∀ C, Owner = some C → 20 ≤ C.BPM ∧ C.BPM ≤ 300

/-- States reached from a renderer constructed at 48000 Hz by rendering blocks
frame by frame, under owners whose tempo lies in `[20, 300]` and, from the
second block on, is not above the tempo of the block before. The frames of a
block start after its parameter refresh and reconciliation (`prepare`); the
state after any number of them is reached. -/
inductive SlowingRun (M : FMathLib) (ω : RngSource) : FGrooveSoundGenerator → Prop where
  | fresh (ch : Int) (Owner : Option UGrooveSynthComponent) :
      TempoInRange Owner → SlowingRun M ω (construct ω 48000 ch Owner)
  | block (g : FGrooveSoundGenerator) (Owner : Option UGrooveSynthComponent) (k : Nat)
      (r : FGrooveSoundGenerator × List FrameResult) :
      SlowingRun M ω g → TempoInRange Owner →
      (∀ C, Owner = some C → g.BPMShadow = -1 ∨ C.BPM ≤ g.BPM) →
      frameSeq M ω (blockBright (prepare ω g Owner)) (blockPercPr (prepare ω g Owner)) k
        (prepare ω g Owner) = some r →
      SlowingRun M ω r.1

/-- The clock state of a constructed renderer before its first block: rate
48000, tempo in `[20, 300]`, the tempo shadow at its initialiser `-1`, positive
periods and all counters at zero. -/
def FreshClocks (g : FGrooveSoundGenerator) : Prop :=
  g.SampleRate = 48000 ∧ 20 ≤ g.BPM ∧ g.BPM ≤ 300 ∧ g.BPMShadow = -1 ∧
  0 < g.SixteenthPeriod ∧ 0 < g.EighthPeriod ∧ 0 < g.PadPeriod ∧
  g.Sixteenth = 0 ∧ g.Eighth = 0 ∧ g.PadGate = 0

/-- The clock state from the first reconciliation on: rate 48000, tempo within
`[20, BPMShadow]`, the shadow at most 300, the periods those of the shadow
tempo, and every counter within its period. -/
def ClockInv (g : FGrooveSoundGenerator) : Prop :=
  g.SampleRate = 48000 ∧ 20 ≤ g.BPM ∧ g.BPM ≤ g.BPMShadow ∧ g.BPMShadow ≤ 300 ∧
  g.SixteenthPeriod = 48000 * 60 / g.BPMShadow / 4 ∧
  g.EighthPeriod = 48000 * 60 / g.BPMShadow / 2 ∧
  g.PadPeriod = 48000 * 60 / g.BPMShadow * 2 ∧
  (0 ≤ g.Sixteenth ∧ g.Sixteenth < g.SixteenthPeriod) ∧
  (0 ≤ g.Eighth ∧ g.Eighth < g.EighthPeriod) ∧
  (0 ≤ g.PadGate ∧ g.PadGate < g.PadPeriod)

/-- A concrete math library: `PI` is the engine's single-precision constant,
`Pow` is exact at integer exponents and `Sqrt` is exact on perfect squares. -/
def exampleMath : FMathLib :=
  { PI := 13176795 / 4194304
    Pow := fun b e => b ^ (⌊e⌋ : Int)
    Sqrt := Rat.sqrt }

/-- A random source whose every raw draw is `0`: `GetFraction` returns `0`
and `RandRange(Min, Max)` returns `Min`. -/
def zeroDraws : RngSource := fun _ _ => 0

/-- A random source whose every raw draw is the largest mantissa:
`GetFraction` returns `1 - 2^-23` and `RandRange(Min, Max)` returns `Max`. -/
def topDraws : RngSource := fun _ _ => 8388607

/-- A math library whose `Pow` is also exact for the cube root of `1/1000`. -/
def cubeRootMath : FMathLib :=
  { PI := 13176795 / 4194304
    Pow := fun b e => if b = 1 / 1000 ∧ e = 1 / 3 then 1 / 10 else b ^ (⌊e⌋ : Int)
    Sqrt := Rat.sqrt }

/-- Owner at 20 BPM. -/
def slowOwner : UGrooveSynthComponent := { BPM := 20 }

/-- Owner at 300 BPM. -/
def fastOwner : UGrooveSynthComponent := { BPM := 300 }

/-- A generator state in mid-note: Ionian table, walker on the third degree,
the arpeggio's detuned phase at 1 and the pad's at 1/2. -/
def midNoteState : FGrooveSoundGenerator :=
  { ScaleSemis := [0, 2, 4, 5, 7, 9, 11], Walker := 2
    Arp := { Phase := 3, Phase2 := 1, Env := 1 / 2 }
    Pad := { Phase := 2, Phase2 := 1 / 2 } }

/-! ## Basic facts about the engine helpers -/

theorem Clamp_ge {α : Type} [LinearOrder α] (X lo hi : α) : lo ≤ Clamp X lo hi := by
  unfold Clamp; exact le_max_right _ _

theorem Clamp_le {α : Type} [LinearOrder α] (X lo hi : α) (h : lo ≤ hi) :
    Clamp X lo hi ≤ hi := by
  unfold Clamp; exact max_le (min_le_right _ _) h

theorem Clamp_of_mem {α : Type} [LinearOrder α] (X lo hi : α) (h1 : lo ≤ X) (h2 : X ≤ hi) :
    Clamp X lo hi = X := by
  unfold Clamp; rw [min_eq_left h2, max_eq_left h1]

theorem Clamp_of_le {α : Type} [LinearOrder α] (X lo hi : α) (h1 : X ≤ lo) (h : lo ≤ hi) :
    Clamp X lo hi = lo := by
  unfold Clamp; rw [min_eq_left (le_trans h1 h), max_eq_right h1]

theorem Clamp_of_ge {α : Type} [LinearOrder α] (X lo hi : α) (h2 : hi ≤ X) (h : lo ≤ hi) :
    Clamp X lo hi = hi := by
  unfold Clamp; rw [min_eq_right h2, max_eq_left h]

theorem GetFraction_nonneg (ω : RngSource) (r : FRandomStream) : 0 ≤ (r.GetFraction ω).1 := by
  unfold FRandomStream.GetFraction
  positivity

theorem GetFraction_lt_one (ω : RngSource) (r : FRandomStream) : (r.GetFraction ω).1 < 1 := by
  unfold FRandomStream.GetFraction
  simp only
  rw [div_lt_one (by norm_num)]
  have h : ω r.Seed r.Count % 8388608 < 8388608 := Nat.mod_lt _ (by norm_num)
  exact_mod_cast h

theorem RandRange_ge (ω : RngSource) (r : FRandomStream) (lo hi : Int) :
    lo ≤ (r.RandRange ω lo hi).1 := by
  unfold FRandomStream.RandRange
  simp only
  split
  · rename_i h
    have h0 : (0 : ℚ) ≤ (r.GetFraction ω).1 * ((hi - lo + 1 : Int) : ℚ) :=
      mul_nonneg (GetFraction_nonneg ω r) (by exact_mod_cast le_of_lt h)
    have := Int.floor_nonneg.mpr h0
    simp only
    omega
  · exact le_refl _

theorem RandRange_le (ω : RngSource) (r : FRandomStream) (lo hi : Int) (h : lo ≤ hi) :
    (r.RandRange ω lo hi).1 ≤ hi := by
  unfold FRandomStream.RandRange
  simp only
  have hR : 0 < hi - lo + 1 := by omega
  rw [if_pos hR]
  have hRq : (0 : ℚ) < ((hi - lo + 1 : Int) : ℚ) := by exact_mod_cast hR
  have h1 : (r.GetFraction ω).1 * ((hi - lo + 1 : Int) : ℚ) < ((hi - lo + 1 : Int) : ℚ) := by
    have := mul_lt_mul_of_pos_right (GetFraction_lt_one ω r) hRq
    simpa using this
  have h2 : ⌊(r.GetFraction ω).1 * ((hi - lo + 1 : Int) : ℚ)⌋ < hi - lo + 1 :=
    Int.floor_lt.mpr h1
  simp only
  omega

theorem scaleTable_length_pos (Scale : Nat) (h : Scale ≤ 3) :
    0 < (scaleTable Scale).length := by
  have : Scale = 0 ∨ Scale = 1 ∨ Scale = 2 ∨ Scale = 3 := by omega
  rcases this with h | h | h | h <;> subst h <;> decide

theorem scaleTable_eq_nil (Scale : Nat) (h : 3 < Scale) : scaleTable Scale = [] := by
  unfold scaleTable Ionian Dorian MinorPentatonic HarmonicMinor
  have h0 : Scale ≠ 0 := by omega
  have h1 : Scale ≠ 1 := by omega
  have h2 : Scale ≠ 2 := by omega
  have h3 : Scale ≠ 3 := by omega
  simp [h0, h1, h2, h3]

theorem TArrayGet_isSome (A : List Int) (i : Int) (h0 : 0 ≤ i) (h1 : i < A.length) :
    ∃ x, TArrayGet A i = some x := by
  unfold TArrayGet
  rw [if_pos ⟨h0, h1⟩]
  have : i.toNat < A.length := by omega
  exact ⟨A.get ⟨i.toNat, this⟩, List.get?_eq_get this⟩

theorem TArrayGet_nil (i : Int) : TArrayGet [] i = none := by
  unfold TArrayGet
  split <;> simp

/-! ## Scale table and note walker -/

theorem RebuildScale_ScaleSemis (ω : RngSource) (g : FGrooveSoundGenerator) :
    (RebuildScale ω g).ScaleSemis = scaleTable g.Scale := by
  unfold RebuildScale
  simp only
  split <;> rfl

theorem RebuildScale_Walker_mem (ω : RngSource) (g : FGrooveSoundGenerator)
    (h : 0 < (scaleTable g.Scale).length) :
    0 ≤ (RebuildScale ω g).Walker ∧
      (RebuildScale ω g).Walker ≤ ((scaleTable g.Scale).length : Int) - 1 := by
  unfold RebuildScale
  simp only
  rw [if_pos (by omega)]
  exact ⟨RandRange_ge ω _ _ _, RandRange_le ω _ _ _ (by omega)⟩

theorem TriggerArp_eq_some (M : FMathLib) (ω : RngSource) (g : FGrooveSoundGenerator)
    (h : 0 < g.ScaleSemis.length) :
    ∃ g1, TriggerArp M ω g = some g1 ∧ g1.ScaleSemis = g.ScaleSemis ∧
      g1.Walker = Clamp (g.Walker + (g.Rng.RandRange ω (-1) 1).1) 0
        ((g.ScaleSemis.length : Int) - 1) := by
  have hlen : (0 : Int) ≤ (g.ScaleSemis.length : Int) - 1 := by omega
  obtain ⟨x, hx⟩ := TArrayGet_isSome g.ScaleSemis
    (Clamp (g.Walker + (g.Rng.RandRange ω (-1) 1).1) 0 ((g.ScaleSemis.length : Int) - 1))
    (Clamp_ge _ _ _) (by have := Clamp_le (g.Walker + (g.Rng.RandRange ω (-1) 1).1) 0
                            ((g.ScaleSemis.length : Int) - 1) hlen; omega)
  unfold TriggerArp
  simp only [hx]
  exact ⟨_, rfl, rfl, rfl⟩

theorem triggerArpN_bounded (M : FMathLib) (ω : RngSource) (n : Nat) :
    ∀ g : FGrooveSoundGenerator, 0 < g.ScaleSemis.length →
      ∃ g1, triggerArpN M ω n g = some g1 ∧ g1.ScaleSemis = g.ScaleSemis ∧
        (0 < n → 0 ≤ g1.Walker ∧ g1.Walker ≤ (g.ScaleSemis.length : Int) - 1) := by
  induction n with
  | zero => intro g _; exact ⟨g, rfl, rfl, fun h => absurd h (lt_irrefl 0)⟩
  | succ n ih =>
    intro g hg
    obtain ⟨g1, h1, hS, hW⟩ := TriggerArp_eq_some M ω g hg
    obtain ⟨g2, h2, hS2, hW2⟩ := ih g1 (by rw [hS]; exact hg)
    refine ⟨g2, ?_, by rw [hS2, hS], fun _ => ?_⟩
    · simp only [triggerArpN, h1]; exact h2
    · rcases Nat.eq_zero_or_pos n with hn | hn
      · subst hn
        simp only [triggerArpN] at h2
        cases h2
        rw [hW]
        exact ⟨Clamp_ge _ _ _, Clamp_le _ _ _ (by omega)⟩
      · have := hW2 hn
        rw [hS] at this
        exact this

/-- C1: for each of the four scales and every random source, after any number
of arpeggio triggers from the state left by `RebuildScale` the walker index is
in `[0, scaleLength - 1]`; a trigger whose step is `-1` at index `0` leaves the
index at `0`, and one whose step is `+1` at the last index leaves it there. -/
theorem walker_bounded (M : FMathLib) (ω : RngSource) (g : FGrooveSoundGenerator)
    (hScale : g.Scale ≤ 3) :
    (∀ n : Nat, ∃ g1, triggerArpN M ω n (RebuildScale ω g) = some g1 ∧
        g1.ScaleSemis = scaleTable g.Scale ∧
        0 ≤ g1.Walker ∧ g1.Walker ≤ ((scaleTable g.Scale).length : Int) - 1) ∧
    (∀ h : FGrooveSoundGenerator, h.ScaleSemis = scaleTable g.Scale → h.Walker = 0 →
        (h.Rng.RandRange ω (-1) 1).1 = -1 →
        ∃ h1, TriggerArp M ω h = some h1 ∧ h1.Walker = 0) ∧
    (∀ h : FGrooveSoundGenerator, h.ScaleSemis = scaleTable g.Scale →
        h.Walker = ((scaleTable g.Scale).length : Int) - 1 →
        (h.Rng.RandRange ω (-1) 1).1 = 1 →
        ∃ h1, TriggerArp M ω h = some h1 ∧
          h1.Walker = ((scaleTable g.Scale).length : Int) - 1) := by
  have hpos : 0 < (scaleTable g.Scale).length := scaleTable_length_pos g.Scale hScale
  refine ⟨fun n => ?_, fun h hS hW hStep => ?_, fun h hS hW hStep => ?_⟩
  · have hS0 := RebuildScale_ScaleSemis ω g
    obtain ⟨g1, h1, hS1, hW1⟩ := triggerArpN_bounded M ω n (RebuildScale ω g)
      (by rw [hS0]; exact hpos)
    refine ⟨g1, h1, by rw [hS1, hS0], ?_⟩
    rcases Nat.eq_zero_or_pos n with hn | hn
    · subst hn
      simp only [triggerArpN] at h1
      cases h1
      exact RebuildScale_Walker_mem ω g hpos
    · have := hW1 hn
      rw [hS0] at this
      exact this
  · obtain ⟨h1, e1, _, hW1⟩ := TriggerArp_eq_some M ω h (by rw [hS]; exact hpos)
    refine ⟨h1, e1, ?_⟩
    rw [hW1, hW, hStep, hS]
    exact Clamp_of_le _ _ _ (by norm_num) (by omega)
  · obtain ⟨h1, e1, _, hW1⟩ := TriggerArp_eq_some M ω h (by rw [hS]; exact hpos)
    refine ⟨h1, e1, ?_⟩
    rw [hW1, hW, hStep, hS]
    exact Clamp_of_ge _ _ _ (by omega) (by omega)

/-- Witness for C1 on the Ionian scale: three triggers after `RebuildScale`, a
downward step at index 0 and an upward step at the last index 6. -/
theorem walker_bounded_witness :
    (∃ g1, triggerArpN exampleMath zeroDraws 3 (RebuildScale zeroDraws {}) = some g1 ∧
        g1.ScaleSemis = scaleTable Ionian ∧
        0 ≤ g1.Walker ∧ g1.Walker ≤ ((scaleTable Ionian).length : Int) - 1) ∧
    (∃ h1, TriggerArp exampleMath zeroDraws
        { ScaleSemis := [0, 2, 4, 5, 7, 9, 11], Walker := 0 } = some h1 ∧ h1.Walker = 0) ∧
    (∃ h1, TriggerArp exampleMath topDraws
        { ScaleSemis := [0, 2, 4, 5, 7, 9, 11], Walker := 6 } = some h1 ∧ h1.Walker = 6) :=
  ⟨(walker_bounded exampleMath zeroDraws {} (by decide)).1 3,
   (walker_bounded exampleMath zeroDraws {} (by decide)).2.1
      { ScaleSemis := [0, 2, 4, 5, 7, 9, 11], Walker := 0 } rfl rfl
      (by simp [FRandomStream.RandRange, FRandomStream.GetFraction, zeroDraws]),
   (walker_bounded exampleMath topDraws {} (by decide)).2.2
      { ScaleSemis := [0, 2, 4, 5, 7, 9, 11], Walker := 6 } rfl rfl
      (by
        simp only [FRandomStream.RandRange, FRandomStream.GetFraction, topDraws]
        norm_num)⟩

/-- C8: `RebuildScale` installs the fixed table of each of the four selectors,
whatever the previous table and the random stream, and leaves the walker at an
index in `[0, tableLength - 1]` of the new table. -/
theorem RebuildScale_table (ω : RngSource) (g : FGrooveSoundGenerator) :
    (g.Scale = Ionian → (RebuildScale ω g).ScaleSemis = [0, 2, 4, 5, 7, 9, 11]) ∧
    (g.Scale = Dorian → (RebuildScale ω g).ScaleSemis = [0, 2, 3, 5, 7, 9, 10]) ∧
    (g.Scale = MinorPentatonic → (RebuildScale ω g).ScaleSemis = [0, 3, 5, 7, 10]) ∧
    (g.Scale = HarmonicMinor → (RebuildScale ω g).ScaleSemis = [0, 2, 3, 5, 7, 8, 11]) ∧
    (g.Scale ≤ 3 → 0 ≤ (RebuildScale ω g).Walker ∧
      (RebuildScale ω g).Walker ≤ ((RebuildScale ω g).ScaleSemis.length : Int) - 1) := by
  refine ⟨fun h => ?_, fun h => ?_, fun h => ?_, fun h => ?_, fun h => ?_⟩
  · rw [RebuildScale_ScaleSemis, h]; rfl
  · rw [RebuildScale_ScaleSemis, h]; rfl
  · rw [RebuildScale_ScaleSemis, h]; rfl
  · rw [RebuildScale_ScaleSemis, h]; rfl
  · rw [RebuildScale_ScaleSemis]
    exact RebuildScale_Walker_mem ω g (scaleTable_length_pos g.Scale h)

/-- Witness for C8: a generator switched to Dorian, with a stale table and walker. -/
theorem RebuildScale_table_witness :
    (RebuildScale topDraws
        { Scale := Dorian, ScaleSemis := [0, 3, 5, 7, 10], Walker := 4 }).ScaleSemis
      = [0, 2, 3, 5, 7, 9, 10] :=
  (RebuildScale_table topDraws
    { Scale := Dorian, ScaleSemis := [0, 3, 5, 7, 10], Walker := 4 }).2.1 rfl

/-- C9 (the code at the failing input): with a selector outside the four
enumerants `RebuildScale` empties the table and sets the walker to `0`, but the
next arpeggio trigger and the next pad trigger both read `ScaleSemis[Walker]`
out of bounds. -/
theorem empty_scale_trigger_out_of_bounds (M : FMathLib) (ω : RngSource)
    (g : FGrooveSoundGenerator) (h : 3 < g.Scale) :
    (RebuildScale ω g).ScaleSemis = [] ∧ (RebuildScale ω g).Walker = 0 ∧
    TriggerArp M ω (RebuildScale ω g) = none ∧ TriggerPad M (RebuildScale ω g) = none := by
  have hS : (RebuildScale ω g).ScaleSemis = [] := by
    rw [RebuildScale_ScaleSemis]; exact scaleTable_eq_nil g.Scale h
  refine ⟨hS, ?_, ?_, ?_⟩
  · unfold RebuildScale
    simp only [scaleTable_eq_nil g.Scale h]
    rfl
  · unfold TriggerArp
    simp only [hS, TArrayGet_nil]
  · unfold TriggerPad
    simp only [hS, TArrayGet_nil]

/-- Witness for C9: selector byte 255, as `CycleScale(-5)` leaves it from Ionian. -/
theorem empty_scale_trigger_out_of_bounds_witness :
    (RebuildScale zeroDraws { Scale := 255 }).ScaleSemis = [] ∧
    (RebuildScale zeroDraws { Scale := 255 }).Walker = 0 ∧
    TriggerArp exampleMath zeroDraws (RebuildScale zeroDraws { Scale := 255 }) = none ∧
    TriggerPad exampleMath (RebuildScale zeroDraws { Scale := 255 }) = none :=
  empty_scale_trigger_out_of_bounds exampleMath zeroDraws { Scale := 255 } (by decide)

/-! ## Timing -/

/-- C7: `UpdateTiming` derives the four periods from the sample rate and the
tempo clamped to `[20, 300]`; a tempo below 20 or above 300 gives the periods
of 20 or 300, and 120 BPM at 48000 Hz gives a sixteenth period of 6000. -/
theorem UpdateTiming_derivation (g : FGrooveSoundGenerator) :
    (UpdateTiming g).SamplesPerBeat = (g.SampleRate : ℚ) * 60 / Clamp g.BPM 20 300 ∧
    (UpdateTiming g).SixteenthPeriod = (UpdateTiming g).SamplesPerBeat / 4 ∧
    (UpdateTiming g).EighthPeriod = (UpdateTiming g).SamplesPerBeat / 2 ∧
    (UpdateTiming g).PadPeriod = (UpdateTiming g).SamplesPerBeat * 2 ∧
    (20 ≤ Clamp g.BPM 20 300 ∧ Clamp g.BPM 20 300 ≤ 300) ∧
    (20 ≤ g.BPM → g.BPM ≤ 300 → Clamp g.BPM 20 300 = g.BPM) ∧
    (g.BPM ≤ 20 → (UpdateTiming g).SamplesPerBeat = (g.SampleRate : ℚ) * 60 / 20) ∧
    (300 ≤ g.BPM → (UpdateTiming g).SamplesPerBeat = (g.SampleRate : ℚ) * 60 / 300) ∧
    (g.BPM = 120 → g.SampleRate = 48000 → (UpdateTiming g).SixteenthPeriod = 6000) := by
  refine ⟨rfl, rfl, rfl, rfl, ⟨Clamp_ge _ _ _, Clamp_le _ _ _ (by norm_num)⟩,
    fun h1 h2 => Clamp_of_mem _ _ _ h1 h2, fun h => ?_, fun h => ?_, fun hB hS => ?_⟩
  · show (g.SampleRate : ℚ) * 60 / Clamp g.BPM 20 300 = _
    rw [Clamp_of_le _ _ _ h (by norm_num)]
  · show (g.SampleRate : ℚ) * 60 / Clamp g.BPM 20 300 = _
    rw [Clamp_of_ge _ _ _ h (by norm_num)]
  · show (g.SampleRate : ℚ) * 60 / Clamp g.BPM 20 300 / 4 = _
    rw [hB, hS, Clamp_of_mem _ _ _ (by norm_num) (by norm_num)]
    norm_num

/-- Witness for C7: 120 BPM at 48000 Hz. -/
theorem UpdateTiming_derivation_witness :
    (UpdateTiming { BPM := 120, SampleRate := 48000 }).SixteenthPeriod = 6000 :=
  (UpdateTiming_derivation { BPM := 120, SampleRate := 48000 }).2.2.2.2.2.2.2.2 rfl rfl

/-! ## Construction -/

theorem construct_SampleRate (ω : RngSource) (sr : ℚ) (ch : Int)
    (Owner : Option UGrooveSynthComponent) :
    (construct ω sr ch Owner).SampleRate = if sr > 0 then RoundToInt sr else 48000 := by
  cases Owner <;> simp only [construct, UpdateTiming, RebuildScale] <;> split <;> rfl

theorem construct_Channels (ω : RngSource) (sr : ℚ) (ch : Int)
    (Owner : Option UGrooveSynthComponent) :
    (construct ω sr ch Owner).Channels = if ch > 0 then ch else 2 := by
  cases Owner <;> simp only [construct, UpdateTiming, RebuildScale] <;> split <;> rfl

/-- C10 (the code at the failing input): a host sample rate of 0.25 Hz passes
the `> 0` guard and is rounded to a stored sample rate of `0`, which is not
strictly positive. For comparison: the stored channel count is always
positive (`2` for a non-positive input), a non-positive rate is replaced by
48000, and a rate of at least 0.5 that rounds to a value within `int32` is
stored as that positive value. -/
theorem construct_sample_rate_rounds_to_zero (ω : RngSource)
    (Owner : Option UGrooveSynthComponent) :
    (construct ω (1 / 4) 2 Owner).SampleRate = 0 ∧
    (∀ (sr : ℚ) (ch : Int),
      0 < (construct ω sr ch Owner).Channels ∧
      (ch ≤ 0 → (construct ω sr ch Owner).Channels = 2) ∧
      (sr ≤ 0 → (construct ω sr ch Owner).SampleRate = 48000) ∧
      (1 / 2 ≤ sr → sr < 2147483647 + 1 / 2 →
        0 < (construct ω sr ch Owner).SampleRate ∧
        (construct ω sr ch Owner).SampleRate ≤ 2147483647 ∧
        (construct ω sr ch Owner).SampleRate = ⌊sr + 1 / 2⌋)) := by
  constructor
  · rw [construct_SampleRate, if_pos (by norm_num)]
    unfold RoundToInt
    norm_num
  · intro sr ch
    rw [construct_SampleRate, construct_Channels]
    refine ⟨?_, fun h => ?_, fun h => ?_, fun h hi => ?_⟩
    · split <;> omega
    · rw [if_neg (by omega)]
    · rw [if_neg (by linarith)]
    · rw [if_pos (by linarith)]
      unfold RoundToInt
      have h1 : 0 < ⌊sr + 1 / 2⌋ := Int.floor_pos.mpr (by linarith)
      have h2 : ⌊sr + 1 / 2⌋ < 2147483648 := Int.floor_lt.mpr (by push_cast; linarith)
      exact ⟨h1, by omega, rfl⟩

/-! ## Melodic voice envelope -/

theorem StepVoice_Env (M : FMathLib) (g : FGrooveSoundGenerator) (V : FGrooveVoice)
    (Bright L R : ℚ) :
    (StepVoice M g V Bright L R).1.Env =
      (V.Env + ((if V.EnvTime + 1 < V.A * (g.SampleRate : ℚ) then 1 else V.S) - V.Env) *
          (1 / 1000 + (7 / 1000) * Bright)) *
        (1 - 1 / max 1 (V.R * (g.SampleRate : ℚ))) := rfl

theorem StepVoice_S (M : FMathLib) (g : FGrooveSoundGenerator) (V : FGrooveVoice)
    (Bright L R : ℚ) : (StepVoice M g V Bright L R).1.S = V.S := rfl

theorem StepVoice_Pan (M : FMathLib) (g : FGrooveSoundGenerator) (V : FGrooveVoice)
    (Bright L R : ℚ) : (StepVoice M g V Bright L R).1.Pan = V.Pan := rfl

/-- The envelope law keeps a level in `[0,1]` in `[0,1]`: a convex step toward
a target in `[0,1]` followed by a factor in `[0,1]`. -/
theorem envelope_law_bounds (e t a r : ℚ) (he0 : 0 ≤ e) (he1 : e ≤ 1) (ht0 : 0 ≤ t)
    (ht1 : t ≤ 1) (ha0 : 0 ≤ a) (ha1 : a ≤ 1) :
    0 ≤ (e + (t - e) * a) * (1 - 1 / max 1 r) ∧ (e + (t - e) * a) * (1 - 1 / max 1 r) ≤ 1 := by
  have hm1 : (1 : ℚ) ≤ max 1 r := le_max_left _ _
  have hm0 : (0 : ℚ) < max 1 r := lt_of_lt_of_le zero_lt_one hm1
  have hinv1 : 1 / max 1 r ≤ 1 := by rw [div_le_one hm0]; exact hm1
  have hinv0 : 0 ≤ 1 / max 1 r := by positivity
  have hf0 : 0 ≤ 1 - 1 / max 1 r := by linarith
  have hf1 : 1 - 1 / max 1 r ≤ 1 := by linarith
  have hmid : e + (t - e) * a = e * (1 - a) + t * a := by ring
  have hmid0 : 0 ≤ e + (t - e) * a := by
    rw [hmid]
    have h1 : 0 ≤ e * (1 - a) := mul_nonneg he0 (by linarith)
    have h2 : 0 ≤ t * a := mul_nonneg ht0 ha0
    linarith
  have hmid1 : e + (t - e) * a ≤ 1 := by
    rw [hmid]
    have h1 : e * (1 - a) ≤ 1 * (1 - a) := mul_le_mul_of_nonneg_right he1 (by linarith)
    have h2 : t * a ≤ 1 * a := mul_le_mul_of_nonneg_right ht1 ha0
    linarith
  refine ⟨mul_nonneg hmid0 hf0, ?_⟩
  calc (e + (t - e) * a) * (1 - 1 / max 1 r) ≤ 1 * 1 :=
        mul_le_mul hmid1 hf1 hf0 zero_le_one
    _ = 1 := by norm_num

theorem StepVoice_Env_bounds (M : FMathLib) (g : FGrooveSoundGenerator) (V : FGrooveVoice)
    (Bright L R : ℚ) (hB0 : 0 ≤ Bright) (hB1 : Bright ≤ 1) (hE0 : 0 ≤ V.Env) (hE1 : V.Env ≤ 1)
    (hS0 : 0 ≤ V.S) (hS1 : V.S ≤ 1) :
    0 ≤ (StepVoice M g V Bright L R).1.Env ∧ (StepVoice M g V Bright L R).1.Env ≤ 1 := by
  rw [StepVoice_Env]
  apply envelope_law_bounds _ _ _ _ hE0 hE1
  · split <;> [norm_num; exact hS0]
  · split <;> [norm_num; exact hS1]
  · nlinarith
  · nlinarith

theorem runVoiceOps_bounds (M : FMathLib) (g : FGrooveSoundGenerator) (ops : List VoiceOp) :
    ∀ V : FGrooveVoice, (∀ b, VoiceOp.step b ∈ ops → 0 ≤ b ∧ b ≤ 1) →
      0 ≤ V.Env → V.Env ≤ 1 → 0 ≤ V.S → V.S ≤ 1 →
      0 ≤ (runVoiceOps M g V ops).Env ∧ (runVoiceOps M g V ops).Env ≤ 1 := by
  induction ops with
  | nil => intro V _ h0 h1 _ _; exact ⟨h0, h1⟩
  | cons op ops ih =>
    intro V hB h0 h1 hS0 hS1
    have hB2 : ∀ b, VoiceOp.step b ∈ ops → 0 ≤ b ∧ b ≤ 1 :=
      fun b hb => hB b (List.mem_cons_of_mem _ hb)
    show 0 ≤ (runVoiceOps M g (applyVoiceOp M g V op) ops).Env ∧
      (runVoiceOps M g (applyVoiceOp M g V op) ops).Env ≤ 1
    cases op with
    | trigger =>
      exact ih V.Trigger hB2 (by simp [FGrooveVoice.Trigger]) (by simp [FGrooveVoice.Trigger])
        hS0 hS1
    | step b =>
      have hb := hB b (List.mem_cons_self _ _)
      have hE := StepVoice_Env_bounds M g V b 0 0 hb.1 hb.2 h0 h1 hS0 hS1
      exact ih _ hB2 hE.1 hE.2 (by rw [applyVoiceOp, StepVoice_S]; exact hS0)
        (by rw [applyVoiceOp, StepVoice_S]; exact hS1)

theorem construct_Arp (ω : RngSource) (sr : ℚ) (ch : Int) (Owner : Option UGrooveSynthComponent) :
    (construct ω sr ch Owner).Arp =
      { A := 8 / 100, D := 10 / 100, S := 30 / 100, R := 20 / 100, Pan := -(2 / 10) } := by
  cases Owner <;> simp only [construct, UpdateTiming, RebuildScale] <;> split <;> rfl

theorem construct_Pad (ω : RngSource) (sr : ℚ) (ch : Int) (Owner : Option UGrooveSynthComponent) :
    (construct ω sr ch Owner).Pad =
      { A := 20 / 100, D := 50 / 100, S := 60 / 100, R := 80 / 100, Pan := 2 / 10 } := by
  cases Owner <;> simp only [construct, UpdateTiming, RebuildScale] <;> split <;> rfl

/-- C5: for the arpeggio and the pad voice as constructed (`Env = 0`), every
generator stepping them, and every sequence of `Trigger` / `Step` operations
whose brightness arguments lie in `[0,1]`, the envelope level is in `[0,1]`
after every operation (after every prefix of the sequence). -/
theorem envelope_invariant (M : FMathLib) (ω : RngSource) (sr : ℚ) (ch : Int)
    (Owner : Option UGrooveSynthComponent) (g : FGrooveSoundGenerator) (ops : List VoiceOp)
    (hB : ∀ b, VoiceOp.step b ∈ ops → 0 ≤ b ∧ b ≤ 1) (k : Nat) :
    (construct ω sr ch Owner).Arp.Env = 0 ∧ (construct ω sr ch Owner).Pad.Env = 0 ∧
    (0 ≤ (runVoiceOps M g (construct ω sr ch Owner).Arp (ops.take k)).Env ∧
      (runVoiceOps M g (construct ω sr ch Owner).Arp (ops.take k)).Env ≤ 1) ∧
    (0 ≤ (runVoiceOps M g (construct ω sr ch Owner).Pad (ops.take k)).Env ∧
      (runVoiceOps M g (construct ω sr ch Owner).Pad (ops.take k)).Env ≤ 1) := by
  have hB2 : ∀ b, VoiceOp.step b ∈ ops.take k → 0 ≤ b ∧ b ≤ 1 :=
    fun b hb => hB b (List.mem_of_mem_take hb)
  rw [construct_Arp, construct_Pad]
  refine ⟨rfl, rfl, ?_, ?_⟩
  · exact runVoiceOps_bounds M g _ _ hB2 (le_refl _) (by norm_num) (by norm_num) (by norm_num)
  · exact runVoiceOps_bounds M g _ _ hB2 (le_refl _) (by norm_num) (by norm_num) (by norm_num)

/-- Witness for C5: trigger, then two steps at full and zero brightness. -/
theorem envelope_invariant_witness :
    0 ≤ (runVoiceOps exampleMath {} (construct zeroDraws 48000 2 none).Arp
          ([VoiceOp.trigger, VoiceOp.step 1, VoiceOp.step 0].take 3)).Env ∧
      (runVoiceOps exampleMath {} (construct zeroDraws 48000 2 none).Arp
          ([VoiceOp.trigger, VoiceOp.step 1, VoiceOp.step 0].take 3)).Env ≤ 1 :=
  (envelope_invariant exampleMath zeroDraws 48000 2 none {}
    [VoiceOp.trigger, VoiceOp.step 1, VoiceOp.step 0]
    (by
      intro b hb
      simp only [List.mem_cons, VoiceOp.step.injEq, List.mem_singleton, List.not_mem_nil,
        or_false, false_or] at hb
      rcases hb with h | h | h
      · exact VoiceOp.noConfusion h
      · subst h; norm_num
      · subst h; norm_num) 3).2.2.1

/-! ## Rhythmic clock -/

theorem clockRun_inv (P : ℚ) (hP : 1 ≤ P) (n : Nat) :
    (clockRun P n 0).1 = (n : ℚ) - P * ((clockRun P n 0).2 : ℚ) ∧
      0 ≤ (clockRun P n 0).1 ∧ (clockRun P n 0).1 < P := by
  induction n with
  | zero => simp only [clockRun]; norm_num; linarith
  | succ n ih =>
    obtain ⟨h1, h2, h3⟩ := ih
    simp only [clockRun, clockTick]
    by_cases hw : (clockRun P n 0).1 + 1 ≥ P
    · simp only [if_pos hw]
      push_cast
      refine ⟨by rw [h1]; ring, by linarith, by linarith⟩
    · simp only [if_neg hw]
      push_cast
      refine ⟨by rw [h1]; ring, by linarith, by linarith⟩

theorem clockRun_wraps (P : ℚ) (hP : 1 ≤ P) (n : Nat) :
    ((clockRun P n 0).2 : Int) = ⌊(n : ℚ) / P⌋ := by
  obtain ⟨h1, h2, h3⟩ := clockRun_inv P hP n
  have hP0 : 0 < P := lt_of_lt_of_le zero_lt_one hP
  symm
  rw [Int.floor_eq_iff]
  push_cast
  constructor
  · rw [le_div_iff₀ hP0]; linarith
  · rw [div_lt_iff₀ hP0]; linarith

/-! ## What one frame leaves untouched -/

theorem TriggerArp_config (M : FMathLib) (ω : RngSource) (g g1 : FGrooveSoundGenerator)
    (h : TriggerArp M ω g = some g1) : configOf g1 = configOf g := by
  unfold TriggerArp at h
  simp only at h
  split at h
  · exact Option.noConfusion h
  · cases h; rfl

theorem TriggerPad_config (M : FMathLib) (g g1 : FGrooveSoundGenerator)
    (h : TriggerPad M g = some g1) : configOf g1 = configOf g := by
  unfold TriggerPad at h
  simp only at h
  split at h
  · exact Option.noConfusion h
  · cases h; rfl

theorem tickSixteenth_config (M : FMathLib) (ω : RngSource) (g g1 : FGrooveSoundGenerator)
    (h : tickSixteenth M ω g = some g1) : configOf g1 = configOf g := by
  unfold tickSixteenth at h
  simp only at h
  split at h
  · exact (TriggerArp_config M ω _ g1 h).trans rfl
  · cases h; rfl

theorem tickEighth_config (ω : RngSource) (PercPr : ℚ) (g : FGrooveSoundGenerator) :
    configOf (tickEighth ω PercPr g) = configOf g := by
  unfold tickEighth
  simp only
  split
  · split <;> rfl
  · rfl

theorem tickPadGate_config (M : FMathLib) (g g1 : FGrooveSoundGenerator)
    (h : tickPadGate M g = some g1) : configOf g1 = configOf g := by
  unfold tickPadGate at h
  simp only at h
  split at h
  · exact (TriggerPad_config M _ g1 h).trans rfl
  · cases h; rfl

theorem StepPerc_config (M : FMathLib) (ω : RngSource) (g : FGrooveSoundGenerator) (L R : ℚ) :
    configOf (StepPerc M ω g L R).1 = configOf g := by
  unfold StepPerc
  split <;> rfl

theorem mixVoices_config (M : FMathLib) (ω : RngSource) (Bright : ℚ)
    (g : FGrooveSoundGenerator) : configOf (mixVoices M ω Bright g).1 = configOf g := by
  unfold mixVoices
  simp only
  split
  · exact (StepPerc_config M ω _ _ _).trans rfl
  · rfl

theorem renderFrame_config (M : FMathLib) (ω : RngSource) (Bright PercPr : ℚ)
    (g : FGrooveSoundGenerator) (fr : FrameResult)
    (h : renderFrame M ω Bright PercPr g = some fr) : configOf fr.Gen = configOf g := by
  unfold renderFrame at h
  split at h
  · exact Option.noConfusion h
  · rename_i g1 h1
    split at h
    · exact Option.noConfusion h
    · rename_i g3 h3
      cases h
      have e1 := tickSixteenth_config M ω g g1 h1
      have e2 := tickEighth_config ω PercPr g1
      have e3 := tickPadGate_config M _ g3 h3
      have e4 := mixVoices_config M ω Bright g3
      exact (Eq.trans (by rfl) e4).trans (e3.trans (e2.trans e1))

theorem config_Channels {g h : FGrooveSoundGenerator} (e : configOf h = configOf g) :
    h.Channels = g.Channels :=
  (congrArg FGrooveSoundGenerator.Channels e : (configOf h).Channels = (configOf g).Channels)

theorem config_SampleRate {g h : FGrooveSoundGenerator} (e : configOf h = configOf g) :
    h.SampleRate = g.SampleRate :=
  (congrArg FGrooveSoundGenerator.SampleRate e : (configOf h).SampleRate = (configOf g).SampleRate)

theorem config_ScaleSemis {g h : FGrooveSoundGenerator} (e : configOf h = configOf g) :
    h.ScaleSemis = g.ScaleSemis :=
  (congrArg FGrooveSoundGenerator.ScaleSemis e : (configOf h).ScaleSemis = (configOf g).ScaleSemis)

theorem config_Scale {g h : FGrooveSoundGenerator} (e : configOf h = configOf g) :
    h.Scale = g.Scale :=
  (congrArg FGrooveSoundGenerator.Scale e : (configOf h).Scale = (configOf g).Scale)

/-! ## The walker stays a valid index, so a frame never reads out of bounds -/

theorem TriggerArp_WalkerOK (M : FMathLib) (ω : RngSource) (g : FGrooveSoundGenerator)
    (h : WalkerOK g) : ∃ g1, TriggerArp M ω g = some g1 ∧ WalkerOK g1 := by
  have hpos : 0 < g.ScaleSemis.length := by
    have := h.1; have := h.2; omega
  obtain ⟨g1, e1, hS, hW⟩ := TriggerArp_eq_some M ω g hpos
  refine ⟨g1, e1, ?_⟩
  unfold WalkerOK
  rw [hW, hS]
  have h1 := Clamp_ge (g.Walker + (g.Rng.RandRange ω (-1) 1).1) 0 ((g.ScaleSemis.length : Int) - 1)
  have h2 := Clamp_le (g.Walker + (g.Rng.RandRange ω (-1) 1).1) 0
    ((g.ScaleSemis.length : Int) - 1) (by omega)
  exact ⟨h1, by omega⟩

theorem TriggerPad_WalkerOK (M : FMathLib) (g : FGrooveSoundGenerator) (h : WalkerOK g) :
    ∃ g1, TriggerPad M g = some g1 ∧ WalkerOK g1 := by
  obtain ⟨x, hx⟩ := TArrayGet_isSome g.ScaleSemis g.Walker h.1 h.2
  unfold TriggerPad
  simp only [hx]
  exact ⟨_, rfl, h⟩

theorem tickSixteenth_WalkerOK (M : FMathLib) (ω : RngSource) (g : FGrooveSoundGenerator)
    (h : WalkerOK g) : ∃ g1, tickSixteenth M ω g = some g1 ∧ WalkerOK g1 := by
  unfold tickSixteenth
  simp only
  split
  · exact TriggerArp_WalkerOK M ω _ h
  · exact ⟨_, rfl, h⟩

theorem tickEighth_WalkerOK (ω : RngSource) (PercPr : ℚ) (g : FGrooveSoundGenerator)
    (h : WalkerOK g) : WalkerOK (tickEighth ω PercPr g) := by
  unfold tickEighth
  simp only
  split
  · split <;> exact h
  · exact h

theorem tickPadGate_WalkerOK (M : FMathLib) (g : FGrooveSoundGenerator) (h : WalkerOK g) :
    ∃ g1, tickPadGate M g = some g1 ∧ WalkerOK g1 := by
  unfold tickPadGate
  simp only
  split
  · exact TriggerPad_WalkerOK M _ h
  · exact ⟨_, rfl, h⟩

theorem StepPerc_WalkerOK (M : FMathLib) (ω : RngSource) (g : FGrooveSoundGenerator) (L R : ℚ)
    (h : WalkerOK g) : WalkerOK (StepPerc M ω g L R).1 := by
  unfold StepPerc
  split <;> exact h

theorem mixVoices_WalkerOK (M : FMathLib) (ω : RngSource) (Bright : ℚ)
    (g : FGrooveSoundGenerator) (h : WalkerOK g) : WalkerOK (mixVoices M ω Bright g).1 := by
  unfold mixVoices
  simp only
  split
  · exact StepPerc_WalkerOK M ω _ _ _ h
  · exact h

theorem renderFrame_WalkerOK (M : FMathLib) (ω : RngSource) (Bright PercPr : ℚ)
    (g : FGrooveSoundGenerator) (h : WalkerOK g) :
    ∃ fr, renderFrame M ω Bright PercPr g = some fr ∧ WalkerOK fr.Gen := by
  obtain ⟨g1, e1, w1⟩ := tickSixteenth_WalkerOK M ω g h
  obtain ⟨g3, e3, w3⟩ := tickPadGate_WalkerOK M _ (tickEighth_WalkerOK ω PercPr g1 w1)
  have w4 := mixVoices_WalkerOK M ω Bright g3 w3
  unfold renderFrame
  simp only [e1, e3]
  exact ⟨_, rfl, w4⟩

/-! ## The render loop as a sequence of frames -/
theorem frameCount_zero (N c : Int) (hc : 1 ≤ c) (h : N ≤ 0) : frameCount N c = 0 := by
  unfold frameCount
  have : (N + c - 1) / c ≤ 0 := by
    have h1 : (N + c - 1) / c < 1 := (Int.ediv_lt_iff_lt_mul (by omega)).mpr (by omega)
    omega
  omega

theorem frameCount_succ (N c : Int) (hc : 1 ≤ c) (h : 0 < N) :
    frameCount N c = frameCount (N - c) c + 1 := by
  unfold frameCount
  have e : N + c - 1 = (N - c + c - 1) + 1 * c := by ring
  have h1 : 0 ≤ (N - c + c - 1) / c := Int.ediv_nonneg (by omega) (by omega)
  rw [e, Int.add_mul_ediv_right _ _ (by omega)]
  omega

theorem frameCount_le (N c : Int) (hc : 1 ≤ c) : frameCount N c ≤ N.toNat := by
  unfold frameCount
  rcases le_or_lt N 0 with h | h
  · have := frameCount_zero N c hc h
    unfold frameCount at this
    omega
  · have h1 : (N + c - 1) / c ≤ N := by
      have : (N + c - 1) / c < N + 1 := (Int.ediv_lt_iff_lt_mul (by omega)).mpr (by nlinarith)
      omega
    omega

theorem frameCount_mul (k : Nat) (c : Int) (hc : 1 ≤ c) : frameCount (c * k) c = k := by
  unfold frameCount
  have e : c * (k : Int) + c - 1 = (c - 1) + (k : Int) * c := by ring
  rw [e, Int.add_mul_ediv_right _ _ (by omega), Int.ediv_eq_zero_of_lt (by omega) (by omega)]
  simp

theorem renderLoop_eq_runFrames (M : FMathLib) (ω : RngSource) (Bright PercPr : ℚ)
    (N : Int) (fuel : Nat) :
    ∀ (i : Int) (st : LoopState), 1 ≤ st.Gen.Channels →
      frameCount (N - i) st.Gen.Channels ≤ fuel →
      renderLoop M ω Bright PercPr N fuel i st =
        runFrames M ω Bright PercPr (frameCount (N - i) st.Gen.Channels) i st := by
  induction fuel with
  | zero =>
    intro i st hc hf
    have h0 : frameCount (N - i) st.Gen.Channels = 0 := by omega
    rw [h0]
    unfold renderLoop
    by_cases hi : i < N
    · rw [frameCount_succ _ _ hc (by omega)] at h0
      omega
    · rw [if_neg hi]; rfl
  | succ fuel ih =>
    intro i st hc hf
    unfold renderLoop
    by_cases hi : i < N
    · rw [if_pos hi, frameCount_succ _ _ hc (by omega)]
      simp only [runFrames]
      cases hfr : renderFrame M ω Bright PercPr st.Gen with
      | none => rfl
      | some fr =>
        simp only
        have hch : fr.Gen.Channels = st.Gen.Channels :=
          config_Channels (renderFrame_config M ω Bright PercPr _ _ hfr)
        have e : N - (i + fr.Gen.Channels) = N - i - st.Gen.Channels := by rw [hch]; ring
        have := ih (i + fr.Gen.Channels)
          { Gen := fr.Gen
            OutAudio := if fr.Gen.Channels > 1 then st.OutAudio ++ [(i, fr.dl)] ++ [(i + 1, fr.dr)]
                        else st.OutAudio ++ [(i, fr.dl)]
            blockSumSq := st.blockSumSq + fr.mono * fr.mono }
          (by simp only; rw [hch]; exact hc)
          (by simp only; rw [e, hch]
              rw [frameCount_succ _ _ hc (by omega)] at hf; omega)
        rw [this]
        simp only
        rw [e, hch]
    · rw [if_neg hi, frameCount_zero _ _ hc (by omega)]
      rfl

theorem runFrames_eq_frameSeq (M : FMathLib) (ω : RngSource) (Bright PercPr : ℚ) (k : Nat) :
    ∀ (i : Int) (st : LoopState),
      runFrames M ω Bright PercPr k i st =
        (frameSeq M ω Bright PercPr k st.Gen).map (fun r =>
          { Gen := r.1
            OutAudio := st.OutAudio ++ writesOf st.Gen.Channels i r.2
            blockSumSq := sumSq st.blockSumSq r.2 }) := by
  induction k with
  | zero => intro i st; simp [runFrames, frameSeq, writesOf, sumSq]
  | succ k ih =>
    intro i st
    simp only [runFrames, frameSeq]
    cases hfr : renderFrame M ω Bright PercPr st.Gen with
    | none => rfl
    | some fr =>
      simp only
      have hch : fr.Gen.Channels = st.Gen.Channels :=
        config_Channels (renderFrame_config M ω Bright PercPr _ _ hfr)
      rw [ih]
      cases hs : frameSeq M ω Bright PercPr k fr.Gen with
      | none => rfl
      | some r =>
        simp only [Option.map_some', writesOf, sumSq, List.foldl_cons, frameWrites, hch]
        congr 1
        split <;> simp [List.append_assoc]

/-! ## Frames of a block -/

theorem frameSeq_total (M : FMathLib) (ω : RngSource) (Bright PercPr : ℚ) (k : Nat) :
    ∀ g : FGrooveSoundGenerator, WalkerOK g →
      ∃ r, frameSeq M ω Bright PercPr k g = some r ∧ WalkerOK r.1 ∧
        configOf r.1 = configOf g ∧ r.2.length = k := by
  induction k with
  | zero => intro g h; exact ⟨(g, []), rfl, h, rfl, rfl⟩
  | succ k ih =>
    intro g h
    obtain ⟨fr, e1, w1⟩ := renderFrame_WalkerOK M ω Bright PercPr g h
    obtain ⟨r, e2, w2, c2, l2⟩ := ih fr.Gen w1
    refine ⟨(r.1, fr :: r.2), ?_, w2, ?_, ?_⟩
    · simp only [frameSeq, e1, e2]
    · exact c2.trans (renderFrame_config M ω Bright PercPr g fr e1)
    · simp [l2]

theorem pullParameters_Channels (g : FGrooveSoundGenerator)
    (Owner : Option UGrooveSynthComponent) : (pullParameters g Owner).Channels = g.Channels := by
  unfold pullParameters
  cases Owner with
  | none => rfl
  | some C => simp only; split <;> rfl

theorem UpdateTimingIfChanged_Channels (ω : RngSource) (g : FGrooveSoundGenerator) :
    (UpdateTimingIfChanged ω g).Channels = g.Channels := by
  unfold UpdateTimingIfChanged
  simp only
  split <;> split <;> simp only [RebuildScale, UpdateTiming] <;> (try split) <;> rfl

theorem prepare_Channels (ω : RngSource) (g : FGrooveSoundGenerator)
    (Owner : Option UGrooveSynthComponent) : (prepare ω g Owner).Channels = g.Channels := by
  unfold prepare
  rw [UpdateTimingIfChanged_Channels, pullParameters_Channels]

theorem RebuildScale_WalkerOK (ω : RngSource) (g : FGrooveSoundGenerator) (h : g.Scale ≤ 3) :
    WalkerOK (RebuildScale ω g) := by
  have hpos := scaleTable_length_pos g.Scale h
  have := RebuildScale_Walker_mem ω g hpos
  unfold WalkerOK
  rw [RebuildScale_ScaleSemis]
  exact ⟨this.1, by omega⟩

theorem RebuildScale_Scale (ω : RngSource) (g : FGrooveSoundGenerator) :
    (RebuildScale ω g).Scale = g.Scale := by
  unfold RebuildScale
  simp only
  split <;> rfl

theorem UpdateTimingIfChanged_WalkerOK (ω : RngSource) (g : FGrooveSoundGenerator)
    (hW : WalkerOK g) (hS : g.Scale ≤ 3) :
    WalkerOK (UpdateTimingIfChanged ω g) ∧ (UpdateTimingIfChanged ω g).Scale ≤ 3 := by
  unfold UpdateTimingIfChanged
  simp only
  split <;> split
  · exact ⟨RebuildScale_WalkerOK ω _ hS, by rw [RebuildScale_Scale]; exact hS⟩
  · exact ⟨hW, hS⟩
  · exact ⟨RebuildScale_WalkerOK ω _ hS, by rw [RebuildScale_Scale]; exact hS⟩
  · exact ⟨hW, hS⟩

theorem pullParameters_WalkerOK (g : FGrooveSoundGenerator)
    (Owner : Option UGrooveSynthComponent) (hW : WalkerOK g) (hS : g.Scale ≤ 3)
    (hO : OwnerScaleOK Owner) :
    WalkerOK (pullParameters g Owner) ∧ (pullParameters g Owner).Scale ≤ 3 := by
  unfold pullParameters
  cases Owner with
  | none => exact ⟨hW, hS⟩
  | some C =>
    have hC := hO C rfl
    simp only
    split
    · exact ⟨hW, hC⟩
    · exact ⟨hW, hC⟩

theorem prepare_WalkerOK (ω : RngSource) (g : FGrooveSoundGenerator)
    (Owner : Option UGrooveSynthComponent) (hW : WalkerOK g) (hS : g.Scale ≤ 3)
    (hO : OwnerScaleOK Owner) :
    WalkerOK (prepare ω g Owner) ∧ (prepare ω g Owner).Scale ≤ 3 := by
  have h := pullParameters_WalkerOK g Owner hW hS hO
  exact UpdateTimingIfChanged_WalkerOK ω _ h.1 h.2

/-- `OnGenerateAudio` in terms of the frames of its block: with at least one
channel the loop runs `frameCount NumSamples Channels` frames from the
prepared state and writes them in order. -/
theorem OnGenerateAudio_eq (M : FMathLib) (ω : RngSource) (g : FGrooveSoundGenerator)
    (Owner : Option UGrooveSynthComponent) (N : Int) (hc : 1 ≤ g.Channels) :
    OnGenerateAudio M ω g Owner N =
      (frameSeq M ω (blockBright (prepare ω g Owner)) (blockPercPr (prepare ω g Owner))
          (frameCount N g.Channels) (prepare ω g Owner)).map (fun r =>
        { Gen := r.1
          Owner := Owner.map (publishMeters M r.1 (sumSq 0 r.2) N)
          OutAudio := writesOf g.Channels 0 r.2
          Returned := N }) := by
  have hch := prepare_Channels ω g Owner
  unfold OnGenerateAudio
  simp only
  have e := renderLoop_eq_runFrames M ω (blockBright (prepare ω g Owner))
    (blockPercPr (prepare ω g Owner)) N N.toNat 0
    { Gen := prepare ω g Owner, OutAudio := [], blockSumSq := 0 }
    (by simp only; rw [hch]; exact hc)
    (by simp only; rw [hch, sub_zero]; exact frameCount_le N _ hc)
  simp only [sub_zero, hch] at e
  unfold prepare blockBright blockPercPr at e
  unfold prepare blockBright blockPercPr
  rw [e, runFrames_eq_frameSeq]
  simp only [pullParameters_Channels, UpdateTimingIfChanged_Channels]
  cases frameSeq M ω _ _ (frameCount N g.Channels)
      (UpdateTimingIfChanged ω (pullParameters g Owner)) with
  | none => rfl
  | some r => simp

theorem writesOf_indices_one (frs : List FrameResult) :
    ∀ i : Int, (writesOf 1 i frs).map Prod.fst =
      (List.range frs.length).map (fun j : Nat => i + (j : Int)) := by
  induction frs with
  | nil => intro i; rfl
  | cons fr frs ih =>
    intro i
    simp only [writesOf, frameWrites, List.map_append, ih, List.length_cons]
    rw [show frs.length + 1 = 1 + frs.length by omega, List.range_add]
    simp only [List.map_append, List.map_map]
    congr 1
    · simp [List.range_succ]
    · apply List.map_congr_left
      intro j _
      simp only [Function.comp]
      push_cast
      ring

theorem writesOf_indices_two (frs : List FrameResult) :
    ∀ i : Int, (writesOf 2 i frs).map Prod.fst =
      (List.range (2 * frs.length)).map (fun j : Nat => i + (j : Int)) := by
  induction frs with
  | nil => intro i; rfl
  | cons fr frs ih =>
    intro i
    simp only [writesOf, frameWrites, List.map_append, ih, List.length_cons]
    rw [show 2 * (frs.length + 1) = 2 + 2 * frs.length by omega, List.range_add]
    simp only [List.map_append, List.map_map]
    congr 1
    · simp [List.range_succ]
    · apply List.map_congr_left
      intro j _
      simp only [Function.comp]
      push_cast
      ring

/-! ## Construction leaves a valid walker -/

theorem construct_WalkerOK (ω : RngSource) (sr : ℚ) (ch : Int)
    (Owner : Option UGrooveSynthComponent) (hO : OwnerScaleOK Owner) :
    WalkerOK (construct ω sr ch Owner) ∧ (construct ω sr ch Owner).Scale ≤ 3 := by
  cases Owner with
  | none =>
    simp only [construct, UpdateTiming, WalkerOK]
    refine ⟨?_, ?_⟩
    · exact RebuildScale_WalkerOK ω _ (show Ionian ≤ 3 by decide)
    · rw [RebuildScale_Scale]; exact (show Ionian ≤ 3 by decide)
  | some C =>
    have hC : C.Scale ≤ 3 := hO C rfl
    simp only [construct, UpdateTiming, WalkerOK]
    refine ⟨?_, ?_⟩
    · exact RebuildScale_WalkerOK ω _ hC
    · rw [RebuildScale_Scale]; exact hC

theorem OwnerScaleOK_none : OwnerScaleOK none := fun _ h => Option.noConfusion h

/-! ## Which buffer indices a call writes -/

theorem OnGenerateAudio_indices (M : FMathLib) (ω : RngSource) (g : FGrooveSoundGenerator)
    (Owner : Option UGrooveSynthComponent) (N : Int) (hc : g.Channels = 1 ∨ g.Channels = 2)
    (hW : WalkerOK g) (hS : g.Scale ≤ 3) (hO : OwnerScaleOK Owner) :
    ∃ res, OnGenerateAudio M ω g Owner N = some res ∧ res.Returned = N ∧
      res.OutAudio.map Prod.fst =
        (List.range (g.Channels.toNat * frameCount N g.Channels)).map
          (fun j : Nat => (j : Int)) := by
  have hc1 : 1 ≤ g.Channels := by rcases hc with h | h <;> omega
  obtain ⟨r, e, _, _, hl⟩ := frameSeq_total M ω (blockBright (prepare ω g Owner))
    (blockPercPr (prepare ω g Owner)) (frameCount N g.Channels) (prepare ω g Owner)
    (prepare_WalkerOK ω g Owner hW hS hO).1
  rw [OnGenerateAudio_eq M ω g Owner N hc1, e]
  refine ⟨_, rfl, rfl, ?_⟩
  simp only
  rcases hc with h | h
  · rw [h] at hl ⊢
    rw [writesOf_indices_one, hl]
    simp
  · rw [h] at hl ⊢
    rw [writesOf_indices_two, hl]
    simp

/-- C3, as amended: with one or two channels and a request that is a whole
number of frames (`NumSamples >= 0`, a multiple of the channel count), on a
generator whose scale table is valid, `OnGenerateAudio` returns `NumSamples`
and writes exactly the indices `0, ..., NumSamples - 1`, each once, in order. -/
theorem render_write_contract (M : FMathLib) (ω : RngSource) (g : FGrooveSoundGenerator)
    (Owner : Option UGrooveSynthComponent) (N : Int) (hc : g.Channels = 1 ∨ g.Channels = 2)
    (hN : 0 ≤ N) (hdiv : g.Channels ∣ N) (hW : WalkerOK g) (hS : g.Scale ≤ 3)
    (hO : OwnerScaleOK Owner) :
    ∃ res, OnGenerateAudio M ω g Owner N = some res ∧ res.Returned = N ∧
      res.OutAudio.map Prod.fst = (List.range N.toNat).map (fun j : Nat => (j : Int)) ∧
      (∀ j : Int, j ∈ res.OutAudio.map Prod.fst ↔ 0 ≤ j ∧ j < N) := by
  obtain ⟨res, e, hr, hi⟩ := OnGenerateAudio_indices M ω g Owner N hc hW hS hO
  have hc1 : 1 ≤ g.Channels := by rcases hc with h | h <;> omega
  have hcount : g.Channels.toNat * frameCount N g.Channels = N.toNat := by
    obtain ⟨m, hm⟩ := hdiv
    have hm0 : 0 ≤ m := by
      by_contra hneg
      have : g.Channels * m < 0 := by nlinarith
      omega
    have hfc : frameCount N g.Channels = m.toNat := by
      rw [hm]
      have := frameCount_mul m.toNat g.Channels hc1
      rwa [Int.toNat_of_nonneg hm0] at this
    rw [hfc, hm]
    rcases hc with h | h
    · rw [h]; simp
    · rw [h]; simp; omega
  rw [hcount] at hi
  refine ⟨res, e, hr, hi, fun j => ?_⟩
  rw [hi]
  simp only [List.mem_map, List.mem_range]
  constructor
  · rintro ⟨a, ha, rfl⟩
    omega
  · rintro ⟨h0, h1⟩
    exact ⟨j.toNat, by omega, by omega⟩

/-- Witness for C3: the default stereo generator asked for 4 samples. -/
theorem render_write_contract_witness :
    ∃ res, OnGenerateAudio exampleMath zeroDraws (construct zeroDraws 48000 2 none) none 4
        = some res ∧ res.Returned = 4 ∧
      res.OutAudio.map Prod.fst = (List.range (4 : Int).toNat).map (fun j : Nat => (j : Int)) ∧
      (∀ j : Int, j ∈ res.OutAudio.map Prod.fst ↔ 0 ≤ j ∧ j < 4) :=
  render_write_contract exampleMath zeroDraws (construct zeroDraws 48000 2 none) none 4
    (Or.inr (by rw [construct_Channels]; rfl)) (by norm_num)
    (by rw [construct_Channels]; exact ⟨2, by norm_num⟩)
    (construct_WalkerOK zeroDraws 48000 2 none OwnerScaleOK_none).1
    (construct_WalkerOK zeroDraws 48000 2 none OwnerScaleOK_none).2 OwnerScaleOK_none

/-- Counterexample to C3 as stated: the default stereo generator asked for
`NumSamples = 1` returns 1 but writes indices 0 and 1, so an index at or
beyond `NumSamples` is written. -/
theorem render_writes_past_request :
    ∃ res, OnGenerateAudio exampleMath zeroDraws (construct zeroDraws 48000 2 none) none 1
        = some res ∧ res.Returned = 1 ∧ res.OutAudio.map Prod.fst = [0, 1] := by
  have hch : (construct zeroDraws 48000 2 none).Channels = 2 := by
    rw [construct_Channels]; rfl
  obtain ⟨res, e, hr, hi⟩ := OnGenerateAudio_indices exampleMath zeroDraws
    (construct zeroDraws 48000 2 none) none 1 (Or.inr hch)
    (construct_WalkerOK zeroDraws 48000 2 none OwnerScaleOK_none).1
    (construct_WalkerOK zeroDraws 48000 2 none OwnerScaleOK_none).2 OwnerScaleOK_none
  refine ⟨res, e, hr, ?_⟩
  rw [hi, hch]
  have : frameCount 1 2 = 1 := by decide
  rw [this]
  decide

/-! ## Reading the buffer back -/

theorem frameSeq_add (M : FMathLib) (ω : RngSource) (Bright PercPr : ℚ) (a b : Nat) :
    ∀ g : FGrooveSoundGenerator,
      frameSeq M ω Bright PercPr (a + b) g =
        match frameSeq M ω Bright PercPr a g with
        | none => none
        | some r1 =>
          match frameSeq M ω Bright PercPr b r1.1 with
          | none => none
          | some r2 => some (r2.1, r1.2 ++ r2.2) := by
  induction a with
  | zero =>
    intro g
    simp only [Nat.zero_add, frameSeq, List.nil_append]
    cases frameSeq M ω Bright PercPr b g <;> rfl
  | succ a ih =>
    intro g
    rw [show a + 1 + b = (a + b) + 1 by omega]
    simp only [frameSeq]
    cases renderFrame M ω Bright PercPr g with
    | none => rfl
    | some fr =>
      simp only
      rw [ih]
      cases frameSeq M ω Bright PercPr a fr.Gen with
      | none => rfl
      | some r1 =>
        simp only
        cases frameSeq M ω Bright PercPr b r1.1 with
        | none => rfl
        | some r2 => simp

theorem readBack_append (A B : List (Int × ℚ)) (j : Int) :
    readBack (A ++ B) j =
      match readBack B j with
      | some v => some v
      | none => readBack A j := by
  induction A with
  | nil =>
    simp only [List.nil_append, readBack]
    cases readBack B j <;> rfl
  | cons w A ih =>
    show readBack (w :: (A ++ B)) j = _
    simp only [readBack]
    rw [ih]
    cases readBack B j <;> rfl

theorem readBack_none_of_forall (A : List (Int × ℚ)) (j : Int) (h : ∀ w ∈ A, w.1 ≠ j) :
    readBack A j = none := by
  induction A with
  | nil => rfl
  | cons w A ih =>
    simp only [readBack]
    rw [ih (fun w hw => h w (List.mem_cons_of_mem _ hw))]
    simp only
    rw [if_neg (h w (List.mem_cons_self _ _))]

theorem writesOf_index_ge (c : Int) (hc : 1 ≤ c) (frs : List FrameResult) :
    ∀ i : Int, ∀ w ∈ writesOf c i frs, i ≤ w.1 := by
  induction frs with
  | nil => intro i w hw; simp [writesOf] at hw
  | cons fr frs ih =>
    intro i w hw
    simp only [writesOf, List.mem_append] at hw
    rcases hw with hw | hw
    · unfold frameWrites at hw
      split at hw
      · simp only [List.mem_cons, List.mem_singleton, List.not_mem_nil, or_false] at hw
        rcases hw with rfl | rfl <;> simp
      · simp only [List.mem_singleton] at hw
        subst hw; simp
    · have := ih (i + c) w hw
      omega

theorem frameWrites_index_lt (c i : Int) (hc : 1 ≤ c) (fr : FrameResult) :
    ∀ w ∈ frameWrites c i fr, w.1 < i + c := by
  intro w hw
  unfold frameWrites at hw
  split at hw
  · simp only [List.mem_cons, List.mem_singleton, List.not_mem_nil, or_false] at hw
    rcases hw with rfl | rfl <;> simp <;> omega
  · simp only [List.mem_singleton] at hw
    subst hw; simp; omega

theorem readBack_frameWrites (c i : Int) (fr : FrameResult) (j : Nat) :
    readBack (frameWrites c i fr) (i + (j : Int)) =
      if j = 0 then some fr.dl else if j = 1 ∧ c > 1 then some fr.dr else none := by
  unfold frameWrites
  by_cases h : c > 1
  · simp only [if_pos h, readBack]
    rcases Nat.eq_zero_or_pos j with h0 | h0
    · subst h0; simp
    · by_cases h1 : j = 1
      · subst h1; simp [h]
      · have e1 : ¬ (i + 1 = i + (j : Int)) := by omega
        have e0 : ¬ (i = i + (j : Int)) := by omega
        have hj0 : j ≠ 0 := by omega
        simp [e1, e0, h1, hj0]
  · simp only [if_neg h, readBack]
    rcases Nat.eq_zero_or_pos j with h0 | h0
    · subst h0; simp
    · have e0 : ¬ (i = i + (j : Int)) := by omega
      have hj0 : j ≠ 0 := by omega
      simp [e0, hj0, h]

/-- Reading back the slots of whole frames gives the frames in order. -/
theorem readBack_writesOf (c : Int) (hc : 1 ≤ c) (frs : List FrameResult) :
    ∀ i : Int,
      (List.range (c.toNat * frs.length)).map (fun j : Nat => readBack (writesOf c i frs) (i + j))
        = frs.flatMap (slotsOf c) := by
  induction frs with
  | nil => intro i; simp
  | cons fr frs ih =>
    intro i
    rw [List.length_cons, show c.toNat * (frs.length + 1) = c.toNat + c.toNat * frs.length by ring,
      List.range_add, List.map_append, List.flatMap_cons]
    congr 1
    · unfold slotsOf
      apply List.map_congr_left
      intro j hj
      rw [List.mem_range] at hj
      simp only [writesOf]
      rw [readBack_append, readBack_none_of_forall (writesOf c (i + c) frs)]
      · simp only
        rw [readBack_frameWrites c i]
        by_cases h0 : j = 0
        · simp [h0]
        · by_cases h1 : j = 1
          · have : c > 1 := by omega
            simp [h1, this]
          · simp [h0, h1]
      · intro w hw
        have := writesOf_index_ge c hc frs (i + c) w hw
        omega
    · rw [← ih (i + c), List.map_map]
      apply List.map_congr_left
      intro j _
      simp only [Function.comp, writesOf]
      rw [readBack_append]
      have e : i + ((c.toNat + j : Nat) : Int) = i + c + (j : Int) := by
        push_cast
        rw [Int.toNat_of_nonneg (by omega)]
        ring
      rw [e]
      cases hr : readBack (writesOf c (i + c) frs) (i + c + (j : Int)) with
      | some v => rfl
      | none =>
        simp only
        apply readBack_none_of_forall
        intro w hw
        have := frameWrites_index_lt c i hc fr w hw
        omega

theorem bufferAfter_writesOf (c : Int) (hc : 1 ≤ c) (frs : List FrameResult) :
    bufferAfter (writesOf c 0 frs) (c * frs.length) = frs.flatMap (slotsOf c) := by
  unfold bufferAfter
  rw [← readBack_writesOf c hc frs 0]
  have e : (c * (frs.length : Int)).toNat = c.toNat * frs.length := by
    have h1 : c = (c.toNat : Int) := (Int.toNat_of_nonneg (by omega)).symm
    rw [h1]
    simp only [Int.toNat_ofNat]
    exact_mod_cast Int.toNat_ofNat (c.toNat * frs.length)
  rw [e]
  apply List.map_congr_left
  intro j _
  simp

/-! ## Parameter refresh and reconciliation settle after one block -/

theorem IsNearlyEqual_self (A : ℚ) : IsNearlyEqual A A (1 / 10000) = true := by
  unfold IsNearlyEqual
  simp

theorem UpdateTimingIfChanged_settles (ω : RngSource) (g : FGrooveSoundGenerator) :
    IsNearlyEqual (UpdateTimingIfChanged ω g).BPMShadow (UpdateTimingIfChanged ω g).BPM
        (1 / 10000) = true ∧
      (UpdateTimingIfChanged ω g).ScaleShadow = (UpdateTimingIfChanged ω g).Scale := by
  unfold UpdateTimingIfChanged
  simp only
  by_cases h1 : IsNearlyEqual g.BPMShadow g.BPM (1 / 10000) = true
  · simp only [h1, if_true]
    by_cases h2 : g.ScaleShadow ≠ g.Scale
    · rw [if_pos h2]
      unfold RebuildScale
      simp only
      split <;> exact ⟨h1, rfl⟩
    · rw [if_neg h2]
      exact ⟨h1, not_not.mp h2⟩
  · simp only [h1]
    by_cases h2 : g.ScaleShadow ≠ g.Scale
    · simp only [UpdateTiming, Bool.false_eq_true, if_false, h2, ne_eq, not_false_eq_true, if_true]
      unfold RebuildScale
      simp only
      split <;> exact ⟨IsNearlyEqual_self _, rfl⟩
    · simp only [UpdateTiming, Bool.false_eq_true, if_false, h2, ne_eq, not_false_eq_true,
        if_false]
      exact ⟨IsNearlyEqual_self _, not_not.mp h2⟩

theorem UpdateTimingIfChanged_inputs (ω : RngSource) (g : FGrooveSoundGenerator) :
    (UpdateTimingIfChanged ω g).BPM = g.BPM ∧ (UpdateTimingIfChanged ω g).RootMidi = g.RootMidi ∧
    (UpdateTimingIfChanged ω g).Scale = g.Scale ∧ (UpdateTimingIfChanged ω g).Density = g.Density ∧
    (UpdateTimingIfChanged ω g).Brightness = g.Brightness ∧
    (UpdateTimingIfChanged ω g).Motion = g.Motion ∧ (UpdateTimingIfChanged ω g).bArpOn = g.bArpOn ∧
    (UpdateTimingIfChanged ω g).bPadOn = g.bPadOn ∧ (UpdateTimingIfChanged ω g).bPercOn = g.bPercOn ∧
    (UpdateTimingIfChanged ω g).SeedShadow = g.SeedShadow := by
  unfold UpdateTimingIfChanged
  simp only
  split <;> split <;>
    first
    | exact ⟨rfl, rfl, rfl, rfl, rfl, rfl, rfl, rfl, rfl, rfl⟩
    | (unfold RebuildScale
       simp only
       split <;> exact ⟨rfl, rfl, rfl, rfl, rfl, rfl, rfl, rfl, rfl, rfl⟩)

theorem pullParameters_inputs (g : FGrooveSoundGenerator) (C : UGrooveSynthComponent) :
    (pullParameters g (some C)).BPM = C.BPM ∧ (pullParameters g (some C)).RootMidi = C.RootMidi ∧
    (pullParameters g (some C)).Scale = C.Scale ∧ (pullParameters g (some C)).Density = C.Density ∧
    (pullParameters g (some C)).Brightness = C.Brightness ∧
    (pullParameters g (some C)).Motion = C.Motion ∧ (pullParameters g (some C)).bArpOn = C.bArpOn ∧
    (pullParameters g (some C)).bPadOn = C.bPadOn ∧ (pullParameters g (some C)).bPercOn = C.bPercOn ∧
    (pullParameters g (some C)).SeedShadow = C.Seed := by
  unfold pullParameters
  simp only
  by_cases h : g.SeedShadow ≠ C.Seed
  · rw [if_pos h]; exact ⟨rfl, rfl, rfl, rfl, rfl, rfl, rfl, rfl, rfl, rfl⟩
  · rw [if_neg h]; exact ⟨rfl, rfl, rfl, rfl, rfl, rfl, rfl, rfl, rfl, not_not.mp h⟩

theorem Settled_prepare (ω : RngSource) (g : FGrooveSoundGenerator)
    (Owner : Option UGrooveSynthComponent) : Settled Owner (prepare ω g Owner) := by
  unfold prepare
  refine ⟨?_, UpdateTimingIfChanged_settles ω _⟩
  intro C hC
  subst hC
  obtain ⟨a1, a2, a3, a4, a5, a6, a7, a8, a9, a10⟩ :=
    UpdateTimingIfChanged_inputs ω (pullParameters g (some C))
  obtain ⟨b1, b2, b3, b4, b5, b6, b7, b8, b9, b10⟩ := pullParameters_inputs g C
  exact ⟨a1.trans b1, a2.trans b2, a3.trans b3, a4.trans b4, a5.trans b5, a6.trans b6,
    a7.trans b7, a8.trans b8, a9.trans b9, a10.trans b10⟩

theorem prepare_of_Settled (ω : RngSource) (g : FGrooveSoundGenerator)
    (Owner : Option UGrooveSynthComponent) (h : Settled Owner g) : prepare ω g Owner = g := by
  obtain ⟨hC, hB, hS⟩ := h
  have hpull : pullParameters g Owner = g := by
    cases Owner with
    | none => rfl
    | some C =>
      obtain ⟨c1, c2, c3, c4, c5, c6, c7, c8, c9, c10⟩ := hC C rfl
      unfold pullParameters
      simp only [← c1, ← c2, ← c3, ← c4, ← c5, ← c6, ← c7, ← c8, ← c9, ← c10, ne_eq,
        not_true_eq_false, if_false]
  unfold prepare
  rw [hpull]
  unfold UpdateTimingIfChanged
  simp only [hB, if_true, hS, ne_eq, not_true_eq_false, if_false]

theorem Settled_of_config (Owner : Option UGrooveSynthComponent)
    (g h : FGrooveSoundGenerator) (e : configOf h = configOf g) (hs : Settled Owner g) :
    Settled Owner h := by
  have e1 : h.BPM = g.BPM := (congrArg FGrooveSoundGenerator.BPM e :)
  have e2 : h.RootMidi = g.RootMidi := (congrArg FGrooveSoundGenerator.RootMidi e :)
  have e3 : h.Scale = g.Scale := (congrArg FGrooveSoundGenerator.Scale e :)
  have e4 : h.Density = g.Density := (congrArg FGrooveSoundGenerator.Density e :)
  have e5 : h.Brightness = g.Brightness := (congrArg FGrooveSoundGenerator.Brightness e :)
  have e6 : h.Motion = g.Motion := (congrArg FGrooveSoundGenerator.Motion e :)
  have e7 : h.bArpOn = g.bArpOn := (congrArg FGrooveSoundGenerator.bArpOn e :)
  have e8 : h.bPadOn = g.bPadOn := (congrArg FGrooveSoundGenerator.bPadOn e :)
  have e9 : h.bPercOn = g.bPercOn := (congrArg FGrooveSoundGenerator.bPercOn e :)
  have e10 : h.SeedShadow = g.SeedShadow := (congrArg FGrooveSoundGenerator.SeedShadow e :)
  have e11 : h.BPMShadow = g.BPMShadow := (congrArg FGrooveSoundGenerator.BPMShadow e :)
  have e12 : h.ScaleShadow = g.ScaleShadow := (congrArg FGrooveSoundGenerator.ScaleShadow e :)
  unfold Settled
  rw [e1, e2, e3, e4, e5, e6, e7, e8, e9, e10, e11, e12]
  exact hs

theorem Settled_publishMeters (M : FMathLib) (Owner : Option UGrooveSynthComponent)
    (g h : FGrooveSoundGenerator) (s : ℚ) (N : Int) (hs : Settled Owner g) :
    Settled (Owner.map (publishMeters M h s N)) g := by
  cases Owner with
  | none => exact hs
  | some C =>
    refine ⟨?_, hs.2⟩
    intro C1 hC1
    simp only [Option.map_some', Option.some.injEq] at hC1
    subst hC1
    exact hs.1 C rfl

theorem config_blockBright {g h : FGrooveSoundGenerator} (e : configOf h = configOf g) :
    blockBright h = blockBright g := by
  have e5 : h.Brightness = g.Brightness := (congrArg FGrooveSoundGenerator.Brightness e :)
  have e6 : h.Motion = g.Motion := (congrArg FGrooveSoundGenerator.Motion e :)
  unfold blockBright
  rw [e5, e6]

theorem config_blockPercPr {g h : FGrooveSoundGenerator} (e : configOf h = configOf g) :
    blockPercPr h = blockPercPr g := by
  have e5 : h.Density = g.Density := (congrArg FGrooveSoundGenerator.Density e :)
  have e6 : h.Motion = g.Motion := (congrArg FGrooveSoundGenerator.Motion e :)
  unfold blockPercPr
  rw [e5, e6]

/-! ## Rendering in blocks -/

theorem renderBlocks_settled (M : FMathLib) (ω : RngSource) (ks : List Nat) :
    ∀ (g : FGrooveSoundGenerator) (Owner : Option UGrooveSynthComponent),
      1 ≤ g.Channels → WalkerOK g → Settled Owner g →
      renderBlocks M ω (ks.map (fun k : Nat => g.Channels * (k : Int))) g Owner =
        (frameSeq M ω (blockBright g) (blockPercPr g) ks.sum g).map
          (fun r => (r.1, r.2.flatMap (slotsOf g.Channels))) := by
  induction ks with
  | nil => intro g Owner _ _ _; rfl
  | cons k ks ih =>
    intro g Owner hc hw hs
    obtain ⟨r1, e1, w1, c1, l1⟩ :=
      frameSeq_total M ω (blockBright g) (blockPercPr g) k g hw
    have hch : r1.1.Channels = g.Channels := config_Channels c1
    have hs1 : Settled (Owner.map (publishMeters M r1.1 (sumSq 0 r1.2) (g.Channels * (k : Int))))
        r1.1 :=
      Settled_publishMeters M Owner r1.1 r1.1 _ _ (Settled_of_config Owner g r1.1 c1 hs)
    have ih1 := ih r1.1 _ (by rw [hch]; exact hc) w1 hs1
    rw [hch, config_blockBright c1, config_blockPercPr c1] at ih1
    simp only [List.map_cons, renderBlocks, List.sum_cons]
    rw [OnGenerateAudio_eq M ω g Owner _ hc, prepare_of_Settled ω g Owner hs,
      frameCount_mul k g.Channels hc, e1, frameSeq_add, e1]
    simp only [Option.map_some']
    rw [ih1]
    have hbuf : bufferAfter (writesOf g.Channels 0 r1.2) (g.Channels * (k : Int)) =
        r1.2.flatMap (slotsOf g.Channels) := by
      rw [← l1]; exact bufferAfter_writesOf g.Channels hc r1.2
    rw [hbuf]
    cases frameSeq M ω (blockBright g) (blockPercPr g) ks.sum r1.1 with
    | none => rfl
    | some r2 => simp [List.flatMap_append]

theorem OnGenerateAudio_prepare (M : FMathLib) (ω : RngSource) (g : FGrooveSoundGenerator)
    (Owner : Option UGrooveSynthComponent) (N : Int) (hc : 1 ≤ g.Channels) :
    OnGenerateAudio M ω (prepare ω g Owner) Owner N = OnGenerateAudio M ω g Owner N := by
  have hch := prepare_Channels ω g Owner
  rw [OnGenerateAudio_eq M ω g Owner N hc,
    OnGenerateAudio_eq M ω (prepare ω g Owner) Owner N (by rw [hch]; exact hc),
    prepare_of_Settled ω (prepare ω g Owner) Owner (Settled_prepare ω g Owner), hch]

theorem multiples_eq_map (c : Int) (hc : 1 ≤ c) (blocks : List Int)
    (hb : ∀ n ∈ blocks, 0 ≤ n ∧ c ∣ n) :
    blocks = (blocks.map (fun n : Int => (n / c).toNat)).map (fun k : Nat => c * (k : Int)) := by
  induction blocks with
  | nil => rfl
  | cons n rest ih =>
    simp only [List.map_cons]
    have hn := hb n (List.mem_cons_self _ _)
    have h0 : 0 ≤ n / c := Int.ediv_nonneg hn.1 (by omega)
    rw [Int.toNat_of_nonneg h0, Int.mul_ediv_cancel' hn.2]
    congr 1
    exact ih (fun m hm => hb m (List.mem_cons_of_mem _ hm))

theorem sum_map_mul (c : Int) (ks : List Nat) :
    (ks.map (fun k : Nat => c * (k : Int))).sum = c * ((ks.sum : Nat) : Int) := by
  induction ks with
  | nil => simp
  | cons k ks ih => simp only [List.map_cons, List.sum_cons, ih]; push_cast; ring

/-- C2, as amended: for a fixed random source and a fixed owner (or none),
from the freshly constructed renderer, every split of the request into blocks
that are whole numbers of frames (non-negative multiples of the channel count)
yields, concatenated, exactly the samples of the single call of the total size. -/
theorem block_split_determinism (M : FMathLib) (ω : RngSource) (sr : ℚ) (ch : Int)
    (Owner : Option UGrooveSynthComponent) (blocks : List Int) (hO : OwnerScaleOK Owner)
    (hb : ∀ n ∈ blocks, 0 ≤ n ∧ (construct ω sr ch Owner).Channels ∣ n) :
    ∃ r res, renderBlocks M ω blocks (construct ω sr ch Owner) Owner = some r ∧
      OnGenerateAudio M ω (construct ω sr ch Owner) Owner blocks.sum = some res ∧
      r.2 = bufferAfter res.OutAudio blocks.sum := by
  have hc : 1 ≤ (construct ω sr ch Owner).Channels := by
    rw [construct_Channels]; split <;> omega
  have hw0 := construct_WalkerOK ω sr ch Owner hO
  have hw := (prepare_WalkerOK ω _ Owner hw0.1 hw0.2 hO).1
  have hch := prepare_Channels ω (construct ω sr ch Owner) Owner
  have hs := Settled_prepare ω (construct ω sr ch Owner) Owner
  have hmap := multiples_eq_map _ hc blocks hb
  generalize blocks.map (fun n : Int => (n / (construct ω sr ch Owner).Channels).toNat) = ks
    at hmap
  have hsum : blocks.sum = (construct ω sr ch Owner).Channels * ((ks.sum : Nat) : Int) := by
    rw [hmap]; exact sum_map_mul _ ks
  obtain ⟨r, e, _, _, hl⟩ := frameSeq_total M ω
    (blockBright (prepare ω (construct ω sr ch Owner) Owner))
    (blockPercPr (prepare ω (construct ω sr ch Owner) Owner)) ks.sum
    (prepare ω (construct ω sr ch Owner) Owner) hw
  have hsingle : OnGenerateAudio M ω (construct ω sr ch Owner) Owner blocks.sum =
      some { Gen := r.1
             Owner := Owner.map (publishMeters M r.1 (sumSq 0 r.2) blocks.sum)
             OutAudio := writesOf (construct ω sr ch Owner).Channels 0 r.2
             Returned := blocks.sum } := by
    rw [OnGenerateAudio_eq M ω _ Owner _ hc, hsum, frameCount_mul _ _ hc, e]
    rfl
  have hbuf : bufferAfter (writesOf (construct ω sr ch Owner).Channels 0 r.2) blocks.sum =
      r.2.flatMap (slotsOf (construct ω sr ch Owner).Channels) := by
    rw [hsum, ← hl]; exact bufferAfter_writesOf _ hc r.2
  have key : ∃ r1, renderBlocks M ω blocks (construct ω sr ch Owner) Owner = some r1 ∧
      r1.2 = r.2.flatMap (slotsOf (construct ω sr ch Owner).Channels) := by
    by_cases hnil : blocks = []
    · have hk : ks.sum = 0 := by
        have h1 : blocks.sum = 0 := by rw [hnil]; rfl
        rw [hsum] at h1
        have h0 : ((ks.sum : Nat) : Int) = 0 := by
          rcases Int.mul_eq_zero.mp h1 with h | h
          · omega
          · exact h
        exact_mod_cast h0
      rw [hk] at hl
      rw [hnil, List.length_eq_zero.mp hl]
      exact ⟨(construct ω sr ch Owner, []), rfl, rfl⟩
    · obtain ⟨n, rest, hcons⟩ := List.exists_cons_of_ne_nil hnil
      have hstep : renderBlocks M ω blocks (construct ω sr ch Owner) Owner =
          renderBlocks M ω blocks (prepare ω (construct ω sr ch Owner) Owner) Owner := by
        rw [hcons]
        simp only [renderBlocks]
        rw [OnGenerateAudio_prepare M ω _ Owner n hc]
      have hset := renderBlocks_settled M ω ks (prepare ω (construct ω sr ch Owner) Owner) Owner
        (by rw [hch]; exact hc) hw hs
      rw [hch, ← hmap, e] at hset
      exact ⟨_, by rw [hstep, hset]; rfl, rfl⟩
  obtain ⟨r1, hr1, hout⟩ := key
  exact ⟨r1, _, hr1, hsingle, by rw [hout, hbuf]⟩

/-- Witness for C2: the default stereo renderer, blocks of 2 and 4 samples. -/
theorem block_split_determinism_witness :
    ∃ r res,
      renderBlocks exampleMath zeroDraws [2, 4] (construct zeroDraws 48000 2 (some {}))
        (some {}) = some r ∧
      OnGenerateAudio exampleMath zeroDraws (construct zeroDraws 48000 2 (some {}))
        (some {}) ([2, 4] : List Int).sum = some res ∧
      r.2 = bufferAfter res.OutAudio ([2, 4] : List Int).sum :=
  block_split_determinism exampleMath zeroDraws 48000 2 (some {}) [2, 4]
    (by intro C h; cases h; decide)
    (by
      intro n hn
      rw [construct_Channels]
      simp only [List.mem_cons, List.mem_singleton, List.not_mem_nil, or_false] at hn
      rcases hn with rfl | rfl <;> norm_num)

set_option maxHeartbeats 4000000 in
theorem cx_block_split_values :
    ∃ r res,
      renderBlocks exampleMath zeroDraws [1, 1] (construct zeroDraws 5 2 (some cxOwner))
        (some cxOwner) = some r ∧
      OnGenerateAudio exampleMath zeroDraws (construct zeroDraws 5 2 (some cxOwner))
        (some cxOwner) 2 = some res ∧
      r.2 = [some (-(21 / 1600)), some (-(36709659 / 1024000000))] ∧
      bufferAfter res.OutAudio 2 = [some (-(21 / 1600)), some (-(21 / 1600))] := by
  simp [renderBlocks, OnGenerateAudio, renderLoop, construct, pullParameters, UpdateTimingIfChanged,
    UpdateTiming, RebuildScale, scaleTable, Ionian, IsNearlyEqual, RoundToInt,
    FRandomStream.RandRange, FRandomStream.Initialize, renderFrame, tickSixteenth, tickEighth,
    tickPadGate, mixVoices, StepPerc, clockTick, TriggerPerc, cxOwner, publishMeters,
    FRandomStream.GetFraction, zeroDraws, exampleMath, Clamp, bufferAfter, readBack,
    List.range_succ]
  norm_num [readBack]

/-! ## Sample-accurate clock -/

theorem clockRun_succ_left (P : ℚ) (n : Nat) :
    ∀ c : ℚ, (clockRun P (n + 1) c).1 = (clockRun P n (clockTick c P).1).1 := by
  induction n with
  | zero => intro c; rfl
  | succ n ih =>
    intro c
    have h := ih c
    simp only [clockRun] at h ⊢
    rw [h]

theorem TriggerArp_Sixteenth (M : FMathLib) (ω : RngSource) (g g1 : FGrooveSoundGenerator)
    (h : TriggerArp M ω g = some g1) : g1.Sixteenth = g.Sixteenth := by
  unfold TriggerArp at h
  simp only at h
  split at h
  · exact Option.noConfusion h
  · cases h; rfl

theorem TriggerPad_Sixteenth (M : FMathLib) (g g1 : FGrooveSoundGenerator)
    (h : TriggerPad M g = some g1) : g1.Sixteenth = g.Sixteenth := by
  unfold TriggerPad at h
  simp only at h
  split at h
  · exact Option.noConfusion h
  · cases h; rfl

theorem tickSixteenth_Sixteenth (M : FMathLib) (ω : RngSource) (g g1 : FGrooveSoundGenerator)
    (h : tickSixteenth M ω g = some g1) :
    g1.Sixteenth = (clockTick g.Sixteenth g.SixteenthPeriod).1 := by
  unfold tickSixteenth at h
  simp only at h
  split at h
  · exact (TriggerArp_Sixteenth M ω _ g1 h).trans rfl
  · cases h; rfl

theorem tickEighth_Sixteenth (ω : RngSource) (PercPr : ℚ) (g : FGrooveSoundGenerator) :
    (tickEighth ω PercPr g).Sixteenth = g.Sixteenth := by
  unfold tickEighth
  simp only
  split
  · split <;> rfl
  · rfl

theorem tickPadGate_Sixteenth (M : FMathLib) (g g1 : FGrooveSoundGenerator)
    (h : tickPadGate M g = some g1) : g1.Sixteenth = g.Sixteenth := by
  unfold tickPadGate at h
  simp only at h
  split at h
  · exact (TriggerPad_Sixteenth M _ g1 h).trans rfl
  · cases h; rfl

theorem StepPerc_Sixteenth (M : FMathLib) (ω : RngSource) (g : FGrooveSoundGenerator)
    (L R : ℚ) : (StepPerc M ω g L R).1.Sixteenth = g.Sixteenth := by
  unfold StepPerc
  split <;> rfl

theorem mixVoices_Sixteenth (M : FMathLib) (ω : RngSource) (Bright : ℚ)
    (g : FGrooveSoundGenerator) : (mixVoices M ω Bright g).1.Sixteenth = g.Sixteenth := by
  unfold mixVoices
  simp only
  split
  · exact (StepPerc_Sixteenth M ω _ _ _).trans rfl
  · rfl

theorem renderFrame_Sixteenth (M : FMathLib) (ω : RngSource) (Bright PercPr : ℚ)
    (g : FGrooveSoundGenerator) (fr : FrameResult)
    (h : renderFrame M ω Bright PercPr g = some fr) :
    fr.Gen.Sixteenth = (clockTick g.Sixteenth g.SixteenthPeriod).1 := by
  unfold renderFrame at h
  split at h
  · exact Option.noConfusion h
  · rename_i g1 h1
    split at h
    · exact Option.noConfusion h
    · rename_i g3 h3
      cases h
      have e1 := tickSixteenth_Sixteenth M ω g g1 h1
      have e2 := tickEighth_Sixteenth ω PercPr g1
      have e3 := tickPadGate_Sixteenth M _ g3 h3
      have e4 := mixVoices_Sixteenth M ω Bright g3
      show (mixVoices M ω Bright g3).1.Sixteenth = _
      rw [e4, e3, e2, e1]

theorem frameSeq_Sixteenth (M : FMathLib) (ω : RngSource) (Bright PercPr : ℚ) (m : Nat) :
    ∀ (g : FGrooveSoundGenerator) (r : FGrooveSoundGenerator × List FrameResult),
      frameSeq M ω Bright PercPr m g = some r →
      r.1.Sixteenth = (clockRun g.SixteenthPeriod m g.Sixteenth).1 := by
  induction m with
  | zero => intro g r h; simp only [frameSeq] at h; cases h; rfl
  | succ m ih =>
    intro g r h
    simp only [frameSeq] at h
    split at h
    · exact Option.noConfusion h
    · rename_i fr hfr
      split at h
      · exact Option.noConfusion h
      · rename_i r1 hr1
        cases h
        have e := ih fr.Gen r1 hr1
        have hP : fr.Gen.SixteenthPeriod = g.SixteenthPeriod :=
          (congrArg FGrooveSoundGenerator.SixteenthPeriod
            (renderFrame_config M ω Bright PercPr g fr hfr) :)
        rw [hP, renderFrame_Sixteenth M ω Bright PercPr g fr hfr] at e
        rw [clockRun_succ_left]
        exact e

theorem clockTick_wraps_iff (c P : ℚ) : (clockTick c P).2 = true ↔ P ≤ c + 1 := by
  unfold clockTick
  by_cases h : c + 1 ≥ P
  · simp only [if_pos h, true_iff]; exact h
  · simp only [if_neg h, Bool.false_eq_true, false_iff]; exact h

theorem clockRun_kth_wrap (P : ℚ) (hP : 1 ≤ P) (n k : Nat) :
    ((clockTick (clockRun P n 0).1 P).2 = true ∧ (clockRun P (n + 1) 0).2 = k) ↔
      ((n : ℚ) < (k : ℚ) * P ∧ (k : ℚ) * P ≤ (n : ℚ) + 1) := by
  obtain ⟨h1, h2, h3⟩ := clockRun_inv P hP n
  have hP0 : 0 < P := lt_of_lt_of_le zero_lt_one hP
  rw [clockTick_wraps_iff]
  constructor
  · rintro ⟨hw, hk2⟩
    have hwrap : (clockTick (clockRun P n 0).1 P).2 = true := (clockTick_wraps_iff _ _).mpr hw
    simp only [clockRun, hwrap, if_true] at hk2
    have hkq : (k : ℚ) = ((clockRun P n 0).2 : ℚ) + 1 := by
      rw [← hk2]; push_cast; ring
    rw [hkq]
    constructor <;> nlinarith
  · rintro ⟨ha, hb⟩
    have hwk : (clockRun P n 0).2 + 1 = k := by
      have hlt : ((clockRun P n 0).2 : ℚ) < (k : ℚ) := by
        by_contra hcon
        have : (k : ℚ) * P ≤ ((clockRun P n 0).2 : ℚ) * P :=
          mul_le_mul_of_nonneg_right (not_lt.mp hcon) (le_of_lt hP0)
        nlinarith
      have hgt : (k : ℚ) < ((clockRun P n 0).2 : ℚ) + 2 := by
        by_contra hcon
        have : (((clockRun P n 0).2 : ℚ) + 2) * P ≤ (k : ℚ) * P :=
          mul_le_mul_of_nonneg_right (not_lt.mp hcon) (le_of_lt hP0)
        nlinarith
      have h4 : (clockRun P n 0).2 < k := by exact_mod_cast hlt
      have h5 : k < (clockRun P n 0).2 + 2 := by exact_mod_cast hgt
      omega
    have hkq : (k : ℚ) = ((clockRun P n 0).2 : ℚ) + 1 := by
      rw [← hwk]; push_cast; ring
    have hw : P ≤ (clockRun P n 0).1 + 1 := by
      rw [hkq] at hb
      nlinarith
    refine ⟨hw, ?_⟩
    have hwrap : (clockTick (clockRun P n 0).1 P).2 = true := (clockTick_wraps_iff _ _).mpr hw
    simp only [clockRun, hwrap, if_true]
    exact hwk

theorem clockRun_6000_wraps_iff (n : Nat) :
    (clockTick (clockRun 6000 n 0).1 6000).2 = true ↔ 6000 ∣ n + 1 := by
  obtain ⟨h1, h2, h3⟩ := clockRun_inv 6000 (by norm_num) n
  rw [clockTick_wraps_iff, h1]
  rw [h1] at h2 h3
  generalize (clockRun 6000 n 0).2 = w at *
  have a2 : 6000 * w ≤ n := by
    have : ((6000 * w : Nat) : ℚ) ≤ (n : ℚ) := by push_cast; linarith
    exact_mod_cast this
  have a3 : n < 6000 * w + 6000 := by
    have : (n : ℚ) < ((6000 * w + 6000 : Nat) : ℚ) := by push_cast; linarith
    exact_mod_cast this
  constructor
  · intro h
    have a4 : 6000 * w + 6000 ≤ n + 1 := by
      have : ((6000 * w + 6000 : Nat) : ℚ) ≤ ((n + 1 : Nat) : ℚ) := by push_cast; linarith
      exact_mod_cast this
    exact ⟨w + 1, by omega⟩
  · rintro ⟨q, hq⟩
    have : q = w + 1 := by omega
    subst this
    have : ((n + 1 : Nat) : ℚ) = ((6000 * (w + 1) : Nat) : ℚ) := by rw [hq]
    push_cast at this
    linarith

theorem pullParameters_timing (g : FGrooveSoundGenerator)
    (Owner : Option UGrooveSynthComponent) :
    (pullParameters g Owner).BPMShadow = g.BPMShadow ∧
      (pullParameters g Owner).SampleRate = g.SampleRate ∧
      (pullParameters g Owner).Sixteenth = g.Sixteenth := by
  unfold pullParameters
  cases Owner with
  | none => exact ⟨rfl, rfl, rfl⟩
  | some C => simp only; split <;> exact ⟨rfl, rfl, rfl⟩

theorem UpdateTimingIfChanged_Sixteenth (ω : RngSource) (g : FGrooveSoundGenerator) :
    (UpdateTimingIfChanged ω g).Sixteenth = g.Sixteenth := by
  unfold UpdateTimingIfChanged
  simp only
  split <;> split <;>
    first
    | rfl
    | (unfold RebuildScale
       simp only
       split <;> rfl)

theorem UpdateTimingIfChanged_SixteenthPeriod (ω : RngSource) (g : FGrooveSoundGenerator)
    (h : IsNearlyEqual g.BPMShadow g.BPM (1 / 10000) = false) :
    (UpdateTimingIfChanged ω g).SixteenthPeriod =
      (g.SampleRate : ℚ) * 60 / Clamp g.BPM 20 300 / 4 := by
  unfold UpdateTimingIfChanged
  simp only [h, Bool.false_eq_true, if_false]
  split <;>
    first
    | rfl
    | (unfold RebuildScale
       simp only
       split <;> rfl)

theorem construct_timing (ω : RngSource) (sr : ℚ) (ch : Int)
    (Owner : Option UGrooveSynthComponent) :
    (construct ω sr ch Owner).BPMShadow = -1 ∧ (construct ω sr ch Owner).Sixteenth = 0 := by
  cases Owner <;> simp only [construct, UpdateTiming, RebuildScale] <;> split <;>
    exact ⟨rfl, rfl⟩

theorem prepare_construct_120 (ω : RngSource) (ch : Int) (C : UGrooveSynthComponent)
    (hB : C.BPM = 120) :
    (prepare ω (construct ω 48000 ch (some C)) (some C)).SixteenthPeriod = 6000 ∧
      (prepare ω (construct ω 48000 ch (some C)) (some C)).Sixteenth = 0 ∧
      (prepare ω (construct ω 48000 ch (some C)) (some C)).bArpOn = C.bArpOn := by
  have hR : RoundToInt 48000 = 48000 := by unfold RoundToInt; norm_num
  have hC : Clamp (120 : ℚ) 20 300 = 120 := Clamp_of_mem _ _ _ (by norm_num) (by norm_num)
  obtain ⟨p1, p2, p3⟩ := pullParameters_timing (construct ω 48000 ch (some C)) (some C)
  obtain ⟨c1, c2⟩ := construct_timing ω 48000 ch (some C)
  have hbpm := (pullParameters_inputs (construct ω 48000 ch (some C)) C).1
  have hsr := construct_SampleRate ω 48000 ch (some C)
  rw [if_pos (by norm_num), hR] at hsr
  refine ⟨?_, ?_, ?_⟩
  · unfold prepare
    rw [UpdateTimingIfChanged_SixteenthPeriod, hbpm, hB, hC, p2, hsr]
    · norm_num
    · rw [p1, c1, hbpm, hB]
      unfold IsNearlyEqual
      norm_num
  · unfold prepare
    rw [UpdateTimingIfChanged_Sixteenth, p3, c2]
  · exact ((Settled_prepare ω (construct ω 48000 ch (some C)) (some C)).1 C rfl).2.2.2.2.2.2.1

theorem frameSeq_config (M : FMathLib) (ω : RngSource) (Bright PercPr : ℚ) (m : Nat) :
    ∀ (g : FGrooveSoundGenerator) (r : FGrooveSoundGenerator × List FrameResult),
      frameSeq M ω Bright PercPr m g = some r → configOf r.1 = configOf g := by
  induction m with
  | zero => intro g r h; simp only [frameSeq] at h; cases h; rfl
  | succ m ih =>
    intro g r h
    simp only [frameSeq] at h
    split at h
    · exact Option.noConfusion h
    · rename_i fr hfr
      split at h
      · exact Option.noConfusion h
      · rename_i r1 hr1
        cases h
        exact (ih fr.Gen r1 hr1).trans (renderFrame_config M ω Bright PercPr g fr hfr)

theorem frameSeq_arpTriggerDue (M : FMathLib) (ω : RngSource) (Bright PercPr Q : ℚ) (n : Nat)
    (g : FGrooveSoundGenerator) (r : FGrooveSoundGenerator × List FrameResult)
    (hQ : g.SixteenthPeriod = Q) (h0 : g.Sixteenth = 0)
    (hr : frameSeq M ω Bright PercPr n g = some r) :
    r.1.Sixteenth = (clockRun Q n 0).1 ∧
      (arpTriggerDue r.1 ↔ ((clockTick (clockRun Q n 0).1 Q).2 = true ∧ g.bArpOn = true)) := by
  have hS := frameSeq_Sixteenth M ω Bright PercPr n g r hr
  rw [hQ, h0] at hS
  have hc := frameSeq_config M ω Bright PercPr n g r hr
  have hP : r.1.SixteenthPeriod = g.SixteenthPeriod :=
    (congrArg FGrooveSoundGenerator.SixteenthPeriod hc :)
  have hA : r.1.bArpOn = g.bArpOn := (congrArg FGrooveSoundGenerator.bArpOn hc :)
  refine ⟨hS, ?_⟩
  unfold arpTriggerDue
  rw [hS, hP, hQ, hA]

/-- A tick either advances the counter by one or, on a wrap, by one less the
period: the period is subtracted at most once. -/
theorem clockTick_once (c P : ℚ) :
    ((clockTick c P).2 = false ∧ (clockTick c P).1 = c + 1) ∨
    ((clockTick c P).2 = true ∧ (clockTick c P).1 = c + 1 - P) := by
  unfold clockTick
  split_ifs
  · exact Or.inr ⟨rfl, rfl⟩
  · exact Or.inl ⟨rfl, rfl⟩

/-- What a fired arpeggio trigger leaves behind: the envelope at 1, the
envelope time at 0 and one draw consumed; the counter is not touched. -/
theorem TriggerArp_effect (M : FMathLib) (ω : RngSource) (g g1 : FGrooveSoundGenerator)
    (h : TriggerArp M ω g = some g1) :
    g1.Arp.Env = 1 ∧ g1.Arp.EnvTime = 0 ∧
    g1.Rng = { Seed := g.Rng.Seed, Count := g.Rng.Count + 1 } ∧
    g1.Sixteenth = g.Sixteenth := by
  have hr : (g.Rng.RandRange ω (-1) 1).2 = { Seed := g.Rng.Seed, Count := g.Rng.Count + 1 } := by
    unfold FRandomStream.RandRange
    simp only
    rw [if_pos (by norm_num)]
    rfl
  unfold TriggerArp at h
  simp only at h
  split at h
  · exact Option.noConfusion h
  · cases h
    exact ⟨rfl, rfl, hr, rfl⟩

/-- The sixteenth clock line calls `TriggerArp` when the counter wraps and the
arpeggio is enabled. -/
theorem tickSixteenth_fires (M : FMathLib) (ω : RngSource) (g : FGrooveSoundGenerator)
    (hw : (clockTick g.Sixteenth g.SixteenthPeriod).2 = true) (ha : g.bArpOn = true) :
    tickSixteenth M ω g =
      TriggerArp M ω { g with Sixteenth := (clockTick g.Sixteenth g.SixteenthPeriod).1 } := by
  unfold tickSixteenth
  simp only
  rw [if_pos ⟨hw, ha⟩]

/-- The sixteenth clock line only advances the counter when the counter does
not wrap or the arpeggio is disabled. -/
theorem tickSixteenth_idle (M : FMathLib) (ω : RngSource) (g : FGrooveSoundGenerator)
    (h : ¬ ((clockTick g.Sixteenth g.SixteenthPeriod).2 = true ∧ g.bArpOn = true)) :
    tickSixteenth M ω g =
      some { g with Sixteenth := (clockTick g.Sixteenth g.SixteenthPeriod).1 } := by
  unfold tickSixteenth
  simp only
  rw [if_neg h]

/-- After `n` frames from a zero counter, the sixteenth clock line of the next
frame calls `TriggerArp` exactly when the clock of period `Q` wraps on that
frame and the arpeggio is enabled, and otherwise only advances the counter. -/
theorem frameSeq_tickSixteenth (M : FMathLib) (ω : RngSource) (Bright PercPr Q : ℚ) (n : Nat)
    (g : FGrooveSoundGenerator) (r : FGrooveSoundGenerator × List FrameResult)
    (hQ : g.SixteenthPeriod = Q) (h0 : g.Sixteenth = 0)
    (hr : frameSeq M ω Bright PercPr n g = some r) :
    r.1.Sixteenth = (clockRun Q n 0).1 ∧
    (((clockTick (clockRun Q n 0).1 Q).2 = true ∧ g.bArpOn = true) →
      tickSixteenth M ω r.1 =
        TriggerArp M ω { r.1 with Sixteenth := (clockRun Q (n + 1) 0).1 }) ∧
    (¬ ((clockTick (clockRun Q n 0).1 Q).2 = true ∧ g.bArpOn = true) →
      tickSixteenth M ω r.1 = some { r.1 with Sixteenth := (clockRun Q (n + 1) 0).1 }) := by
  obtain ⟨hS, hdue⟩ := frameSeq_arpTriggerDue M ω Bright PercPr Q n g r hQ h0 hr
  have hc := frameSeq_config M ω Bright PercPr n g r hr
  have hP : r.1.SixteenthPeriod = Q :=
    ((congrArg FGrooveSoundGenerator.SixteenthPeriod hc :)).trans hQ
  have hnext : (clockTick r.1.Sixteenth r.1.SixteenthPeriod).1 = (clockRun Q (n + 1) 0).1 := by
    rw [hS, hP]
    rfl
  unfold arpTriggerDue at hdue
  refine ⟨hS, fun h => ?_, fun h => ?_⟩
  · have h1 := hdue.mpr h
    rw [tickSixteenth_fires M ω r.1 h1.1 h1.2, hnext]
  · have h1 : ¬ ((clockTick r.1.Sixteenth r.1.SixteenthPeriod).2 = true ∧ r.1.bArpOn = true) :=
      fun h2 => h (hdue.mp h2)
    rw [tickSixteenth_idle M ω r.1 h1, hnext]

/-- C6: in exact arithmetic, a clock with a fixed period `P >= 1` started at 0
has, after `n` frames, wrapped exactly `floor(n / P)` times and holds `n - P * floor(n / P)`; frame
`n + 1` emits the `k`-th wrap exactly when `n + 1` is the first frame count to
reach `k * P`. The renderer's sixteenth counter is such a clock: after `n`
frames its clock line `tickSixteenth` calls `TriggerArp` on frame `n + 1`
exactly when that clock wraps there and the arpeggio is enabled, and otherwise
only advances the counter. At 120 BPM and 48000 Hz with the arpeggio enabled
the clock line of frame `n + 1` returns, and it is the call of `TriggerArp`
(envelope set to 1, envelope time to 0, one draw consumed, counter back at 0)
when `n + 1` is a multiple of 6000, and the bare counter increment (voice,
walker and random stream untouched) on every other frame. -/
theorem clock_no_drift (P : ℚ) (hP : 1 ≤ P) (n : Nat) :
    ((clockRun P n 0).2 : Int) = ⌊(n : ℚ) / P⌋ ∧
    (clockRun P n 0).1 = (n : ℚ) - P * ((⌊(n : ℚ) / P⌋ : Int) : ℚ) ∧
    (∀ k : Nat, ((clockTick (clockRun P n 0).1 P).2 = true ∧ (clockRun P (n + 1) 0).2 = k) ↔
      ((n : ℚ) < (k : ℚ) * P ∧ (k : ℚ) * P ≤ (n : ℚ) + 1)) ∧
    (∀ (M : FMathLib) (ω : RngSource) (Bright PercPr : ℚ) (g : FGrooveSoundGenerator)
        (r : FGrooveSoundGenerator × List FrameResult),
      g.SixteenthPeriod = P → g.Sixteenth = 0 →
      frameSeq M ω Bright PercPr n g = some r →
      r.1.Sixteenth = (clockRun P n 0).1 ∧
      (((clockTick (clockRun P n 0).1 P).2 = true ∧ g.bArpOn = true) →
        tickSixteenth M ω r.1 =
          TriggerArp M ω { r.1 with Sixteenth := (clockRun P (n + 1) 0).1 }) ∧
      (¬ ((clockTick (clockRun P n 0).1 P).2 = true ∧ g.bArpOn = true) →
        tickSixteenth M ω r.1 = some { r.1 with Sixteenth := (clockRun P (n + 1) 0).1 })) ∧
    (∀ (M : FMathLib) (ω : RngSource) (ch : Int) (C : UGrooveSynthComponent),
      C.BPM = 120 → C.bArpOn = true → C.Scale ≤ 3 →
      (prepare ω (construct ω 48000 ch (some C)) (some C)).SixteenthPeriod = 6000 ∧
      ∃ r g1, frameSeq M ω (blockBright (prepare ω (construct ω 48000 ch (some C)) (some C)))
          (blockPercPr (prepare ω (construct ω 48000 ch (some C)) (some C))) n
          (prepare ω (construct ω 48000 ch (some C)) (some C)) = some r ∧
        tickSixteenth M ω r.1 = some g1 ∧
        (6000 ∣ n + 1 →
          tickSixteenth M ω r.1 = TriggerArp M ω { r.1 with Sixteenth := 0 } ∧
          g1.Sixteenth = 0 ∧ g1.Arp.Env = 1 ∧ g1.Arp.EnvTime = 0 ∧
          g1.Rng = { Seed := r.1.Rng.Seed, Count := r.1.Rng.Count + 1 }) ∧
        (¬ 6000 ∣ n + 1 →
          g1 = { r.1 with Sixteenth := r.1.Sixteenth + 1 } ∧ g1.Arp = r.1.Arp ∧
          g1.Walker = r.1.Walker ∧ g1.Rng = r.1.Rng)) := by
  have hw := clockRun_wraps P hP n
  refine ⟨hw, ?_, fun k => clockRun_kth_wrap P hP n k, ?_, ?_⟩
  · rw [← hw]
    exact_mod_cast (clockRun_inv P hP n).1
  · intro M ω Bright PercPr g r hQ h0 hr
    exact frameSeq_tickSixteenth M ω Bright PercPr P n g r hQ h0 hr
  · intro M ω ch C hB hA hS
    obtain ⟨p1, p2, p3⟩ := prepare_construct_120 ω ch C hB
    have hO : OwnerScaleOK (some C) := by
      intro C1 h1; cases h1; exact hS
    have hw0 := construct_WalkerOK ω 48000 ch (some C) hO
    have hwp := (prepare_WalkerOK ω _ (some C) hw0.1 hw0.2 hO).1
    obtain ⟨r, e, hwr, _, _⟩ := frameSeq_total M ω
      (blockBright (prepare ω (construct ω 48000 ch (some C)) (some C)))
      (blockPercPr (prepare ω (construct ω 48000 ch (some C)) (some C))) n
      (prepare ω (construct ω 48000 ch (some C)) (some C)) hwp
    obtain ⟨hS16, hfire, hidle⟩ := frameSeq_tickSixteenth M ω _ _ 6000 n _ r p1 p2 e
    rw [p3, hA] at hfire hidle
    have hiff : ((clockTick (clockRun 6000 n 0).1 6000).2 = true ∧ true = true) ↔ 6000 ∣ n + 1 := by
      rw [clockRun_6000_wraps_iff]
      simp
    obtain ⟨g1, hg1, _⟩ := tickSixteenth_WalkerOK M ω r.1 hwr
    refine ⟨p1, r, g1, e, hg1, fun hd => ?_, fun hd => ?_⟩
    · have hf := hfire (hiff.mpr hd)
      have hzero : (clockRun 6000 (n + 1) 0).1 = 0 := by
        obtain ⟨q, hq⟩ := hd
        have h1 := (clockRun_inv 6000 (by norm_num) (n + 1)).1
        have h2 := clockRun_wraps 6000 (by norm_num) (n + 1)
        have h3 : ⌊((n + 1 : Nat) : ℚ) / 6000⌋ = (q : Int) := by
          rw [hq]
          push_cast
          rw [mul_div_cancel_left₀ _ (by norm_num : (6000 : ℚ) ≠ 0)]
          exact Int.floor_natCast q
        rw [h3] at h2
        have h4 : (clockRun 6000 (n + 1) 0).2 = q := by exact_mod_cast h2
        rw [h1, h4, hq]
        push_cast
        ring
      rw [hzero] at hf
      rw [hf] at hg1
      obtain ⟨a1, a2, a3, a4⟩ := TriggerArp_effect M ω _ g1 hg1
      exact ⟨hf, a4, a1, a2, a3⟩
    · have hi := hidle (fun h => hd (hiff.mp h))
      rw [hi] at hg1
      have hg : g1 = { r.1 with Sixteenth := (clockRun 6000 (n + 1) 0).1 } :=
        (Option.some.inj hg1).symm
      have hnw : (clockTick (clockRun 6000 n 0).1 6000).2 = false := by
        cases hb : (clockTick (clockRun 6000 n 0).1 6000).2
        · rfl
        · exact absurd (hiff.mp ⟨hb, rfl⟩) hd
      have hval : (clockRun 6000 (n + 1) 0).1 = r.1.Sixteenth + 1 := by
        rw [hS16]
        show (clockTick (clockRun 6000 n 0).1 6000).1 = _
        rcases clockTick_once (clockRun 6000 n 0).1 6000 with h | h
        · exact h.2
        · rw [h.1] at hnw
          exact absurd hnw (by simp)
      rw [hval] at hg
      rw [hg]
      exact ⟨rfl, rfl, rfl, rfl⟩

/-- Witness for C6: period 6000 after 5999 frames, and the default owner at
120 BPM rendered for 5999 frames: the clock line of frame 6000 fires the
arpeggio trigger. -/
theorem clock_no_drift_witness :
    ((clockRun 6000 5999 0).2 : Int) = ⌊((5999 : Nat) : ℚ) / 6000⌋ ∧
    ∃ r g1, frameSeq exampleMath zeroDraws
        (blockBright (prepare zeroDraws (construct zeroDraws 48000 2 (some { BPM := 120 }))
          (some { BPM := 120 })))
        (blockPercPr (prepare zeroDraws (construct zeroDraws 48000 2 (some { BPM := 120 }))
          (some { BPM := 120 }))) 5999
        (prepare zeroDraws (construct zeroDraws 48000 2 (some { BPM := 120 }))
          (some { BPM := 120 })) = some r ∧
      tickSixteenth exampleMath zeroDraws r.1 = some g1 ∧
      g1.Sixteenth = 0 ∧ g1.Arp.Env = 1 ∧ g1.Arp.EnvTime = 0 :=
  ⟨(clock_no_drift 6000 (by norm_num) 5999).1,
   match ((clock_no_drift 6000 (by norm_num) 5999).2.2.2.2 exampleMath zeroDraws 2
      { BPM := 120 } rfl rfl (by decide)).2 with
   | ⟨r, g1, e, hg1, hfire, _⟩ =>
     ⟨r, g1, e, hg1, (hfire (by decide)).2.1, (hfire (by decide)).2.2.1,
       (hfire (by decide)).2.2.2.1⟩⟩

/-! ## Bounded output -/

theorem SoftClip_abs_le (x : ℚ) (h : |x| ≤ 1 / 4) : |SoftClip x| ≤ 1 / 4 := by
  have h1 := abs_le.mp h
  have hx2 : x * x ≤ 1 / 16 := by nlinarith [h1.1, h1.2]
  have hx0 : 0 ≤ x * x := mul_self_nonneg x
  have hy : |x - x * x * x / 3| ≤ 1 / 4 := by
    rw [abs_le]
    constructor <;> nlinarith [h1.1, h1.2]
  have hy1 := abs_le.mp hy
  unfold SoftClip
  rw [Clamp_of_mem _ _ _ (by linarith) (by linarith)]
  exact hy

theorem saw_abs_le (x : ℚ) : abs (2 * (x - ((⌊x + 1 / 2⌋ : Int) : ℚ))) ≤ 1 := by
  have h1 := Int.floor_le (x + 1 / 2)
  have h2 := Int.lt_floor_add_one (x + 1 / 2)
  rw [abs_le]
  constructor <;> linarith

theorem shaped_abs_le (b s : ℚ) (hb0 : 0 ≤ b) (hb1 : b ≤ 1) (hs : |s| ≤ 1) :
    abs ((1 - b) * s + b * abs s) ≤ 1 := by
  have h1 := abs_le.mp hs
  have h2 : 0 ≤ |s| := abs_nonneg s
  rw [abs_le]
  constructor
  · nlinarith [mul_nonneg hb0 h2, mul_nonneg (sub_nonneg.mpr hb1) (by linarith : 0 ≤ s + 1)]
  · nlinarith [mul_nonneg hb0 (sub_nonneg.mpr hs), mul_nonneg (sub_nonneg.mpr hb1)
      (by linarith : 0 ≤ 1 - s)]

theorem scaled_abs_le (e u : ℚ) (he0 : 0 ≤ e) (he1 : e ≤ 1) (hu : |u| ≤ 1) :
    |e * u * (1 / 4)| ≤ 1 / 4 := by
  have h1 := abs_le.mp hu
  rw [abs_le]
  constructor
  · nlinarith [mul_nonneg he0 (by linarith : 0 ≤ u + 1), mul_nonneg (sub_nonneg.mpr he1)
      (by linarith : (0 : ℚ) ≤ 1)]
  · nlinarith [mul_nonneg he0 (by linarith : 0 ≤ 1 - u), mul_nonneg (sub_nonneg.mpr he1)
      (by linarith : (0 : ℚ) ≤ 1)]

theorem panned_abs_le (o p : ℚ) (ho : |o| ≤ 1 / 4) (hp0 : 2 / 5 ≤ p) (hp1 : p ≤ 3 / 5) :
    |o * p| ≤ 3 / 20 := by
  have h1 := abs_le.mp ho
  rw [abs_le]
  constructor <;> nlinarith

/-- One `StepVoice` call keeps the voice within bounds and adds at most 0.15
in magnitude to each accumulator. -/
theorem StepVoice_bounds (M : FMathLib) (g : FGrooveSoundGenerator) (V : FGrooveVoice)
    (Bright L R : ℚ) (hV : VoiceOK V) (hB0 : 0 ≤ Bright) (hB1 : Bright ≤ 1) :
    VoiceOK (StepVoice M g V Bright L R).1 ∧
      |(StepVoice M g V Bright L R).2.1 - L| ≤ 3 / 20 ∧
      |(StepVoice M g V Bright L R).2.2 - R| ≤ 3 / 20 := by
  obtain ⟨e0, e1, s0, s1, p0, p1⟩ := hV
  have hE := StepVoice_Env_bounds M g V Bright L R hB0 hB1 e0 e1 s0 s1
  rw [StepVoice_Env] at hE
  refine ⟨⟨?_, ?_, s0, s1, p0, p1⟩, ?_, ?_⟩
  · rw [StepVoice_Env]; exact hE.1
  · rw [StepVoice_Env]; exact hE.2
  · simp only [StepVoice, add_sub_cancel_left]
    apply panned_abs_le _ _ _ (by linarith) (by linarith)
    apply SoftClip_abs_le
    apply scaled_abs_le _ _ hE.1 hE.2
    apply shaped_abs_le _ _ (Clamp_ge _ _ _) (Clamp_le _ _ _ (by norm_num))
    have a1 := saw_abs_le ((V.Phase + 2 * M.PI * (V.Freq / (g.SampleRate : ℚ))) / (2 * M.PI))
    have a2 := saw_abs_le ((V.Phase2 + 2 * M.PI *
      (V.Freq * M.Pow 2 ((10 + 60 * Bright) / 1200) / (g.SampleRate : ℚ))) / (2 * M.PI))
    have b1 := abs_le.mp a1
    have b2 := abs_le.mp a2
    rw [abs_le]
    constructor <;> linarith
  · simp only [StepVoice, add_sub_cancel_left]
    apply panned_abs_le _ _ _ (by linarith) (by linarith)
    apply SoftClip_abs_le
    apply scaled_abs_le _ _ hE.1 hE.2
    apply shaped_abs_le _ _ (Clamp_ge _ _ _) (Clamp_le _ _ _ (by norm_num))
    have a1 := saw_abs_le ((V.Phase + 2 * M.PI * (V.Freq / (g.SampleRate : ℚ))) / (2 * M.PI))
    have a2 := saw_abs_le ((V.Phase2 + 2 * M.PI *
      (V.Freq * M.Pow 2 ((10 + 60 * Bright) / 1200) / (g.SampleRate : ℚ))) / (2 * M.PI))
    have b1 := abs_le.mp a1
    have b2 := abs_le.mp a2
    rw [abs_le]
    constructor <;> linarith

theorem StepPerc_bounds (M : FMathLib) (ω : RngSource) (g : FGrooveSoundGenerator) (L R : ℚ)
    (hM : PowOK M) (hb : Bounded g) :
    Bounded (StepPerc M ω g L R).1 ∧
      |(StepPerc M ω g L R).2.1 - L| ≤ 21 / 100 ∧ |(StepPerc M ω g L R).2.2 - R| ≤ 21 / 100 := by
  obtain ⟨hsr, ha, hp, e0, e1, rl, rr⟩ := hb
  unfold StepPerc
  split
  · refine ⟨⟨hsr, ha, hp, e0, e1, rl, rr⟩, ?_, ?_⟩ <;> simp <;> norm_num
  · have hsrq : (0 : ℚ) < (g.SampleRate : ℚ) := by exact_mod_cast hsr
    have hexp : (0 : ℚ) < 1 / (4 / 100 * (g.SampleRate : ℚ)) := by positivity
    have hpow := hM _ hexp
    have hv : ∀ h : ℚ, |Clamp h (-1) 1 * g.PercEnv * (6 / 10) * (35 / 100)| ≤ 21 / 100 := by
      intro h
      have c0 := Clamp_ge h (-1) 1
      have c1 := Clamp_le h (-1) 1 (by norm_num)
      rw [abs_le]
      constructor
      · nlinarith [mul_nonneg e0 (by linarith : 0 ≤ Clamp h (-1) 1 + 1),
          mul_nonneg (sub_nonneg.mpr e1) (by linarith : (0 : ℚ) ≤ 1)]
      · nlinarith [mul_nonneg e0 (by linarith : 0 ≤ 1 - Clamp h (-1) 1),
          mul_nonneg (sub_nonneg.mpr e1) (by linarith : (0 : ℚ) ≤ 1)]
    refine ⟨⟨hsr, ha, hp, ?_, ?_, rl, rr⟩, ?_, ?_⟩
    · exact mul_nonneg e0 hpow.1
    · calc g.PercEnv * M.Pow (1 / 1000) (1 / (4 / 100 * (g.SampleRate : ℚ))) ≤ 1 * 1 :=
            mul_le_mul e1 hpow.2 hpow.1 zero_le_one
        _ = 1 := by norm_num
    · simp only [add_sub_cancel_left]; exact hv _
    · simp only [add_sub_cancel_left]; exact hv _

theorem TriggerArp_Bounded (M : FMathLib) (ω : RngSource) (g g1 : FGrooveSoundGenerator)
    (h : TriggerArp M ω g = some g1) (hb : Bounded g) : Bounded g1 := by
  obtain ⟨hsr, ⟨_, _, s0, s1, p0, p1⟩, hp, e0, e1, rl, rr⟩ := hb
  unfold TriggerArp at h
  simp only at h
  split at h
  · exact Option.noConfusion h
  · cases h
    exact ⟨hsr, ⟨zero_le_one, le_refl _, s0, s1, p0, p1⟩, hp, e0, e1, rl, rr⟩

theorem TriggerPad_Bounded (M : FMathLib) (g g1 : FGrooveSoundGenerator)
    (h : TriggerPad M g = some g1) (hb : Bounded g) : Bounded g1 := by
  obtain ⟨hsr, ha, ⟨_, _, s0, s1, p0, p1⟩, e0, e1, rl, rr⟩ := hb
  unfold TriggerPad at h
  simp only at h
  split at h
  · exact Option.noConfusion h
  · cases h
    exact ⟨hsr, ha, ⟨zero_le_one, le_refl _, s0, s1, p0, p1⟩, e0, e1, rl, rr⟩

theorem tickSixteenth_Bounded (M : FMathLib) (ω : RngSource) (g g1 : FGrooveSoundGenerator)
    (h : tickSixteenth M ω g = some g1) (hb : Bounded g) : Bounded g1 := by
  unfold tickSixteenth at h
  simp only at h
  split at h
  · exact TriggerArp_Bounded M ω _ g1 h hb
  · cases h; exact hb

theorem tickEighth_Bounded (ω : RngSource) (PercPr : ℚ) (g : FGrooveSoundGenerator)
    (hb : Bounded g) : Bounded (tickEighth ω PercPr g) := by
  obtain ⟨hsr, ha, hp, e0, e1, rl, rr⟩ := hb
  unfold tickEighth
  simp only
  split
  · split
    · exact ⟨hsr, ha, hp, zero_le_one, le_refl _, rl, rr⟩
    · exact ⟨hsr, ha, hp, e0, e1, rl, rr⟩
  · exact ⟨hsr, ha, hp, e0, e1, rl, rr⟩

theorem tickPadGate_Bounded (M : FMathLib) (g g1 : FGrooveSoundGenerator)
    (h : tickPadGate M g = some g1) (hb : Bounded g) : Bounded g1 := by
  unfold tickPadGate at h
  simp only at h
  split at h
  · exact TriggerPad_Bounded M _ g1 h hb
  · cases h; exact hb

theorem abs_add_three (a b c : ℚ) (x y z : ℚ) (ha : |a - 0| ≤ x) (hb : |b - a| ≤ y)
    (hc : |c - b| ≤ z) : |c| ≤ x + y + z := by
  rw [sub_zero] at ha
  have h1 := abs_le.mp ha
  have h2 := abs_le.mp hb
  have h3 := abs_le.mp hc
  rw [abs_le]
  constructor <;> linarith

theorem mix_core (M : FMathLib) (ω : RngSource) (g : FGrooveSoundGenerator)
    (p a : FGrooveVoice × ℚ × ℚ) (hM : PowOK M) (hb : Bounded g)
    (hp : VoiceOK p.1 ∧ |p.2.1 - 0| ≤ 3 / 20 ∧ |p.2.2 - 0| ≤ 3 / 20)
    (ha : VoiceOK a.1 ∧ |a.2.1 - p.2.1| ≤ 3 / 20 ∧ |a.2.2 - p.2.2| ≤ 3 / 20) :
    Bounded (if g.bPercOn = true then StepPerc M ω { g with Pad := p.1, Arp := a.1 } a.2.1 a.2.2
        else ({ g with Pad := p.1, Arp := a.1 }, a.2.1, a.2.2)).1 ∧
      |(if g.bPercOn = true then StepPerc M ω { g with Pad := p.1, Arp := a.1 } a.2.1 a.2.2
        else ({ g with Pad := p.1, Arp := a.1 }, a.2.1, a.2.2)).2.1| ≤ 51 / 100 ∧
      |(if g.bPercOn = true then StepPerc M ω { g with Pad := p.1, Arp := a.1 } a.2.1 a.2.2
        else ({ g with Pad := p.1, Arp := a.1 }, a.2.1, a.2.2)).2.2| ≤ 51 / 100 := by
  obtain ⟨hsr, _, _, e0, e1, rl, rr⟩ := hb
  have hb2 : Bounded { g with Pad := p.1, Arp := a.1 } :=
    ⟨hsr, ha.1, hp.1, e0, e1, rl, rr⟩
  split
  · have hperc := StepPerc_bounds M ω { g with Pad := p.1, Arp := a.1 } a.2.1 a.2.2 hM hb2
    refine ⟨hperc.1, ?_, ?_⟩
    · have := abs_add_three _ _ _ _ _ _ hp.2.1 ha.2.1 hperc.2.1
      norm_num at this ⊢
      exact this
    · have := abs_add_three _ _ _ _ _ _ hp.2.2 ha.2.2 hperc.2.2
      norm_num at this ⊢
      exact this
  · refine ⟨hb2, ?_, ?_⟩
    · have := abs_add_three _ _ a.2.1 _ _ (0 : ℚ) hp.2.1 ha.2.1 (by simp)
      norm_num at this ⊢
      linarith
    · have := abs_add_three _ _ a.2.2 _ _ (0 : ℚ) hp.2.2 ha.2.2 (by simp)
      norm_num at this ⊢
      linarith

/-- Voice mixing keeps the signal-path invariant and leaves accumulators of
magnitude at most 0.51. -/
theorem mixVoices_bounds (M : FMathLib) (ω : RngSource) (Bright : ℚ)
    (g : FGrooveSoundGenerator) (hM : PowOK M) (hb : Bounded g) (hB0 : 0 ≤ Bright)
    (hB1 : Bright ≤ 1) :
    Bounded (mixVoices M ω Bright g).1 ∧ |(mixVoices M ω Bright g).2.1| ≤ 51 / 100 ∧
      |(mixVoices M ω Bright g).2.2| ≤ 51 / 100 := by
  have hpad : VoiceOK (if g.bPadOn = true then StepVoice M g g.Pad (Bright * (6 / 10)) 0 0
        else (g.Pad, 0, 0)).1 ∧
      |(if g.bPadOn = true then StepVoice M g g.Pad (Bright * (6 / 10)) 0 0
        else (g.Pad, 0, 0)).2.1 - 0| ≤ 3 / 20 ∧
      |(if g.bPadOn = true then StepVoice M g g.Pad (Bright * (6 / 10)) 0 0
        else (g.Pad, 0, 0)).2.2 - 0| ≤ 3 / 20 := by
    split
    · exact StepVoice_bounds M g g.Pad _ 0 0 hb.2.2.1 (by positivity) (by linarith)
    · exact ⟨hb.2.2.1, by norm_num, by norm_num⟩
  have harp : ∀ (g1 : FGrooveSoundGenerator) (l r : ℚ), g1.Arp = g.Arp →
      VoiceOK (if g1.bArpOn = true then StepVoice M g1 g1.Arp Bright l r
        else (g1.Arp, l, r)).1 ∧
      |(if g1.bArpOn = true then StepVoice M g1 g1.Arp Bright l r
        else (g1.Arp, l, r)).2.1 - l| ≤ 3 / 20 ∧
      |(if g1.bArpOn = true then StepVoice M g1 g1.Arp Bright l r
        else (g1.Arp, l, r)).2.2 - r| ≤ 3 / 20 := by
    intro g1 l r hg1
    split
    · exact StepVoice_bounds M g1 g1.Arp _ _ _ (by rw [hg1]; exact hb.2.1) hB0 hB1
    · rw [hg1]; exact ⟨hb.2.1, by norm_num, by norm_num⟩
  exact mix_core M ω g _ _ hM hb hpad (harp _ _ _ rfl)

theorem feedback_abs_le (l rv fb : ℚ) (hl : |l| ≤ 51 / 100) (hr : |rv| ≤ 1) (h0 : 0 ≤ fb)
    (h1 : fb ≤ 37 / 100) : |l + rv * fb| ≤ 1 := by
  have a := abs_le.mp hl
  have b := abs_le.mp hr
  rw [abs_le]
  constructor
  · nlinarith [mul_nonneg h0 (by linarith : 0 ≤ rv + 1)]
  · nlinarith [mul_nonneg h0 (by linarith : 0 ≤ 1 - rv)]

/-- One frame keeps the signal-path invariant and produces samples in `[-1,1]`. -/
theorem renderFrame_bounds (M : FMathLib) (ω : RngSource) (Bright PercPr : ℚ)
    (g : FGrooveSoundGenerator) (fr : FrameResult) (hM : PowOK M) (hb : Bounded g)
    (hB0 : 0 ≤ Bright) (hB1 : Bright ≤ 1)
    (h : renderFrame M ω Bright PercPr g = some fr) :
    Bounded fr.Gen ∧ |fr.dl| ≤ 1 ∧ |fr.dr| ≤ 1 := by
  unfold renderFrame at h
  split at h
  · exact Option.noConfusion h
  · rename_i g1 h1
    split at h
    · exact Option.noConfusion h
    · rename_i g3 h3
      cases h
      have b1 := tickSixteenth_Bounded M ω g g1 h1 hb
      have b2 := tickEighth_Bounded ω PercPr g1 b1
      have b3 := tickPadGate_Bounded M _ g3 h3 b2
      obtain ⟨⟨hsr, ha, hp, e0, e1, rl, rr⟩, hL, hR⟩ :=
        mixVoices_bounds M ω Bright g3 hM b3 hB0 hB1
      have hfb0 : (0 : ℚ) ≤ 12 / 100 + 25 / 100 * Bright := by positivity
      have hfb1 : 12 / 100 + 25 / 100 * Bright ≤ 37 / 100 := by linarith
      have hdl := feedback_abs_le _ _ _ hL rl hfb0 hfb1
      have hdr := feedback_abs_le _ _ _ hR rr hfb0 hfb1
      exact ⟨⟨hsr, ha, hp, e0, e1, hdl, hdr⟩, hdl, hdr⟩

theorem frameSeq_bounds (M : FMathLib) (ω : RngSource) (Bright PercPr : ℚ) (hM : PowOK M)
    (hB0 : 0 ≤ Bright) (hB1 : Bright ≤ 1) (m : Nat) :
    ∀ (g : FGrooveSoundGenerator) (r : FGrooveSoundGenerator × List FrameResult),
      Bounded g → frameSeq M ω Bright PercPr m g = some r →
      Bounded r.1 ∧ ∀ fr ∈ r.2, |fr.dl| ≤ 1 ∧ |fr.dr| ≤ 1 := by
  induction m with
  | zero =>
    intro g r hb h
    simp only [frameSeq] at h
    cases h
    exact ⟨hb, fun fr hfr => absurd hfr (List.not_mem_nil _)⟩
  | succ m ih =>
    intro g r hb h
    simp only [frameSeq] at h
    split at h
    · exact Option.noConfusion h
    · rename_i fr hfr
      split at h
      · exact Option.noConfusion h
      · rename_i r1 hr1
        cases h
        obtain ⟨b1, hdl, hdr⟩ := renderFrame_bounds M ω Bright PercPr g fr hM hb hB0 hB1 hfr
        obtain ⟨b2, hall⟩ := ih fr.Gen r1 b1 hr1
        refine ⟨b2, fun x hx => ?_⟩
        rcases List.mem_cons.mp hx with rfl | hx
        · exact ⟨hdl, hdr⟩
        · exact hall x hx

theorem writesOf_values (c : Int) (frs : List FrameResult) :
    ∀ i : Int, ∀ w ∈ writesOf c i frs, ∃ fr ∈ frs, w.2 = fr.dl ∨ w.2 = fr.dr := by
  induction frs with
  | nil => intro i w hw; simp [writesOf] at hw
  | cons fr frs ih =>
    intro i w hw
    simp only [writesOf, List.mem_append] at hw
    rcases hw with hw | hw
    · refine ⟨fr, List.mem_cons_self _ _, ?_⟩
      unfold frameWrites at hw
      split at hw
      · simp only [List.mem_cons, List.mem_singleton, List.not_mem_nil, or_false] at hw
        rcases hw with rfl | rfl
        · exact Or.inl rfl
        · exact Or.inr rfl
      · simp only [List.mem_singleton] at hw
        subst hw; exact Or.inl rfl
    · obtain ⟨x, hx, hv⟩ := ih (i + c) w hw
      exact ⟨x, List.mem_cons_of_mem _ hx, hv⟩

theorem pullParameters_Bounded (g : FGrooveSoundGenerator)
    (Owner : Option UGrooveSynthComponent) (hb : Bounded g) :
    Bounded (pullParameters g Owner) := by
  unfold pullParameters
  cases Owner with
  | none => exact hb
  | some C => simp only; split <;> exact hb

theorem UpdateTimingIfChanged_Bounded (ω : RngSource) (g : FGrooveSoundGenerator)
    (hb : Bounded g) : Bounded (UpdateTimingIfChanged ω g) := by
  unfold UpdateTimingIfChanged
  simp only
  split <;> split <;>
    first
    | exact hb
    | (unfold RebuildScale
       simp only
       split <;> exact hb)

theorem prepare_Bounded (ω : RngSource) (g : FGrooveSoundGenerator)
    (Owner : Option UGrooveSynthComponent) (hb : Bounded g) : Bounded (prepare ω g Owner) :=
  UpdateTimingIfChanged_Bounded ω _ (pullParameters_Bounded g Owner hb)

theorem construct_Bounded (ω : RngSource) (sr : ℚ) (ch : Int)
    (Owner : Option UGrooveSynthComponent) (h : 0 < (construct ω sr ch Owner).SampleRate) :
    Bounded (construct ω sr ch Owner) := by
  have hA := construct_Arp ω sr ch Owner
  have hP := construct_Pad ω sr ch Owner
  have hrest : (construct ω sr ch Owner).PercEnv = 0 ∧ (construct ω sr ch Owner).ReverbL = 0 ∧
      (construct ω sr ch Owner).ReverbR = 0 := by
    cases Owner <;> simp only [construct, UpdateTiming, RebuildScale] <;> split <;>
      exact ⟨rfl, rfl, rfl⟩
  unfold Bounded VoiceOK
  rw [hA, hP, hrest.1, hrest.2.1, hrest.2.2]
  refine ⟨h, ?_, ?_, ?_⟩ <;> norm_num

theorem blockBright_mem (g : FGrooveSoundGenerator) : 0 ≤ blockBright g ∧ blockBright g ≤ 1 :=
  ⟨Clamp_ge _ _ _, Clamp_le _ _ _ (by norm_num)⟩

theorem InRange_OwnerScaleOK (Owner : Option UGrooveSynthComponent) (h : InRange Owner) :
    OwnerScaleOK Owner := fun C hC => (h C hC).2.2.2.2.2.2.2.2.1

/-- One call from a state satisfying the invariants returns, keeps them, and
writes only samples in `[-1,1]`. -/
theorem OnGenerateAudio_bounds (M : FMathLib) (ω : RngSource) (g : FGrooveSoundGenerator)
    (Owner : Option UGrooveSynthComponent) (N : Int) (hM : PowOK M) (hb : Bounded g)
    (hW : WalkerOK g) (hS : g.Scale ≤ 3) (hc : 1 ≤ g.Channels) (hO : OwnerScaleOK Owner) :
    ∃ res, OnGenerateAudio M ω g Owner N = some res ∧
      (Bounded res.Gen ∧ WalkerOK res.Gen ∧ res.Gen.Scale ≤ 3 ∧ 1 ≤ res.Gen.Channels) ∧
      ∀ w ∈ res.OutAudio, -1 ≤ w.2 ∧ w.2 ≤ 1 := by
  have hp := prepare_WalkerOK ω g Owner hW hS hO
  have hbp := prepare_Bounded ω g Owner hb
  have hB := blockBright_mem (prepare ω g Owner)
  obtain ⟨r, e, w1, c1, _⟩ := frameSeq_total M ω (blockBright (prepare ω g Owner))
    (blockPercPr (prepare ω g Owner)) (frameCount N g.Channels) (prepare ω g Owner) hp.1
  obtain ⟨b1, hall⟩ := frameSeq_bounds M ω _ _ hM hB.1 hB.2 _ _ r hbp e
  rw [OnGenerateAudio_eq M ω g Owner N hc, e]
  refine ⟨_, rfl, ⟨b1, w1, ?_, ?_⟩, ?_⟩
  · show r.1.Scale ≤ 3
    rw [config_Scale c1]; exact hp.2
  · show 1 ≤ r.1.Channels
    rw [config_Channels c1, prepare_Channels]; exact hc
  · intro w hw
    obtain ⟨fr, hfr, hv⟩ := writesOf_values g.Channels r.2 0 w hw
    have := hall fr hfr
    rcases hv with hv | hv <;> rw [hv]
    · exact abs_le.mp this.1
    · exact abs_le.mp this.2

theorem Reachable_invariant (M : FMathLib) (ω : RngSource) (hM : PowOK M)
    (g : FGrooveSoundGenerator) (hg : Reachable M ω g) :
    Bounded g ∧ WalkerOK g ∧ g.Scale ≤ 3 ∧ 1 ≤ g.Channels := by
  induction hg with
  | fresh sr ch Owner hO hlo _ =>
    have hw := construct_WalkerOK ω sr ch Owner (InRange_OwnerScaleOK Owner hO)
    have hsr : 0 < (construct ω sr ch Owner).SampleRate := by
      rw [construct_SampleRate, if_pos (by linarith)]
      unfold RoundToInt
      exact Int.floor_pos.mpr (by linarith)
    refine ⟨construct_Bounded ω sr ch Owner hsr, hw.1, hw.2, ?_⟩
    rw [construct_Channels]; split <;> omega
  | block g Owner N res _ hO hres ih =>
    obtain ⟨hb, hW, hS, hc⟩ := ih
    obtain ⟨res1, e1, hinv, _⟩ := OnGenerateAudio_bounds M ω g Owner N hM hb hW hS hc
      (InRange_OwnerScaleOK Owner hO)
    rw [hres] at e1
    cases e1
    exact hinv

theorem exampleMath_PowOK : PowOK exampleMath := by
  intro e he
  have hfl : (0 : Int) ≤ ⌊e⌋ := Int.floor_nonneg.mpr (le_of_lt he)
  show 0 ≤ (1 / 1000 : ℚ) ^ (⌊e⌋ : Int) ∧ (1 / 1000 : ℚ) ^ (⌊e⌋ : Int) ≤ 1
  obtain ⟨k, hk⟩ := Int.eq_ofNat_of_zero_le hfl
  rw [hk, zpow_natCast]
  exact ⟨by positivity, pow_le_one₀ (by norm_num) (by norm_num)⟩

/-- C4: a renderer constructed at a host rate of 0.25 Hz stores the sample rate
0 (the rate every voice and percussion step divides by), whatever the owner
and channel count, and is not among the reachable states below. For any
engine `Pow` whose decay factor lies in `[0,1]`, every state reachable from a
renderer constructed at a host rate that rounds to a positive `int32`, under
owners within the documented ranges with a root note in `[0,127]`, and every
further block request: the call returns and every sample it writes lies in
`[-1, 1]`, in exact arithmetic. -/
theorem bounded_output (M : FMathLib) (ω : RngSource) (hM : PowOK M) :
    (∀ (ch : Int) (Owner : Option UGrooveSynthComponent),
      (construct ω (1 / 4) ch Owner).SampleRate = 0 ∧
      ((construct ω (1 / 4) ch Owner).SampleRate : ℚ) = 0 ∧
      ¬ Bounded (construct ω (1 / 4) ch Owner)) ∧
    (∀ (g : FGrooveSoundGenerator), Reachable M ω g →
      ∀ (Owner : Option UGrooveSynthComponent), InRange Owner → ∀ N : Int,
      ∃ res, OnGenerateAudio M ω g Owner N = some res ∧
        (∀ w ∈ res.OutAudio, -1 ≤ w.2 ∧ w.2 ≤ 1) ∧ Reachable M ω res.Gen ∧
        0 < g.SampleRate) := by
  refine ⟨fun ch Owner => ?_, fun g hg Owner hO N => ?_⟩
  · have h0 : (construct ω (1 / 4) ch Owner).SampleRate = 0 := by
      rw [construct_SampleRate, if_pos (by norm_num)]
      unfold RoundToInt
      norm_num
    refine ⟨h0, by rw [h0]; norm_num, fun hb => ?_⟩
    have := hb.1
    rw [h0] at this
    exact lt_irrefl _ this
  · obtain ⟨hb, hW, hS, hc⟩ := Reachable_invariant M ω hM g hg
    obtain ⟨res, e, _, hall⟩ := OnGenerateAudio_bounds M ω g Owner N hM hb hW hS hc
      (InRange_OwnerScaleOK Owner hO)
    exact ⟨res, e, hall, Reachable.block g Owner N res hg hO e, hb.1⟩

theorem InRange_default : InRange (some {}) := by
  intro C hC
  cases hC
  refine ⟨?_, ?_, ?_, ?_, ?_, ?_, ?_, ?_, ?_, ?_, ?_⟩ <;> first | decide | norm_num

/-- Witness for C4: the default owner at 48000 Hz stereo, a 512-sample block. -/
theorem bounded_output_witness :
    ∃ res, OnGenerateAudio exampleMath zeroDraws (construct zeroDraws 48000 2 (some {}))
        (some {}) 512 = some res ∧
      ∀ w ∈ res.OutAudio, -1 ≤ w.2 ∧ w.2 ≤ 1 :=
  match (bounded_output exampleMath zeroDraws exampleMath_PowOK).2 _
    (Reachable.fresh 48000 2 (some {}) InRange_default (by norm_num) (by norm_num))
    (some {}) InRange_default 512 with
  | ⟨res, e, hall, _⟩ => ⟨res, e, hall⟩

/-! ## Host controls -/

/-- C15: `SetMotionAmount(x)` stores `min(max(x, 0), 1)`, which lies in `[0,1]`,
changes no other parameter of the component, and applied to the stored value
changes nothing. -/
theorem SetMotionAmount_clamps (C : UGrooveSynthComponent) (x : ℚ) :
    (C.SetMotionAmount x).Motion = min (max x 0) 1 ∧
    (0 ≤ (C.SetMotionAmount x).Motion ∧ (C.SetMotionAmount x).Motion ≤ 1) ∧
    ({ C.SetMotionAmount x with Motion := C.Motion } = C) ∧
    ((C.SetMotionAmount x).BPM = C.BPM ∧ (C.SetMotionAmount x).RootMidi = C.RootMidi ∧
      (C.SetMotionAmount x).Scale = C.Scale ∧ (C.SetMotionAmount x).Density = C.Density ∧
      (C.SetMotionAmount x).Brightness = C.Brightness ∧ (C.SetMotionAmount x).Seed = C.Seed ∧
      (C.SetMotionAmount x).bArpOn = C.bArpOn ∧ (C.SetMotionAmount x).bPadOn = C.bPadOn ∧
      (C.SetMotionAmount x).bPercOn = C.bPercOn) ∧
    ((C.SetMotionAmount x).SetMotionAmount (C.SetMotionAmount x).Motion = C.SetMotionAmount x) ∧
    (∀ Speed MaxSpeed : ℚ,
      (({ Synth := some C } : AProcAudio).UpdateFromSpeed Speed MaxSpeed).Synth =
        some (C.SetMotionAmount (Clamp (Speed / max 1 MaxSpeed) 0 1))) := by
  have h0 : (0 : ℚ) ≤ Clamp x 0 1 := Clamp_ge _ _ _
  have h1 : Clamp x 0 1 ≤ 1 := Clamp_le _ _ _ (by norm_num)
  refine ⟨?_, ⟨h0, h1⟩, rfl, ⟨rfl, rfl, rfl, rfl, rfl, rfl, rfl, rfl, rfl⟩, ?_, fun _ _ => rfl⟩
  · show Clamp x 0 1 = min (max x 0) 1
    unfold Clamp
    rcases le_total x 0 with h | h
    · rw [max_eq_right h, min_eq_left (by linarith), min_eq_left (by norm_num),
        max_eq_right h]
    · rw [max_eq_left h]
      rcases le_total x 1 with h2 | h2
      · rw [min_eq_left h2, max_eq_left h]
      · rw [min_eq_right h2, max_eq_left (by norm_num)]
  · show ({ C.SetMotionAmount x with Motion := Clamp (Clamp x 0 1) 0 1 } :
        UGrooveSynthComponent) = C.SetMotionAmount x
    rw [Clamp_of_mem _ _ _ h0 h1]
    rfl

/-- C16: with a synth attached `NudgeBPM(Delta)` stores `clamp(BPM + Delta, 60, 160)`,
which lies in `[60,160]` and is left as is by the renderer's `[20,300]` clamp;
with no synth attached the call changes nothing. -/
theorem NudgeBPM_clamps (A : AProcAudio) (Delta : ℚ) :
    (∀ S, A.Synth = some S →
      ∃ S1, (A.NudgeBPM Delta).Synth = some S1 ∧
        S1.BPM = Clamp (S.BPM + Delta) 60 160 ∧ S1.BPM = max (min (S.BPM + Delta) 160) 60 ∧
        60 ≤ S1.BPM ∧ S1.BPM ≤ 160 ∧ Clamp S1.BPM 20 300 = S1.BPM ∧
        { S1 with BPM := S.BPM } = S) ∧
    (A.Synth = none → A.NudgeBPM Delta = A) := by
  constructor
  · intro S hS
    have h0 : (60 : ℚ) ≤ Clamp (S.BPM + Delta) 60 160 := Clamp_ge _ _ _
    have h1 : Clamp (S.BPM + Delta) 60 160 ≤ 160 := Clamp_le _ _ _ (by norm_num)
    refine ⟨{ S with BPM := Clamp (S.BPM + Delta) 60 160 }, ?_, rfl, rfl, h0, h1, ?_, rfl⟩
    · simp only [AProcAudio.NudgeBPM, hS]
    · exact Clamp_of_mem _ _ _ (by simp only; linarith) (by simp only; linarith)
  · intro hS
    simp only [AProcAudio.NudgeBPM, hS]

/-- Witness for C16: the default component nudged by `+2` and by `+100`. -/
theorem NudgeBPM_clamps_witness :
    (∃ S1, (({ Synth := some {} } : AProcAudio).NudgeBPM 2).Synth = some S1 ∧ S1.BPM = 102) ∧
    (∃ S1, (({ Synth := some {} } : AProcAudio).NudgeBPM 100).Synth = some S1 ∧ S1.BPM = 160) :=
  ⟨by
    obtain ⟨S1, h1, h2, _⟩ := (NudgeBPM_clamps { Synth := some {} } 2).1 {} rfl
    refine ⟨S1, h1, ?_⟩
    rw [h2]; unfold Clamp; norm_num,
   by
    obtain ⟨S1, h1, h2, _⟩ := (NudgeBPM_clamps { Synth := some {} } 100).1 {} rfl
    refine ⟨S1, h1, ?_⟩
    rw [h2]; unfold Clamp; norm_num⟩
/-! ## Percussion -/

/-- C19: when the percussion envelope is at or below the threshold `1e-5`,
`StepPerc` returns the generator and both accumulators exactly as given: no
state (envelope, filter states, random stream or anything else) changes. -/
theorem StepPerc_silent (M : FMathLib) (ω : RngSource) (g : FGrooveSoundGenerator) (L R : ℚ)
    (h : g.PercEnv ≤ 1 / 100000) :
    StepPerc M ω g L R = (g, L, R) ∧
    (StepPerc M ω g L R).1.PercEnv = g.PercEnv ∧ (StepPerc M ω g L R).1.LP = g.LP ∧
    (StepPerc M ω g L R).1.HP = g.HP ∧ (StepPerc M ω g L R).1.Rng = g.Rng ∧
    (StepPerc M ω g L R).2.1 = L ∧ (StepPerc M ω g L R).2.2 = R := by
  have e : StepPerc M ω g L R = (g, L, R) := by
    unfold StepPerc
    rw [if_pos h]
  rw [e]
  exact ⟨rfl, rfl, rfl, rfl, rfl, rfl, rfl⟩

/-- Witness for C19: the constructed generator (percussion envelope 0). -/
theorem StepPerc_silent_witness :
    StepPerc exampleMath zeroDraws {} (1 / 2) (1 / 3) = ({}, 1 / 2, 1 / 3) :=
  (StepPerc_silent exampleMath zeroDraws {} (1 / 2) (1 / 3) (by norm_num)).1

/-- C18: on an eighth-grid wrap `tickEighth` triggers the percussion exactly
when the enable flag is set and the draw is strictly below `PercPr`, consuming
one draw when the flag is set and none when it is clear; without a wrap nothing
but the counter changes. With `PercPr = 0` no trigger ever fires, with
`PercPr = 1` every wrap of an enabled percussion fires, and `OnGenerateAudio`
uses `PercPr = clamp(Density + 0.20 * Motion, 0, 1)`. -/
theorem percussion_gating (ω : RngSource) (PercPr : ℚ) (g : FGrooveSoundGenerator) :
    ((clockTick g.Eighth g.EighthPeriod).2 = true → g.bPercOn = true →
      (g.Rng.GetFraction ω).1 < PercPr →
      tickEighth ω PercPr g = TriggerPerc { g with
        Eighth := (clockTick g.Eighth g.EighthPeriod).1, Rng := (g.Rng.GetFraction ω).2 } ∧
      (tickEighth ω PercPr g).PercEnv = 1) ∧
    ((clockTick g.Eighth g.EighthPeriod).2 = true → g.bPercOn = true →
      ¬ (g.Rng.GetFraction ω).1 < PercPr →
      tickEighth ω PercPr g = { g with
        Eighth := (clockTick g.Eighth g.EighthPeriod).1, Rng := (g.Rng.GetFraction ω).2 }) ∧
    ((clockTick g.Eighth g.EighthPeriod).2 = true → g.bPercOn = false →
      tickEighth ω PercPr g = { g with Eighth := (clockTick g.Eighth g.EighthPeriod).1 } ∧
      (tickEighth ω PercPr g).Rng = g.Rng) ∧
    ((clockTick g.Eighth g.EighthPeriod).2 = false →
      tickEighth ω PercPr g = { g with Eighth := (clockTick g.Eighth g.EighthPeriod).1 }) ∧
    (g.PercEnv ≠ 1 →
      ((tickEighth ω PercPr g).PercEnv = 1 ↔
        ((clockTick g.Eighth g.EighthPeriod).2 = true ∧ g.bPercOn = true ∧
          (g.Rng.GetFraction ω).1 < PercPr))) ∧
    (PercPr = 0 → (tickEighth ω PercPr g).PercEnv = g.PercEnv) ∧
    (PercPr = 1 → (clockTick g.Eighth g.EighthPeriod).2 = true → g.bPercOn = true →
      (tickEighth ω PercPr g).PercEnv = 1) ∧
    (∀ (M : FMathLib) (Owner : Option UGrooveSynthComponent) (N : Int),
      blockPercPr (prepare ω g Owner) =
        Clamp ((prepare ω g Owner).Density + (20 / 100) * (prepare ω g Owner).Motion) 0 1 ∧
      (1 ≤ g.Channels → OnGenerateAudio M ω g Owner N =
        (frameSeq M ω (blockBright (prepare ω g Owner)) (blockPercPr (prepare ω g Owner))
          (frameCount N g.Channels) (prepare ω g Owner)).map (fun r =>
            { Gen := r.1
              Owner := Owner.map (publishMeters M r.1 (sumSq 0 r.2) N)
              OutAudio := writesOf g.Channels 0 r.2
              Returned := N }))) := by
  have hge := GetFraction_nonneg ω g.Rng
  have hlt := GetFraction_lt_one ω g.Rng
  have key : ∀ P : ℚ, tickEighth ω P g =
      if (clockTick g.Eighth g.EighthPeriod).2 = true ∧ g.bPercOn = true then
        if (g.Rng.GetFraction ω).1 < P then
          TriggerPerc { g with Eighth := (clockTick g.Eighth g.EighthPeriod).1,
                               Rng := (g.Rng.GetFraction ω).2 }
        else { g with Eighth := (clockTick g.Eighth g.EighthPeriod).1,
                      Rng := (g.Rng.GetFraction ω).2 }
      else { g with Eighth := (clockTick g.Eighth g.EighthPeriod).1 } := fun _ => rfl
  refine ⟨fun hw hb hd => ?_, fun hw hb hd => ?_, fun hw hb => ?_, fun hw => ?_, fun hne => ?_,
    fun hP => ?_, fun hP hw hb => ?_, fun M Owner N => ⟨rfl, fun hc => OnGenerateAudio_eq M ω g Owner N hc⟩⟩
  · rw [key, if_pos ⟨hw, hb⟩, if_pos hd]
    exact ⟨rfl, rfl⟩
  · rw [key, if_pos ⟨hw, hb⟩, if_neg hd]
  · rw [key, if_neg (by rw [hb]; simp)]
    exact ⟨rfl, rfl⟩
  · rw [key, if_neg (by rw [hw]; simp)]
  · rw [key]
    by_cases h1 : (clockTick g.Eighth g.EighthPeriod).2 = true ∧ g.bPercOn = true
    · rw [if_pos h1]
      by_cases h2 : (g.Rng.GetFraction ω).1 < PercPr
      · rw [if_pos h2]
        exact ⟨fun _ => ⟨h1.1, h1.2, h2⟩, fun _ => rfl⟩
      · rw [if_neg h2]
        exact ⟨fun h => absurd h hne, fun h => absurd h.2.2 h2⟩
    · rw [if_neg h1]
      exact ⟨fun h => absurd h hne, fun h => absurd ⟨h.1, h.2.1⟩ h1⟩
  · rw [key]
    split
    · rw [if_neg (by rw [hP]; exact not_lt.mpr hge)]
    · rfl
  · rw [key, if_pos ⟨hw, hb⟩, if_pos (by rw [hP]; exact hlt)]
    rfl

/-- Witness for C18: an enabled percussion whose eighth counter is about to
wrap, with a draw of `0` against `PercPr = 0.35`. -/
theorem percussion_gating_witness :
    (tickEighth zeroDraws (35 / 100) { Eighth := 23999 }).PercEnv = 1 :=
  ((percussion_gating zeroDraws (35 / 100) { Eighth := 23999 }).1
    (by simp [clockTick]; norm_num) rfl
    (by simp [FRandomStream.GetFraction, zeroDraws])).2

/-! ## Seed and scale reconciliation -/

/-- The stream after `RebuildScale`: one more draw for a valid selector. -/
theorem RebuildScale_Rng (ω : RngSource) (g : FGrooveSoundGenerator) (c : Nat)
    (hc : g.Scale = c) (h : c ≤ 3) :
    (RebuildScale ω g).Rng = { Seed := g.Rng.Seed, Count := g.Rng.Count + 1 } := by
  have hl := scaleTable_length_pos c h
  rw [← hc] at hl
  have hne : (scaleTable g.Scale).length ≠ 0 := Nat.pos_iff_ne_zero.mp hl
  have hr : 0 < ((scaleTable g.Scale).length : Int) - 1 - 0 + 1 := by
    have : (0 : Int) < ((scaleTable g.Scale).length : Int) := by exact_mod_cast hl
    linarith
  unfold RebuildScale
  simp only [if_pos hne, FRandomStream.RandRange, if_pos hr, FRandomStream.GetFraction]

/-- The stream after `RebuildScale` keeps its seed and never loses draws. -/
theorem RebuildScale_Rng_mono (ω : RngSource) (g : FGrooveSoundGenerator) :
    (RebuildScale ω g).Rng.Seed = g.Rng.Seed ∧ g.Rng.Count ≤ (RebuildScale ω g).Rng.Count := by
  unfold RebuildScale
  simp only [FRandomStream.RandRange, FRandomStream.GetFraction]
  split_ifs <;> simp

/-- Timing update does not touch the scale table, the walker or the stream. -/
theorem UpdateTiming_scale (g : FGrooveSoundGenerator) :
    (UpdateTiming g).ScaleSemis = g.ScaleSemis ∧ (UpdateTiming g).Walker = g.Walker ∧
    (UpdateTiming g).Rng = g.Rng ∧ (UpdateTiming g).Scale = g.Scale ∧
    (UpdateTiming g).ScaleShadow = g.ScaleShadow :=
  ⟨rfl, rfl, rfl, rfl, rfl⟩

/-- With the scale shadow equal to the selector, reconciliation leaves the
scale table, the walker and the stream unchanged. -/
theorem UpdateTimingIfChanged_same_scale (ω : RngSource) (g : FGrooveSoundGenerator)
    (h : g.ScaleShadow = g.Scale) :
    (UpdateTimingIfChanged ω g).ScaleSemis = g.ScaleSemis ∧
    (UpdateTimingIfChanged ω g).Walker = g.Walker ∧
    (UpdateTimingIfChanged ω g).Rng = g.Rng := by
  unfold UpdateTimingIfChanged
  by_cases hb : IsNearlyEqual g.BPMShadow g.BPM (1 / 10000) = true
  · simp only [if_pos hb]
    rw [if_neg (by simp [h])]
    exact ⟨rfl, rfl, rfl⟩
  · simp only [if_neg hb]
    rw [if_neg (by simp [UpdateTiming, h])]
    exact ⟨rfl, rfl, rfl⟩

/-- With the scale shadow different from the selector, reconciliation rebuilds
the table for the selector and takes walker and stream from `RebuildScale`. -/
theorem UpdateTimingIfChanged_rebuilds (ω : RngSource) (g : FGrooveSoundGenerator)
    (h : g.ScaleShadow ≠ g.Scale) :
    (UpdateTimingIfChanged ω g).ScaleSemis = scaleTable g.Scale ∧
    (UpdateTimingIfChanged ω g).Walker = (RebuildScale ω g).Walker ∧
    (UpdateTimingIfChanged ω g).Rng = (RebuildScale ω g).Rng := by
  unfold UpdateTimingIfChanged
  by_cases hb : IsNearlyEqual g.BPMShadow g.BPM (1 / 10000) = true
  · simp only [if_pos hb]
    rw [if_pos h]
    unfold RebuildScale
    simp only
    split <;> exact ⟨rfl, rfl, rfl⟩
  · simp only [if_neg hb]
    rw [if_pos (by simpa [UpdateTiming] using h)]
    unfold RebuildScale
    simp only [UpdateTiming]
    split <;> exact ⟨rfl, rfl, rfl⟩

/-- Timing periods are kept when the tempo shadow is (nearly) the tempo. -/
theorem UpdateTimingIfChanged_same_tempo (ω : RngSource) (g : FGrooveSoundGenerator)
    (hb : IsNearlyEqual g.BPMShadow g.BPM (1 / 10000) = true) :
    (UpdateTimingIfChanged ω g).SamplesPerBeat = g.SamplesPerBeat ∧
    (UpdateTimingIfChanged ω g).SixteenthPeriod = g.SixteenthPeriod ∧
    (UpdateTimingIfChanged ω g).EighthPeriod = g.EighthPeriod ∧
    (UpdateTimingIfChanged ω g).PadPeriod = g.PadPeriod := by
  unfold UpdateTimingIfChanged
  simp only [if_pos hb]
  unfold RebuildScale
  simp only
  split_ifs <;> exact ⟨rfl, rfl, rfl, rfl⟩

/-- The refresh step keeps the stream when the component seed is the seed shadow,
and never touches the scale table, the walker or the scale shadow. -/
theorem pullParameters_scale (g : FGrooveSoundGenerator) (C : UGrooveSynthComponent) :
    (pullParameters g (some C)).Scale = C.Scale ∧
    (pullParameters g (some C)).ScaleShadow = g.ScaleShadow ∧
    (pullParameters g (some C)).ScaleSemis = g.ScaleSemis ∧
    (pullParameters g (some C)).Walker = g.Walker ∧
    (C.Seed = g.SeedShadow → (pullParameters g (some C)).Rng = g.Rng) ∧
    (C.Seed ≠ g.SeedShadow → (pullParameters g (some C)).Rng = FRandomStream.Initialize C.Seed) ∧
    (pullParameters g (some C)).SeedShadow = C.Seed := by
  simp only [pullParameters]
  by_cases h : g.SeedShadow = C.Seed
  · rw [if_neg (by simp [h])]
    exact ⟨rfl, rfl, rfl, rfl, fun _ => rfl, fun h2 => absurd h.symm h2, h⟩
  · rw [if_pos h]
    exact ⟨rfl, rfl, rfl, rfl, fun h2 => absurd h2.symm h, fun _ => rfl, rfl⟩

/-- The constructor initialises the stream from the seed and makes the one draw
of `RebuildScale`, stores the table of the selector and leaves the scale shadow
at its member initialiser `Ionian`. -/
theorem construct_Rng (ω : RngSource) (sr : ℚ) (ch : Int) (C : UGrooveSynthComponent)
    (c : Nat) (hc : C.Scale = c) (h : c ≤ 3) :
    (construct ω sr ch (some C)).Rng = { Seed := C.Seed, Count := 1 } ∧
    (construct ω sr ch (some C)).SeedShadow = C.Seed ∧
    (construct ω sr ch (some C)).ScaleShadow = Ionian ∧
    (construct ω sr ch (some C)).Scale = C.Scale ∧
    (construct ω sr ch (some C)).ScaleSemis = scaleTable C.Scale := by
  have hR := RebuildScale_Rng ω
    { ({ SampleRate := if sr > 0 then RoundToInt sr else 48000
         Channels := if ch > 0 then ch else 2
         BPM := C.BPM, RootMidi := C.RootMidi, Scale := C.Scale, Density := C.Density
         Brightness := C.Brightness, SeedShadow := C.Seed
         bArpOn := C.bArpOn, bPadOn := C.bPadOn, bPercOn := C.bPercOn } : FGrooveSoundGenerator)
      with Rng := FRandomStream.Initialize C.Seed } c hc h
  refine ⟨?_, ?_, ?_, ?_, ?_⟩
  · simp only [construct, UpdateTiming]
    exact hR
  all_goals
    simp only [construct, UpdateTiming]
    unfold RebuildScale
    simp only
    split <;> rfl
/-- The walker after `RebuildScale` for a valid selector: the draw scaled to
the table length and truncated. -/
theorem RebuildScale_Walker (ω : RngSource) (g : FGrooveSoundGenerator) (c : Nat)
    (hc : g.Scale = c) (h : c ≤ 3) :
    (RebuildScale ω g).Walker =
      ⌊(((ω g.Rng.Seed g.Rng.Count % 8388608 : Nat) : ℚ) / 8388608) *
        ((scaleTable g.Scale).length : ℚ)⌋ := by
  have hl := scaleTable_length_pos c h
  rw [← hc] at hl
  have hne : (scaleTable g.Scale).length ≠ 0 := Nat.pos_iff_ne_zero.mp hl
  have hr : 0 < ((scaleTable g.Scale).length : Int) - 1 - 0 + 1 := by
    have : (0 : Int) < ((scaleTable g.Scale).length : Int) := by exact_mod_cast hl
    linarith
  unfold RebuildScale
  simp only [if_pos hne, FRandomStream.RandRange, if_pos hr, FRandomStream.GetFraction]
  rw [zero_add]
  congr 2
  push_cast
  ring

/-- C11: `Reseed(s)` re-initialises the stream on the next block only when `s`
differs from the seed in use. With the seed already in use (as `CycleScale`
calls it) the refresh keeps the stream as it is: after construction from the
default component (seed 12345, one draw made) the refreshed stream after
`Reseed(12345)` or after `CycleScale(+1)` still has one draw made and is not
the stream initialised from 12345, so later draws depend on the draws made
before and not on the seed alone. -/
theorem Reseed_same_seed_keeps_stream (ω : RngSource) :
    (∀ (g : FGrooveSoundGenerator) (C : UGrooveSynthComponent) (s : Int), s ≠ g.SeedShadow →
      (pullParameters g (some (C.Reseed s))).Rng = FRandomStream.Initialize s ∧
      (pullParameters g (some (C.Reseed s))).SeedShadow = s) ∧
    (∀ (g : FGrooveSoundGenerator) (C : UGrooveSynthComponent),
      (pullParameters g (some (C.Reseed g.SeedShadow))).Rng = g.Rng) ∧
    ((construct ω 48000 2 (some {})).Rng = { Seed := 12345, Count := 1 } ∧
      (pullParameters (construct ω 48000 2 (some {}))
        (some (({} : UGrooveSynthComponent).Reseed 12345))).Rng = { Seed := 12345, Count := 1 } ∧
      (pullParameters (construct ω 48000 2 (some {}))
        (some (({} : UGrooveSynthComponent).Reseed 12345))).Rng ≠ FRandomStream.Initialize 12345 ∧
      (∃ S1, (({ Synth := some {} } : AProcAudio).CycleScale 1).Synth = some S1 ∧
        S1.Seed = 12345 ∧ S1.Scale = Dorian ∧
        (pullParameters (construct ω 48000 2 (some {})) (some S1)).Rng =
          { Seed := 12345, Count := 1 } ∧
        (prepare ω (construct ω 48000 2 (some {})) (some S1)).Rng =
          { Seed := 12345, Count := 2 } ∧
        (prepare ω (construct ω 48000 2 (some {})) (some S1)).Walker =
          ⌊(((ω 12345 1 % 8388608 : Nat) : ℚ) / 8388608) * 7⌋)) := by
  have hc := construct_Rng ω 48000 2 {} 0 rfl (by decide)
  have e1 : (pullParameters (construct ω 48000 2 (some {}))
      (some (({} : UGrooveSynthComponent).Reseed 12345))).Rng = { Seed := 12345, Count := 1 } := by
    rw [(pullParameters_scale _ _).2.2.2.2.1 (by rw [hc.2.1]; rfl), hc.1]
  refine ⟨fun g C s hs => ?_, fun g C => (pullParameters_scale g _).2.2.2.2.1 rfl, hc.1, e1, ?_, ?_⟩
  · exact ⟨(pullParameters_scale g (C.Reseed s)).2.2.2.2.2.1 hs,
      (pullParameters_scale g (C.Reseed s)).2.2.2.2.2.2⟩
  · rw [e1]
    simp [FRandomStream.Initialize]
  · refine ⟨_, rfl, rfl, by decide, ?_, ?_⟩
    · rw [(pullParameters_scale _ _).2.2.2.2.1 (by rw [hc.2.1]; rfl), hc.1]
    · have hp := pullParameters_scale (construct ω 48000 2 (some {}))
        (({ ({} : UGrooveSynthComponent) with Scale := castToEProcScale (Int.tmod (wrapInt32
          (wrapInt32 (((({} : UGrooveSynthComponent).Scale : Nat) : Int) + 1) + 4)) 4) } :
          UGrooveSynthComponent).Reseed 12345)
      have hS : ((pullParameters (construct ω 48000 2 (some {}))
          (({ ({} : UGrooveSynthComponent) with Scale := castToEProcScale (Int.tmod (wrapInt32
          (wrapInt32 (((({} : UGrooveSynthComponent).Scale : Nat) : Int) + 1) + 4)) 4) } :
          UGrooveSynthComponent).Reseed 12345)).Scale : Nat) = 1 := by
        rw [hp.1]
        decide
      have hR := hp.2.2.2.2.1 (by rw [hc.2.1]; rfl)
      rw [hc.1] at hR
      have hne : (pullParameters (construct ω 48000 2 (some {}))
          (({ ({} : UGrooveSynthComponent) with Scale := castToEProcScale (Int.tmod (wrapInt32
          (wrapInt32 (((({} : UGrooveSynthComponent).Scale : Nat) : Int) + 1) + 4)) 4) } :
          UGrooveSynthComponent).Reseed 12345)).ScaleShadow ≠ (pullParameters
          (construct ω 48000 2 (some {}))
          (({ ({} : UGrooveSynthComponent) with Scale := castToEProcScale (Int.tmod (wrapInt32
          (wrapInt32 (((({} : UGrooveSynthComponent).Scale : Nat) : Int) + 1) + 4)) 4) } :
          UGrooveSynthComponent).Reseed 12345)).Scale := by
        rw [hS, hp.2.1, hc.2.2.1]
        decide
      have hU := UpdateTimingIfChanged_rebuilds ω _ hne
      have h1 := RebuildScale_Rng ω _ 1 hS (by decide)
      have h2 := RebuildScale_Walker ω _ 1 hS (by decide)
      rw [hR] at h1 h2
      rw [hS] at h2
      refine ⟨hU.2.2.trans h1, hU.2.1.trans (h2.trans ?_)⟩
      simp [scaleTable, Ionian, Dorian]

/-- C17: reconciliation compares the selector with `ScaleShadow`: it leaves the
scale table, the walker and the stream unchanged when they are equal, rebuilds
them (one draw) when they differ, and keeps the timing periods when the tempo
shadow is the tempo. The constructor copies the selector but leaves
`ScaleShadow` at `Ionian`, so the first block does not compare with the
selector sampled at construction: constructed with `Dorian` and rendered with
`Dorian` the first block rebuilds (a second draw, walker re-randomised), and
constructed with `Dorian` then switched to `Ionian` before the first block the
table is not rebuilt and stays the `Dorian` table. -/
theorem first_block_scale_reconciliation (ω : RngSource) :
    (∀ g : FGrooveSoundGenerator, g.ScaleShadow = g.Scale →
      (UpdateTimingIfChanged ω g).ScaleSemis = g.ScaleSemis ∧
      (UpdateTimingIfChanged ω g).Walker = g.Walker ∧
      (UpdateTimingIfChanged ω g).Rng = g.Rng) ∧
    (∀ g : FGrooveSoundGenerator, g.ScaleShadow ≠ g.Scale →
      (UpdateTimingIfChanged ω g).ScaleSemis = scaleTable g.Scale ∧
      (UpdateTimingIfChanged ω g).Walker = (RebuildScale ω g).Walker ∧
      (UpdateTimingIfChanged ω g).Rng = (RebuildScale ω g).Rng) ∧
    (∀ g : FGrooveSoundGenerator, IsNearlyEqual g.BPMShadow g.BPM (1 / 10000) = true →
      (UpdateTimingIfChanged ω g).SamplesPerBeat = g.SamplesPerBeat ∧
      (UpdateTimingIfChanged ω g).SixteenthPeriod = g.SixteenthPeriod ∧
      (UpdateTimingIfChanged ω g).EighthPeriod = g.EighthPeriod ∧
      (UpdateTimingIfChanged ω g).PadPeriod = g.PadPeriod) ∧
    (∀ g : FGrooveSoundGenerator, (UpdateTimingIfChanged ω g).ScaleShadow = g.Scale ∧
      (UpdateTimingIfChanged ω g).Scale = g.Scale) ∧
    ((construct ω 48000 2 (some { Scale := Dorian })).Scale = Dorian ∧
      (construct ω 48000 2 (some { Scale := Dorian })).ScaleShadow = Ionian ∧
      (construct ω 48000 2 (some { Scale := Dorian })).ScaleSemis = [0, 2, 3, 5, 7, 9, 10] ∧
      (construct ω 48000 2 (some { Scale := Dorian })).Rng = { Seed := 12345, Count := 1 }) ∧
    ((prepare ω (construct ω 48000 2 (some { Scale := Dorian })) (some { Scale := Dorian })).Rng =
        { Seed := 12345, Count := 2 } ∧
      (prepare ω (construct ω 48000 2 (some { Scale := Dorian })) (some { Scale := Dorian })).Walker =
        ⌊(((ω 12345 1 % 8388608 : Nat) : ℚ) / 8388608) * 7⌋) ∧
    ((prepare ω (construct ω 48000 2 (some { Scale := Dorian })) (some { Scale := Ionian })).Scale =
        Ionian ∧
      (prepare ω (construct ω 48000 2 (some { Scale := Dorian })) (some { Scale := Ionian })).ScaleSemis =
        [0, 2, 3, 5, 7, 9, 10] ∧
      (prepare ω (construct ω 48000 2 (some { Scale := Dorian })) (some { Scale := Ionian })).ScaleSemis ≠
        scaleTable Ionian ∧
      (prepare ω (construct ω 48000 2 (some { Scale := Dorian })) (some { Scale := Ionian })).Rng =
        { Seed := 12345, Count := 1 }) := by
  have hc := construct_Rng ω 48000 2 { Scale := Dorian } 1 rfl (by decide)
  have hT : scaleTable Dorian = [0, 2, 3, 5, 7, 9, 10] := by decide
  have hpD := pullParameters_scale (construct ω 48000 2 (some { Scale := Dorian }))
    { Scale := Dorian }
  have hpI := pullParameters_scale (construct ω 48000 2 (some { Scale := Dorian }))
    { Scale := Ionian }
  have hRD := hpD.2.2.2.2.1 (by rw [hc.2.1])
  have hRI := hpI.2.2.2.2.1 (by rw [hc.2.1])
  rw [hc.1] at hRD hRI
  refine ⟨UpdateTimingIfChanged_same_scale ω, UpdateTimingIfChanged_rebuilds ω,
    UpdateTimingIfChanged_same_tempo ω, fun g => ?_, ⟨hc.2.2.2.1, hc.2.2.1, hc.2.2.2.2.trans hT, hc.1⟩,
    ?_, ?_⟩
  · exact ⟨(UpdateTimingIfChanged_settles ω g).2.trans (UpdateTimingIfChanged_inputs ω g).2.2.1,
      (UpdateTimingIfChanged_inputs ω g).2.2.1⟩
  · have hS : ((pullParameters (construct ω 48000 2 (some { Scale := Dorian }))
        (some { Scale := Dorian })).Scale : Nat) = 1 := hpD.1
    have hne : (pullParameters (construct ω 48000 2 (some { Scale := Dorian }))
        (some { Scale := Dorian })).ScaleShadow ≠ (pullParameters
        (construct ω 48000 2 (some { Scale := Dorian })) (some { Scale := Dorian })).Scale := by
      rw [hS, hpD.2.1, hc.2.2.1]
      decide
    have hU := UpdateTimingIfChanged_rebuilds ω _ hne
    have h1 := RebuildScale_Rng ω _ 1 hS (by decide)
    have h2 := RebuildScale_Walker ω _ 1 hS (by decide)
    rw [hRD] at h1 h2
    rw [hS] at h2
    refine ⟨hU.2.2.trans h1, hU.2.1.trans (h2.trans ?_)⟩
    simp [scaleTable, Ionian, Dorian]
  · have hS : (pullParameters (construct ω 48000 2 (some { Scale := Dorian }))
        (some { Scale := Ionian })).Scale = Ionian := hpI.1
    have heq : (pullParameters (construct ω 48000 2 (some { Scale := Dorian }))
        (some { Scale := Ionian })).ScaleShadow = (pullParameters
        (construct ω 48000 2 (some { Scale := Dorian })) (some { Scale := Ionian })).Scale := by
      rw [hS, hpI.2.1, hc.2.2.1]
    have hU := UpdateTimingIfChanged_same_scale ω _ heq
    have hsemis : (prepare ω (construct ω 48000 2 (some { Scale := Dorian }))
        (some { Scale := Ionian })).ScaleSemis = [0, 2, 3, 5, 7, 9, 10] :=
      hU.1.trans (hpI.2.2.1.trans (hc.2.2.2.2.trans hT))
    refine ⟨?_, hsemis, ?_, hU.2.2.trans hRI⟩
    · exact (UpdateTimingIfChanged_inputs ω _).2.2.1.trans hS
    · rw [hsemis]
      decide

/-! ## Scale cycling -/

/-- The computation of `CycleScale` on the component it finds attached. -/
theorem CycleScale_Scale (S : UGrooveSynthComponent) (Dir : Int) :
    (({ Synth := some S } : AProcAudio).CycleScale Dir).Synth =
      some { S with Scale := (castToEProcScale
        (Int.tmod (wrapInt32 (wrapInt32 ((S.Scale : Int) + Dir) + 4)) 4)) } := rfl

/-- The sum `Cur + Dir + Count` as an `int32` when no step overflows. -/
theorem wrapInt32_sum (c Dir : Int)
    (hlo : -2147483648 ≤ c + Dir) (hhi : c + Dir + 4 ≤ 2147483647) :
    wrapInt32 (wrapInt32 (c + Dir) + 4) = c + Dir + 4 := by
  have e : ∀ x : Int, -2147483648 ≤ x → x ≤ 2147483647 → wrapInt32 x = x := by
    intro x h1 h2
    unfold wrapInt32
    omega
  rw [e (c + Dir) hlo (by omega), e _ (by omega) hhi]

/-- C14: `CycleScale` computes `(Cur + Dir + 4) % 4` with the truncating
remainder of `int32`. For `-(c + 4) ≤ Dir` (without overflow) the new selector
is the valid one with index `(c + Dir) mod 4`, so `Dir = +1` and `Dir = -1`
select the next and previous scale. For `Dir < -(c + 4)` with `c + Dir` not a
multiple of four the remainder is negative and the stored byte is one of
253..255, none of the four scales: from `Ionian`, `Dir = -5` stores 255, whose
scale table is empty. -/
theorem CycleScale_negative_remainder :
    (∃ S1, (({ Synth := some { Scale := Ionian } } : AProcAudio).CycleScale (-5)).Synth = some S1 ∧
      S1.Scale = 255 ∧ ((0 : Int) + (-5)) % 4 = 3 ∧ scaleTable S1.Scale = []) ∧
    (∀ (S : UGrooveSynthComponent) (c : Nat) (Dir : Int), S.Scale = c → c ≤ 3 →
      -((c : Int) + 4) ≤ Dir → (c : Int) + Dir + 4 ≤ 2147483647 →
      ∃ S1, (({ Synth := some S } : AProcAudio).CycleScale Dir).Synth = some S1 ∧
        ((S1.Scale : Nat) : Int) = ((c : Int) + Dir) % 4 ∧ S1.Scale ≤ 3 ∧
        { S1 with Scale := S.Scale } = S) ∧
    (∀ (S : UGrooveSynthComponent) (c : Nat) (Dir : Int), S.Scale = c → c ≤ 3 →
      Dir < -((c : Int) + 4) → -2147483648 ≤ (c : Int) + Dir → ((c : Int) + Dir) % 4 ≠ 0 →
      ∃ S1, (({ Synth := some S } : AProcAudio).CycleScale Dir).Synth = some S1 ∧
        ((S1.Scale : Nat) : Int) = ((c : Int) + Dir) % 4 + 252 ∧ 3 < S1.Scale ∧
        scaleTable S1.Scale = []) ∧
    (∀ (S : UGrooveSynthComponent) (c : Nat), S.Scale = c → c ≤ 3 →
      (∃ S1, (({ Synth := some S } : AProcAudio).CycleScale 1).Synth = some S1 ∧
        S1.Scale = ((c + 1) % 4 : Nat)) ∧
      (∃ S1, (({ Synth := some S } : AProcAudio).CycleScale (-1)).Synth = some S1 ∧
        S1.Scale = ((c + 3) % 4 : Nat))) ∧
    (∀ Dir : Int, ({ Synth := none } : AProcAudio).CycleScale Dir = { Synth := none }) := by
  have pos : ∀ (S : UGrooveSynthComponent) (c : Nat) (Dir : Int), S.Scale = c → c ≤ 3 →
      -((c : Int) + 4) ≤ Dir → (c : Int) + Dir + 4 ≤ 2147483647 →
      castToEProcScale (Int.tmod (wrapInt32 (wrapInt32 ((S.Scale : Int) + Dir) + 4)) 4) =
        (((c : Int) + Dir) % 4).toNat := by
    intro S c Dir hc h3 hlo hhi
    rw [hc, wrapInt32_sum c Dir (by omega) hhi,
      Int.tmod_eq_emod (by omega) (by norm_num)]
    unfold castToEProcScale
    congr 1
    omega
  have neg : ∀ (S : UGrooveSynthComponent) (c : Nat) (Dir : Int), S.Scale = c → c ≤ 3 →
      Dir < -((c : Int) + 4) → -2147483648 ≤ (c : Int) + Dir → ((c : Int) + Dir) % 4 ≠ 0 →
      castToEProcScale (Int.tmod (wrapInt32 (wrapInt32 ((S.Scale : Int) + Dir) + 4)) 4) =
        (((c : Int) + Dir) % 4 + 252).toNat := by
    intro S c Dir hc h3 hlo hhi hm
    rw [hc, wrapInt32_sum c Dir hhi (by omega)]
    have e : Int.tmod ((c : Int) + Dir + 4) 4 = ((c : Int) + Dir) % 4 - 4 := by
      have h1 : (c : Int) + Dir + 4 = -(-((c : Int) + Dir + 4)) := by ring
      rw [Int.tmod_def, h1, Int.neg_tdiv, Int.tdiv_eq_ediv (by omega) (by norm_num)]
      omega
    rw [e]
    unfold castToEProcScale
    congr 1
    omega
  refine ⟨⟨_, rfl, by decide, by decide, by decide⟩, fun S c Dir hc h3 hlo hhi => ?_,
    fun S c Dir hc h3 hlo hhi hm => ?_, fun S c hc h3 => ⟨?_, ?_⟩, fun _ => rfl⟩
  · have k := pos S c Dir hc h3 hlo hhi
    have a1 : (((((c : Int) + Dir) % 4).toNat : Nat) : Int) = ((c : Int) + Dir) % 4 := by omega
    have a2 : ((((c : Int) + Dir) % 4).toNat : Nat) ≤ 3 := by omega
    refine ⟨_, CycleScale_Scale S Dir, ?_, ?_, rfl⟩
    · exact (congrArg (fun n : Nat => (n : Int)) k).trans a1
    · exact le_of_eq_of_le k a2
  · have k := neg S c Dir hc h3 hlo hhi hm
    have a1 : (((((c : Int) + Dir) % 4 + 252).toNat : Nat) : Int) = ((c : Int) + Dir) % 4 + 252 := by
      omega
    have a2 : 3 < ((((c : Int) + Dir) % 4 + 252).toNat : Nat) := by omega
    have h4 : 3 < (castToEProcScale (Int.tmod (wrapInt32 (wrapInt32 ((S.Scale : Int) + Dir) + 4)) 4) :
        Nat) := lt_of_lt_of_eq a2 k.symm
    exact ⟨_, CycleScale_Scale S Dir, (congrArg (fun n : Nat => (n : Int)) k).trans a1, h4,
      scaleTable_eq_nil _ h4⟩
  · have k := pos S c 1 hc h3 (by omega) (by omega)
    have a1 : ((((c : Int) + 1) % 4).toNat : Nat) = (c + 1) % 4 := by omega
    refine ⟨_, CycleScale_Scale S 1, ?_⟩
    simp only
    exact k.trans a1
  · have k := pos S c (-1) hc h3 (by omega) (by omega)
    have a1 : ((((c : Int) + (-1)) % 4).toNat : Nat) = (c + 3) % 4 := by omega
    refine ⟨_, CycleScale_Scale S (-1), ?_⟩
    simp only
    exact k.trans a1

/-! ## Meter smoothing -/

/-- One meter publish moves each meter a fifth of the way to its input. -/
theorem publishMeters_meterValue (M : FMathLib) (g : FGrooveSoundGenerator) (s : ℚ) (N : Int)
    (C : UGrooveSynthComponent) (m : Meter) :
    meterValue (publishMeters M g s N C) m =
      (1 - 20 / 100) * meterValue C m + (20 / 100) * meterInput M g s N m := by
  cases m <;> rfl

/-- Closed form of the meter after a run of blocks with constant input. -/
theorem publishRun_closed_form (M : FMathLib) (m : Meter) (V : ℚ) (blocks : List MeterBlock) :
    ∀ C : UGrooveSynthComponent,
      (∀ b ∈ blocks, meterInput M b.Gen b.blockSumSq b.NumSamples m = V) →
      meterValue (publishRun M C blocks) m =
        V + (4 / 5) ^ blocks.length * (meterValue C m - V) := by
  induction blocks with
  | nil =>
    intro C _
    simp [publishRun]
  | cons b bs ih =>
    intro C h
    have hb := h b (List.mem_cons_self _ _)
    have ht := ih (publishMeters M b.Gen b.blockSumSq b.NumSamples C)
      (fun x hx => h x (List.mem_cons_of_mem _ hx))
    simp only [publishRun, List.length_cons]
    rw [ht, publishMeters_meterValue, hb, pow_succ]
    ring

/-- C12: when the input of a meter is the constant `V` over `n` consecutive
blocks, the published value afterwards is `V + 0.8^n * (m0 - V)` with `m0` the
value before; hence for every `m0` and every tolerance the meter is within
the tolerance of `V` after enough blocks, and a meter equal to `V` stays at
`V`. Each `OnGenerateAudio` call with a live owner performs one such publish. -/
theorem meter_smoothing_converges (M : FMathLib) (m : Meter) (V : ℚ)
    (C : UGrooveSynthComponent) :
    (∀ blocks : List MeterBlock,
      (∀ b ∈ blocks, meterInput M b.Gen b.blockSumSq b.NumSamples m = V) →
      meterValue (publishRun M C blocks) m =
        V + (8 / 10) ^ blocks.length * (meterValue C m - V)) ∧
    (∀ ε : ℚ, 0 < ε → ∃ N : Nat, ∀ blocks : List MeterBlock, N ≤ blocks.length →
      (∀ b ∈ blocks, meterInput M b.Gen b.blockSumSq b.NumSamples m = V) →
      |meterValue (publishRun M C blocks) m - V| < ε) ∧
    (meterValue C m = V → ∀ blocks : List MeterBlock,
      (∀ b ∈ blocks, meterInput M b.Gen b.blockSumSq b.NumSamples m = V) →
      meterValue (publishRun M C blocks) m = V) ∧
    (∀ (ω : RngSource) (g : FGrooveSoundGenerator) (N : Int) (r : AudioResult),
      OnGenerateAudio M ω g (some C) N = some r →
      ∃ s : ℚ, r.Owner = some (publishRun M C [{ Gen := r.Gen, blockSumSq := s, NumSamples := N }])) := by
  have e45 : (8 / 10 : ℚ) = 4 / 5 := by norm_num
  refine ⟨fun blocks h => ?_, fun ε hε => ?_, fun h0 blocks h => ?_, fun ω g N r hr => ?_⟩
  · rw [e45]
    exact publishRun_closed_form M m V blocks C h
  · have hd : 0 < |meterValue C m - V| + 1 := by positivity
    obtain ⟨N, hN⟩ := exists_pow_lt_of_lt_one (div_pos hε hd) (show (4 / 5 : ℚ) < 1 by norm_num)
    refine ⟨N, fun blocks hlen h => ?_⟩
    rw [publishRun_closed_form M m V blocks C h, add_sub_cancel_left, abs_mul,
      abs_of_nonneg (by positivity : (0 : ℚ) ≤ (4 / 5) ^ blocks.length)]
    have h1 : (4 / 5 : ℚ) ^ blocks.length ≤ (4 / 5) ^ N :=
      pow_le_pow_of_le_one (by norm_num) (by norm_num) hlen
    have h2 : (4 / 5 : ℚ) ^ N * (|meterValue C m - V| + 1) < ε := (lt_div_iff₀ hd).mp hN
    have h3 : (0 : ℚ) ≤ (4 / 5) ^ blocks.length := by positivity
    nlinarith [abs_nonneg (meterValue C m - V)]
  · rw [publishRun_closed_form M m V blocks C h, h0]
    ring
  · unfold OnGenerateAudio at hr
    simp only at hr
    split at hr
    · exact absurd hr (by simp)
    · rename_i st _
      have := Option.some.inj hr
      subst this
      exact ⟨st.blockSumSq, rfl⟩

/-- Witness for C12: the percussion meter of the default component over two
blocks that end with the percussion envelope at 1. -/
theorem meter_smoothing_converges_witness :
    meterValue (publishRun exampleMath {} [{ Gen := { PercEnv := 1 }, blockSumSq := 0, NumSamples := 4 },
      { Gen := { PercEnv := 1 }, blockSumSq := 0, NumSamples := 4 }]) Meter.PercEnv =
      1 + (8 / 10) ^ 2 * (0 - 1) :=
  (meter_smoothing_converges exampleMath Meter.PercEnv 1 {}).1
    [{ Gen := { PercEnv := 1 }, blockSumSq := 0, NumSamples := 4 },
      { Gen := { PercEnv := 1 }, blockSumSq := 0, NumSamples := 4 }]
    (by intro b hb; simp at hb; subst hb; rfl)
/-! ## Percussion decay -/

/-- The envelope after `StepPerc` is the envelope law applied with the decay
factor `Pow(0.001, 1 / (0.04 * SampleRate))`; the sample rate is kept. -/
theorem StepPerc_PercEnv (M : FMathLib) (ω : RngSource) (g : FGrooveSoundGenerator) (L R : ℚ) :
    (StepPerc M ω g L R).1.PercEnv =
      percEnvStep (M.Pow (1 / 1000) (1 / ((4 / 100) * (g.SampleRate : ℚ)))) g.PercEnv ∧
    (StepPerc M ω g L R).1.SampleRate = g.SampleRate := by
  unfold StepPerc percEnvStep
  split_ifs <;> exact ⟨rfl, rfl⟩

/-- Consecutive `StepPerc` calls iterate the envelope law. -/
theorem stepPercN_PercEnv (M : FMathLib) (ω : RngSource) (n : Nat) :
    ∀ s : FGrooveSoundGenerator × ℚ × ℚ,
      (stepPercN M ω n s).1.PercEnv =
        (percEnvStep (M.Pow (1 / 1000) (1 / ((4 / 100) * (s.1.SampleRate : ℚ)))))^[n] s.1.PercEnv ∧
      (stepPercN M ω n s).1.SampleRate = s.1.SampleRate := by
  induction n with
  | zero => intro s; exact ⟨rfl, rfl⟩
  | succ k ih =>
    intro s
    have h := ih (StepPerc M ω s.1 s.2.1 s.2.2)
    have e := StepPerc_PercEnv M ω s.1 s.2.1 s.2.2
    rw [e.1, e.2] at h
    exact ⟨h.1, h.2⟩

/-- The envelope law started at 1 follows the powers of the decay factor while
they stay above the threshold. -/
theorem percEnvStep_iterate {K : Type} [LinearOrderedField K] (d : K) (hd0 : 0 < d) (hd1 : d ≤ 1)
    (n : Nat) (hn : (1 : K) / 100000 < d ^ n) :
    ∀ k : Nat, k ≤ n + 1 → (percEnvStep d)^[k] 1 = d ^ k := by
  intro k
  induction k with
  | zero => intro _; simp
  | succ j ih =>
    intro hj
    rw [Function.iterate_succ_apply', ih (by omega)]
    have h1 : d ^ n ≤ d ^ j := pow_le_pow_of_le_one hd0.le hd1 (by omega)
    unfold percEnvStep
    rw [if_neg (not_le.mpr (lt_of_lt_of_le hn h1)), pow_succ]

/-- When the `n`-th power of the decay factor is `0.001`, the envelope law
started at 1 gives `0.001` after `n` steps. -/
theorem percEnvStep_decay {K : Type} [LinearOrderedField K] (d : K) (hd0 : 0 < d) (n : Nat)
    (hn : d ^ n = 1 / 1000) : (percEnvStep d)^[n] 1 = 1 / 1000 := by
  have hd1 : d ≤ 1 := by
    by_contra hc
    have h1 : (1 : K) ≤ d ^ n := one_le_pow₀ (le_of_lt (not_le.mp hc))
    rw [hn] at h1
    norm_num at h1
  have h2 : (1 : K) / 100000 < d ^ n := by
    rw [hn]
    norm_num
  rw [percEnvStep_iterate d hd0 hd1 n h2 n (by omega), hn]

/-- C13: whenever `n = 0.04 * sr` is a whole number of samples, `n` consecutive
`StepPerc` calls from an envelope of 1 leave the envelope at `0.001`: for every
sample rate in exact real arithmetic (decay factor `0.001 ^ (1 / (0.04 * sr))`),
and in the generator for every `Pow` that is exact at that exponent. Each
`StepPerc` call applies the envelope law with that factor. -/
theorem percussion_decay :
    (∀ (sr : Int) (n : Nat), (4 / 100 : ℝ) * (sr : ℝ) = (n : ℝ) → 0 < n →
      (percEnvStep ((1 / 1000 : ℝ) ^ ((1 : ℝ) / ((4 / 100) * (sr : ℝ)))))^[n] 1 = 1 / 1000) ∧
    (∀ (M : FMathLib) (ω : RngSource) (g : FGrooveSoundGenerator) (L R : ℚ) (n : Nat),
      (4 / 100 : ℚ) * (g.SampleRate : ℚ) = (n : ℚ) →
      0 < M.Pow (1 / 1000) (1 / ((4 / 100) * (g.SampleRate : ℚ))) →
      M.Pow (1 / 1000) (1 / ((4 / 100) * (g.SampleRate : ℚ))) ^ n = 1 / 1000 →
      (stepPercN M ω n (TriggerPerc g, L, R)).1.PercEnv = 1 / 1000) ∧
    (∀ (M : FMathLib) (ω : RngSource) (g : FGrooveSoundGenerator) (L R : ℚ),
      (StepPerc M ω g L R).1.PercEnv =
        percEnvStep (M.Pow (1 / 1000) (1 / ((4 / 100) * (g.SampleRate : ℚ)))) g.PercEnv ∧
      (StepPerc M ω g L R).1.SampleRate = g.SampleRate) ∧
    (∀ g : FGrooveSoundGenerator, (TriggerPerc g).PercEnv = 1) := by
  refine ⟨fun sr n hsr hn => ?_, fun M ω g L R n hsr hd0 hpow => ?_,
    fun M ω g L R => StepPerc_PercEnv M ω g L R, fun _ => rfl⟩
  · have hn0 : (n : ℝ) ≠ 0 := by exact_mod_cast hn.ne'
    have hd0 : (0 : ℝ) < (1 / 1000 : ℝ) ^ ((1 : ℝ) / ((4 / 100) * (sr : ℝ))) :=
      Real.rpow_pos_of_pos (by norm_num) _
    refine percEnvStep_decay _ hd0 n ?_
    rw [hsr, ← Real.rpow_natCast, ← Real.rpow_mul (by norm_num), one_div_mul_cancel hn0,
      Real.rpow_one]
  · have h := (stepPercN_PercEnv M ω n (TriggerPerc g, L, R)).1
    rw [h]
    exact percEnvStep_decay _ hd0 n hpow

/-- Witness for C13: at 75 Hz (`n = 3`) with a `Pow` exact at the cube root. -/
theorem percussion_decay_witness :
    (stepPercN cubeRootMath zeroDraws 3 (TriggerPerc { SampleRate := 75 }, 0, 0)).1.PercEnv =
      1 / 1000 :=
  percussion_decay.2.1 cubeRootMath zeroDraws { SampleRate := 75 } 0 0 3
    (by norm_num) (by norm_num [cubeRootMath]) (by norm_num [cubeRootMath])

/-! ## Clock counters and tempo changes -/

theorem TriggerArp_counters (M : FMathLib) (ω : RngSource) (g g1 : FGrooveSoundGenerator)
    (h : TriggerArp M ω g = some g1) : g1.Eighth = g.Eighth ∧ g1.PadGate = g.PadGate := by
  unfold TriggerArp at h
  simp only at h
  split at h
  · exact Option.noConfusion h
  · cases h; exact ⟨rfl, rfl⟩

theorem TriggerPad_counters (M : FMathLib) (g g1 : FGrooveSoundGenerator)
    (h : TriggerPad M g = some g1) : g1.Eighth = g.Eighth ∧ g1.PadGate = g.PadGate := by
  unfold TriggerPad at h
  simp only at h
  split at h
  · exact Option.noConfusion h
  · cases h; exact ⟨rfl, rfl⟩

theorem tickSixteenth_counters (M : FMathLib) (ω : RngSource) (g g1 : FGrooveSoundGenerator)
    (h : tickSixteenth M ω g = some g1) : g1.Eighth = g.Eighth ∧ g1.PadGate = g.PadGate := by
  unfold tickSixteenth at h
  simp only at h
  split at h
  · have e := TriggerArp_counters M ω _ g1 h
    exact ⟨e.1.trans rfl, e.2.trans rfl⟩
  · cases h; exact ⟨rfl, rfl⟩

theorem tickEighth_counters (ω : RngSource) (PercPr : ℚ) (g : FGrooveSoundGenerator) :
    (tickEighth ω PercPr g).Eighth = (clockTick g.Eighth g.EighthPeriod).1 ∧
    (tickEighth ω PercPr g).PadGate = g.PadGate ∧
    (tickEighth ω PercPr g).PadPeriod = g.PadPeriod := by
  unfold tickEighth
  simp only
  split
  · split <;> exact ⟨rfl, rfl, rfl⟩
  · exact ⟨rfl, rfl, rfl⟩

theorem tickPadGate_counters (M : FMathLib) (g g1 : FGrooveSoundGenerator)
    (h : tickPadGate M g = some g1) :
    g1.Eighth = g.Eighth ∧ g1.PadGate = (clockTick g.PadGate g.PadPeriod).1 := by
  unfold tickPadGate at h
  simp only at h
  split at h
  · have e := TriggerPad_counters M _ g1 h
    exact ⟨e.1.trans rfl, e.2.trans rfl⟩
  · cases h; exact ⟨rfl, rfl⟩

theorem StepPerc_counters (M : FMathLib) (ω : RngSource) (g : FGrooveSoundGenerator)
    (L R : ℚ) : (StepPerc M ω g L R).1.Eighth = g.Eighth ∧
      (StepPerc M ω g L R).1.PadGate = g.PadGate := by
  unfold StepPerc
  split <;> exact ⟨rfl, rfl⟩

theorem mixVoices_counters (M : FMathLib) (ω : RngSource) (Bright : ℚ)
    (g : FGrooveSoundGenerator) : (mixVoices M ω Bright g).1.Eighth = g.Eighth ∧
      (mixVoices M ω Bright g).1.PadGate = g.PadGate := by
  unfold mixVoices
  simp only
  split
  · exact ⟨(StepPerc_counters M ω _ _ _).1.trans rfl, (StepPerc_counters M ω _ _ _).2.trans rfl⟩
  · exact ⟨rfl, rfl⟩

/-- One frame ticks the eighth and the pad counter once each. -/
theorem renderFrame_counters (M : FMathLib) (ω : RngSource) (Bright PercPr : ℚ)
    (g : FGrooveSoundGenerator) (fr : FrameResult)
    (h : renderFrame M ω Bright PercPr g = some fr) :
    fr.Gen.Eighth = (clockTick g.Eighth g.EighthPeriod).1 ∧
    fr.Gen.PadGate = (clockTick g.PadGate g.PadPeriod).1 := by
  have hcfg := renderFrame_config M ω Bright PercPr g fr h
  unfold renderFrame at h
  split at h
  · exact Option.noConfusion h
  · rename_i g1 h1
    split at h
    · exact Option.noConfusion h
    · rename_i g3 h3
      cases h
      have e1 := tickSixteenth_counters M ω g g1 h1
      have e2 := tickEighth_counters ω PercPr g1
      have e3 := tickPadGate_counters M _ g3 h3
      have e4 := mixVoices_counters M ω Bright g3
      have c1 : g1.EighthPeriod = g.EighthPeriod := by
        unfold tickSixteenth at h1
        simp only at h1
        split at h1
        · unfold TriggerArp at h1
          simp only at h1
          split at h1
          · exact Option.noConfusion h1
          · cases h1; rfl
        · cases h1; rfl
      have c2 : g1.PadPeriod = g.PadPeriod := by
        unfold tickSixteenth at h1
        simp only at h1
        split at h1
        · unfold TriggerArp at h1
          simp only at h1
          split at h1
          · exact Option.noConfusion h1
          · cases h1; rfl
        · cases h1; rfl
      refine ⟨?_, ?_⟩
      · show (mixVoices M ω Bright g3).1.Eighth = _
        rw [e4.1, e3.1, e2.1, e1.1, c1]
      · show (mixVoices M ω Bright g3).1.PadGate = _
        rw [e4.2, e3.2, e2.2.1, e2.2.2, e1.2, c2]

/-- A tick keeps a counter within a period of at least one sample, and
subtracts the period at most once. -/
theorem clockTick_range (c P : ℚ) (hP : 1 ≤ P) (h0 : 0 ≤ c) (h1 : c < P) :
    0 ≤ (clockTick c P).1 ∧ (clockTick c P).1 < P := by
  unfold clockTick
  split_ifs with h
  · exact ⟨by simp only; linarith, by simp only; linarith⟩
  · exact ⟨by simp only; linarith, by simp only; linarith⟩

/-- What the parameter refresh does to the clock state: only the tempo changes. -/
theorem pullParameters_clock (g : FGrooveSoundGenerator) (Owner : Option UGrooveSynthComponent) :
    (Owner = none → (pullParameters g Owner).BPM = g.BPM) ∧
    (∀ C, Owner = some C → (pullParameters g Owner).BPM = C.BPM) ∧
    (pullParameters g Owner).BPMShadow = g.BPMShadow ∧
    (pullParameters g Owner).SampleRate = g.SampleRate ∧
    (pullParameters g Owner).SixteenthPeriod = g.SixteenthPeriod ∧
    (pullParameters g Owner).EighthPeriod = g.EighthPeriod ∧
    (pullParameters g Owner).PadPeriod = g.PadPeriod ∧
    (pullParameters g Owner).Sixteenth = g.Sixteenth ∧
    (pullParameters g Owner).Eighth = g.Eighth ∧
    (pullParameters g Owner).PadGate = g.PadGate := by
  cases Owner with
  | none => exact ⟨fun _ => rfl, fun C h => Option.noConfusion h, rfl, rfl, rfl, rfl, rfl, rfl, rfl, rfl⟩
  | some C =>
    simp only [pullParameters]
    split <;>
      exact ⟨fun h => Option.noConfusion h, fun C1 h => by cases h; rfl,
        rfl, rfl, rfl, rfl, rfl, rfl, rfl, rfl⟩

/-- What reconciliation does to the clock state: the counters, tempo and rate
are kept; the shadow and the periods are kept for a (nearly) unchanged tempo
and recomputed from the tempo otherwise. -/
theorem UpdateTimingIfChanged_clock (ω : RngSource) (g : FGrooveSoundGenerator) :
    (UpdateTimingIfChanged ω g).BPM = g.BPM ∧
    (UpdateTimingIfChanged ω g).SampleRate = g.SampleRate ∧
    (UpdateTimingIfChanged ω g).Sixteenth = g.Sixteenth ∧
    (UpdateTimingIfChanged ω g).Eighth = g.Eighth ∧
    (UpdateTimingIfChanged ω g).PadGate = g.PadGate ∧
    (IsNearlyEqual g.BPMShadow g.BPM (1 / 10000) = true →
      (UpdateTimingIfChanged ω g).BPMShadow = g.BPMShadow ∧
      (UpdateTimingIfChanged ω g).SixteenthPeriod = g.SixteenthPeriod ∧
      (UpdateTimingIfChanged ω g).EighthPeriod = g.EighthPeriod ∧
      (UpdateTimingIfChanged ω g).PadPeriod = g.PadPeriod) ∧
    (IsNearlyEqual g.BPMShadow g.BPM (1 / 10000) = false →
      (UpdateTimingIfChanged ω g).BPMShadow = g.BPM ∧
      (UpdateTimingIfChanged ω g).SixteenthPeriod =
        (g.SampleRate : ℚ) * 60 / Clamp g.BPM 20 300 / 4 ∧
      (UpdateTimingIfChanged ω g).EighthPeriod =
        (g.SampleRate : ℚ) * 60 / Clamp g.BPM 20 300 / 2 ∧
      (UpdateTimingIfChanged ω g).PadPeriod =
        (g.SampleRate : ℚ) * 60 / Clamp g.BPM 20 300 * 2) := by
  unfold UpdateTimingIfChanged
  by_cases hb : IsNearlyEqual g.BPMShadow g.BPM (1 / 10000) = true
  · simp only [if_pos hb]
    unfold RebuildScale
    simp only
    split_ifs <;>
      exact ⟨rfl, rfl, rfl, rfl, rfl, fun _ => ⟨rfl, rfl, rfl, rfl⟩,
        fun h => absurd (hb.symm.trans h) (by simp)⟩
  · simp only [if_neg hb]
    unfold RebuildScale
    simp only [UpdateTiming]
    split_ifs <;>
      exact ⟨rfl, rfl, rfl, rfl, rfl, fun h => absurd h hb, fun _ => ⟨rfl, rfl, rfl, rfl⟩⟩

/-- The clock state left by the constructor. -/
theorem construct_clock (ω : RngSource) (sr : ℚ) (ch : Int)
    (Owner : Option UGrooveSynthComponent) :
    (construct ω sr ch Owner).SampleRate = (if sr > 0 then RoundToInt sr else 48000) ∧
    (Owner = none → (construct ω sr ch Owner).BPM = 100) ∧
    (∀ C, Owner = some C → (construct ω sr ch Owner).BPM = C.BPM) ∧
    (construct ω sr ch Owner).BPMShadow = -1 ∧
    (construct ω sr ch Owner).SixteenthPeriod =
      ((construct ω sr ch Owner).SampleRate : ℚ) * 60 / Clamp (construct ω sr ch Owner).BPM 20 300 / 4 ∧
    (construct ω sr ch Owner).EighthPeriod =
      ((construct ω sr ch Owner).SampleRate : ℚ) * 60 / Clamp (construct ω sr ch Owner).BPM 20 300 / 2 ∧
    (construct ω sr ch Owner).PadPeriod =
      ((construct ω sr ch Owner).SampleRate : ℚ) * 60 / Clamp (construct ω sr ch Owner).BPM 20 300 * 2 ∧
    (construct ω sr ch Owner).Sixteenth = 0 ∧ (construct ω sr ch Owner).Eighth = 0 ∧
    (construct ω sr ch Owner).PadGate = 0 := by
  cases Owner with
  | none =>
    simp only [construct, UpdateTiming]
    unfold RebuildScale
    simp only
    split <;>
      (refine ⟨?_, ?_, ?_, ?_, ?_, ?_, ?_, ?_, ?_, ?_⟩ <;>
        first
        | rfl
        | trivial
        | (intro _; rfl)
        | (intro C1 h; exact Option.noConfusion h))
  | some C =>
    simp only [construct, UpdateTiming]
    unfold RebuildScale
    simp only
    split <;>
      (refine ⟨?_, ?_, ?_, ?_, ?_, ?_, ?_, ?_, ?_, ?_⟩ <;>
        first
        | rfl
        | trivial
        | (intro h; exact Option.noConfusion h)
        | (intro C1 h; cases h; rfl))

/-- The constructor leaves the clocks in their fresh state. -/
theorem construct_FreshClocks (ω : RngSource) (ch : Int) (Owner : Option UGrooveSynthComponent)
    (hT : TempoInRange Owner) : FreshClocks (construct ω 48000 ch Owner) := by
  obtain ⟨k1, k2a, k2b, k3, k4, k5, k6, k7, k8, k9⟩ := construct_clock ω 48000 ch Owner
  have hsr : (if (48000 : ℚ) > 0 then RoundToInt 48000 else 48000) = 48000 := by
    rw [if_pos (by norm_num)]
    unfold RoundToInt
    rw [Int.floor_eq_iff]
    constructor <;> norm_num
  rw [hsr] at k1
  have hB : 20 ≤ (construct ω 48000 ch Owner).BPM ∧ (construct ω 48000 ch Owner).BPM ≤ 300 := by
    cases Owner with
    | none => rw [k2a rfl]; exact ⟨by norm_num, by norm_num⟩
    | some C => rw [k2b C rfl]; exact hT C rfl
  rw [k1, Clamp_of_mem _ _ _ hB.1 hB.2] at k4 k5 k6
  have hpos : (0 : ℚ) < (construct ω 48000 ch Owner).BPM := by linarith [hB.1]
  refine ⟨k1, hB.1, hB.2, k3, ?_, ?_, ?_, k7, k8, k9⟩
  · rw [k4]; positivity
  · rw [k5]; positivity
  · rw [k6]; positivity

/-- Two tempi at least 21 apart are not nearly equal. -/
theorem IsNearlyEqual_fresh (t : ℚ) (h : 20 ≤ t) : IsNearlyEqual (-1) t (1 / 10000) = false := by
  unfold IsNearlyEqual
  rw [decide_eq_false_iff_not, not_le, abs_of_neg (by linarith)]
  linarith

/-- The first two steps of a block bring the clocks into (or keep them in) the
steady state, provided the tempo lies in `[20, 300]` and, after the first
block, does not rise. -/
theorem prepare_ClockInv (ω : RngSource) (g : FGrooveSoundGenerator)
    (Owner : Option UGrooveSynthComponent) (hg : FreshClocks g ∨ ClockInv g)
    (hT : TempoInRange Owner)
    (hslow : ∀ C, Owner = some C → g.BPMShadow = -1 ∨ C.BPM ≤ g.BPM) :
    ClockInv (prepare ω g Owner) := by
  obtain ⟨p1a, p1b, p2, p3, p4, p5, p6, p7, p8, p9⟩ := pullParameters_clock g Owner
  obtain ⟨u1, u2, u3, u4, u5, u6, u7⟩ := UpdateTimingIfChanged_clock ω (pullParameters g Owner)
  rw [p2] at u6 u7
  rw [p3] at u2 u7
  rw [p7] at u3
  rw [p8] at u4
  rw [p9] at u5
  rw [p4, p5, p6] at u6
  generalize ht : (pullParameters g Owner).BPM = t at *
  unfold prepare
  generalize UpdateTimingIfChanged ω (pullParameters g Owner) = q at *
  unfold ClockInv
  have hcast : ((48000 : Int) : ℚ) = 48000 := by norm_num
  rcases hg with hf | hi
  · obtain ⟨f1, f2, f3, f4, f5, f6, f7, f8, f9, f10⟩ := hf
    have htr : 20 ≤ t ∧ t ≤ 300 := by
      cases Owner with
      | none => rw [p1a rfl]; exact ⟨f2, f3⟩
      | some C => rw [p1b C rfl]; exact hT C rfl
    rw [f4] at u7
    obtain ⟨v1, v2, v3, v4⟩ := u7 (IsNearlyEqual_fresh t htr.1)
    rw [f1, hcast, Clamp_of_mem _ _ _ htr.1 htr.2] at v2 v3 v4
    have hpos : (0 : ℚ) < t := by linarith [htr.1]
    rw [u1, u2, u3, u4, u5, v1, v2, v3, v4, f1, f8, f9, f10]
    refine ⟨rfl, htr.1, le_refl _, htr.2, rfl, rfl, rfl, ⟨le_refl _, ?_⟩, ⟨le_refl _, ?_⟩,
      ⟨le_refl _, ?_⟩⟩ <;> positivity
  · obtain ⟨i1, i2, i3, i4, i5, i6, i7, i8, i9, i10⟩ := hi
    have hne : g.BPMShadow ≠ -1 := by
      intro h
      rw [h] at i3
      linarith
    have htr : 20 ≤ t ∧ t ≤ g.BPM := by
      cases Owner with
      | none => rw [p1a rfl]; exact ⟨i2, le_refl _⟩
      | some C =>
        rw [p1b C rfl]
        exact ⟨(hT C rfl).1, (hslow C rfl).resolve_left hne⟩
    by_cases hb : IsNearlyEqual g.BPMShadow t (1 / 10000) = true
    · obtain ⟨v1, v2, v3, v4⟩ := u6 hb
      rw [u1, u2, u3, u4, u5, v1, v2, v3, v4]
      exact ⟨i1, htr.1, le_trans htr.2 i3, i4, i5, i6, i7, i8, i9, i10⟩
    · obtain ⟨v1, v2, v3, v4⟩ := u7 (by simpa using hb)
      have ht300 : t ≤ 300 := le_trans htr.2 (le_trans i3 i4)
      have hts : t ≤ g.BPMShadow := le_trans htr.2 i3
      rw [i1, hcast, Clamp_of_mem _ _ _ htr.1 ht300] at v2 v3 v4
      have hpos : (0 : ℚ) < t := by linarith [htr.1]
      have hposs : (0 : ℚ) < g.BPMShadow := by linarith
      have hdiv : (48000 : ℚ) * 60 / g.BPMShadow ≤ 48000 * 60 / t :=
        div_le_div_of_nonneg_left (by norm_num) hpos hts
      rw [u1, u2, u3, u4, u5, v1, v2, v3, v4, i1]
      rw [i5] at i8
      rw [i6] at i9
      rw [i7] at i10
      refine ⟨rfl, htr.1, le_refl _, ht300, rfl, rfl, rfl, ⟨i8.1, ?_⟩, ⟨i9.1, ?_⟩, ⟨i10.1, ?_⟩⟩
      · linarith [i8.2]
      · linarith [i9.2]
      · linarith [i10.2]

/-- One frame keeps the clocks in the steady state. -/
theorem renderFrame_ClockInv (M : FMathLib) (ω : RngSource) (Bright PercPr : ℚ)
    (g : FGrooveSoundGenerator) (fr : FrameResult)
    (h : renderFrame M ω Bright PercPr g = some fr) (hi : ClockInv g) : ClockInv fr.Gen := by
  have hcfg := renderFrame_config M ω Bright PercPr g fr h
  have c1 : fr.Gen.SampleRate = g.SampleRate := (congrArg FGrooveSoundGenerator.SampleRate hcfg :)
  have c2 : fr.Gen.BPM = g.BPM := (congrArg FGrooveSoundGenerator.BPM hcfg :)
  have c3 : fr.Gen.BPMShadow = g.BPMShadow := (congrArg FGrooveSoundGenerator.BPMShadow hcfg :)
  have c4 : fr.Gen.SixteenthPeriod = g.SixteenthPeriod :=
    (congrArg FGrooveSoundGenerator.SixteenthPeriod hcfg :)
  have c5 : fr.Gen.EighthPeriod = g.EighthPeriod :=
    (congrArg FGrooveSoundGenerator.EighthPeriod hcfg :)
  have c6 : fr.Gen.PadPeriod = g.PadPeriod := (congrArg FGrooveSoundGenerator.PadPeriod hcfg :)
  have e1 := renderFrame_Sixteenth M ω Bright PercPr g fr h
  obtain ⟨e2, e3⟩ := renderFrame_counters M ω Bright PercPr g fr h
  obtain ⟨i1, i2, i3, i4, i5, i6, i7, i8, i9, i10⟩ := hi
  have hposs : (0 : ℚ) < g.BPMShadow := by linarith
  have hq : (2400 : ℚ) ≤ 48000 * 60 / g.BPMShadow / 4 := by
    rw [div_div, le_div_iff₀ (by positivity)]
    linarith
  have h16 : 1 ≤ g.SixteenthPeriod := by rw [i5]; linarith
  have h8 : 1 ≤ g.EighthPeriod := by rw [i6]; linarith
  have hpad : 1 ≤ g.PadPeriod := by rw [i7]; linarith
  unfold ClockInv
  rw [c1, c2, c3, c4, c5, c6, e1, e2, e3]
  exact ⟨i1, i2, i3, i4, i5, i6, i7, clockTick_range _ _ h16 i8.1 i8.2,
    clockTick_range _ _ h8 i9.1 i9.2, clockTick_range _ _ hpad i10.1 i10.2⟩

/-- Any number of frames keeps the clocks in the steady state. -/
theorem frameSeq_ClockInv (M : FMathLib) (ω : RngSource) (Bright PercPr : ℚ) (k : Nat) :
    ∀ (g : FGrooveSoundGenerator) (r : FGrooveSoundGenerator × List FrameResult),
      frameSeq M ω Bright PercPr k g = some r → ClockInv g → ClockInv r.1 := by
  induction k with
  | zero => intro g r h hi; simp only [frameSeq] at h; cases h; exact hi
  | succ k ih =>
    intro g r h hi
    simp only [frameSeq] at h
    split at h
    · exact Option.noConfusion h
    · rename_i fr hfr
      split at h
      · exact Option.noConfusion h
      · rename_i r1 hr1
        cases h
        exact ih fr.Gen r1 hr1 (renderFrame_ClockInv M ω Bright PercPr g fr hfr hi)

/-- Every state of a run with non-rising tempo has fresh or steady clocks. -/
theorem SlowingRun_clocks (M : FMathLib) (ω : RngSource) (g : FGrooveSoundGenerator)
    (h : SlowingRun M ω g) : FreshClocks g ∨ ClockInv g := by
  induction h with
  | fresh ch Owner hT => exact Or.inl (construct_FreshClocks ω ch Owner hT)
  | block g Owner k r _ hT hslow hr ih =>
    exact Or.inr (frameSeq_ClockInv M ω _ _ k _ r hr (prepare_ClockInv ω g Owner ih hT hslow))

/-- A block whose tempo differs from the shadow recomputes the sixteenth period
from the new tempo and keeps the counter. -/
theorem prepare_tempo_change (ω : RngSource) (g : FGrooveSoundGenerator)
    (C : UGrooveSynthComponent) (hsr : g.SampleRate = 48000)
    (hne : IsNearlyEqual g.BPMShadow C.BPM (1 / 10000) = false)
    (h1 : 20 ≤ C.BPM) (h2 : C.BPM ≤ 300) :
    (prepare ω g (some C)).SixteenthPeriod = 48000 * 60 / C.BPM / 4 ∧
    (prepare ω g (some C)).Sixteenth = g.Sixteenth ∧
    (prepare ω g (some C)).BPMShadow = C.BPM ∧
    (prepare ω g (some C)).SampleRate = 48000 := by
  obtain ⟨_, q1, q2, q3, _, _, _, q7, _, _⟩ := pullParameters_clock g (some C)
  obtain ⟨_, u2, u3, _, _, _, u7⟩ := UpdateTimingIfChanged_clock ω (pullParameters g (some C))
  rw [q2, q1 C rfl] at u7
  obtain ⟨v1, v2, _, _⟩ := u7 hne
  have hcast : ((48000 : Int) : ℚ) = 48000 := by norm_num
  rw [q3, hsr, hcast, Clamp_of_mem _ _ _ h1 h2] at v2
  exact ⟨v2, u3.trans q7, v1, u2.trans (q3.trans hsr)⟩

/-- A run of fewer frames than the period from a zero sixteenth counter leaves
the counter at the number of frames. -/
theorem frameSeq_Sixteenth_short (M : FMathLib) (ω : RngSource) (Bright PercPr P : ℚ) (k : Nat)
    (g : FGrooveSoundGenerator) (r : FGrooveSoundGenerator × List FrameResult)
    (hP : g.SixteenthPeriod = P) (h0 : g.Sixteenth = 0) (h1 : 1 ≤ P) (hk : (k : ℚ) < P)
    (hr : frameSeq M ω Bright PercPr k g = some r) : r.1.Sixteenth = k := by
  have e := frameSeq_Sixteenth M ω Bright PercPr k g r hr
  rw [hP, h0] at e
  have hw := clockRun_wraps P h1 k
  have hfl : ⌊(k : ℚ) / P⌋ = 0 := by
    rw [Int.floor_eq_iff]
    have hPpos : (0 : ℚ) < P := by linarith
    constructor
    · simp only [Int.cast_zero]; positivity
    · simp only [Int.cast_zero, zero_add]
      rw [div_lt_one hPpos]
      exact hk
  rw [hfl] at hw
  have hz : (clockRun P k 0).2 = 0 := by exact_mod_cast hw
  rw [e, (clockRun_inv P h1 k).1, hz]
  simp

/-- Counterexample to C20: at 48000 Hz and one channel, a block of 4800 frames
at 20 BPM (sixteenth period 36000) followed by one frame at 300 BPM (period
2400) leaves the sixteenth counter at 2401, not below its current period. -/
theorem tempo_rise_leaves_counter_above_period :
    ∃ r1 r2 : AudioResult,
      OnGenerateAudio exampleMath zeroDraws (construct zeroDraws 48000 1 (some slowOwner))
        (some slowOwner) 4800 = some r1 ∧
      OnGenerateAudio exampleMath zeroDraws r1.Gen (some fastOwner) 1 = some r2 ∧
      r2.Gen.SixteenthPeriod = 2400 ∧ r2.Gen.Sixteenth = 2401 ∧
      ¬ (r2.Gen.Sixteenth < r2.Gen.SixteenthPeriod) := by
  have hOs : OwnerScaleOK (some slowOwner) := by
    intro C h; cases h; decide
  have hOf : OwnerScaleOK (some fastOwner) := by
    intro C h; cases h; decide
  have hTs : TempoInRange (some slowOwner) := by
    intro C h; cases h; exact ⟨by norm_num [slowOwner], by norm_num [slowOwner]⟩
  have hbs : slowOwner.BPM = 20 := rfl
  have hbf : fastOwner.BPM = 300 := rfl
  -- the constructed renderer
  have hch0 : (construct zeroDraws 48000 1 (some slowOwner)).Channels = 1 := by
    rw [construct_Channels]; rfl
  obtain ⟨f1, _, _, f4, _, _, _, f8, _, _⟩ := construct_FreshClocks zeroDraws 1 (some slowOwner) hTs
  have hw0 := construct_WalkerOK zeroDraws 48000 1 (some slowOwner) hOs
  -- first block
  obtain ⟨a1, a2, a3, a4⟩ := prepare_tempo_change zeroDraws _ slowOwner f1
    (by rw [f4]; exact IsNearlyEqual_fresh _ (by rw [hbs])) (by rw [hbs]) (by rw [hbs]; norm_num)
  rw [hbs] at a1 a3
  rw [f8] at a2
  have hwp := prepare_WalkerOK zeroDraws _ (some slowOwner) hw0.1 hw0.2 hOs
  have hchp : (prepare zeroDraws (construct zeroDraws 48000 1 (some slowOwner))
      (some slowOwner)).Channels = 1 := by
    rw [prepare_Channels, hch0]
  have e1 := OnGenerateAudio_eq exampleMath zeroDraws
    (construct zeroDraws 48000 1 (some slowOwner)) (some slowOwner) 4800 (by rw [hch0])
  rw [hch0] at e1
  have hfc1 : frameCount 4800 1 = 4800 := by decide
  rw [hfc1] at e1
  generalize prepare zeroDraws (construct zeroDraws 48000 1 (some slowOwner))
    (some slowOwner) = p1 at *
  obtain ⟨r, hr, hwr, hcr, _⟩ := frameSeq_total exampleMath zeroDraws (blockBright p1)
    (blockPercPr p1) 4800 p1 hwp.1
  have hs1 : r.1.Sixteenth = ((4800 : Nat) : ℚ) :=
    frameSeq_Sixteenth_short exampleMath zeroDraws _ _ 36000 4800 p1 r (by rw [a1]; norm_num) a2
      (by norm_num) (by norm_num) hr
  rw [hr] at e1
  -- second block
  have hsr2 : r.1.SampleRate = 48000 := (config_SampleRate hcr).trans a4
  have hch2 : r.1.Channels = 1 := (config_Channels hcr).trans hchp
  have hsh2 : r.1.BPMShadow = 20 :=
    ((congrArg FGrooveSoundGenerator.BPMShadow hcr :)).trans a3
  have hsc2 : r.1.Scale ≤ 3 := by
    rw [config_Scale hcr]
    exact hwp.2
  obtain ⟨b1, b2, _, _⟩ := prepare_tempo_change zeroDraws r.1 fastOwner hsr2
    (by rw [hsh2, hbf]; unfold IsNearlyEqual; rw [decide_eq_false_iff_not]; norm_num [abs_of_neg])
    (by rw [hbf]; norm_num) (by rw [hbf])
  rw [hbf] at b1
  rw [hs1] at b2
  have hwp2 := prepare_WalkerOK zeroDraws r.1 (some fastOwner) hwr hsc2 hOf
  have e2 := OnGenerateAudio_eq exampleMath zeroDraws r.1 (some fastOwner) 1 (by rw [hch2])
  rw [hch2] at e2
  have hfc2 : frameCount 1 1 = 1 := by decide
  rw [hfc2] at e2
  generalize prepare zeroDraws r.1 (some fastOwner) = p2 at *
  obtain ⟨r2, hr2, _, hcr2, _⟩ := frameSeq_total exampleMath zeroDraws (blockBright p2)
    (blockPercPr p2) 1 p2 hwp2.1
  have hs2 := frameSeq_Sixteenth exampleMath zeroDraws _ _ 1 p2 r2 hr2
  have hP2 : r2.1.SixteenthPeriod = 2400 := by
    have hc : r2.1.SixteenthPeriod = p2.SixteenthPeriod :=
      (congrArg FGrooveSoundGenerator.SixteenthPeriod hcr2 :)
    rw [hc, b1]
    norm_num
  have hS2 : r2.1.Sixteenth = 2401 := by
    rw [hs2, b1, b2]
    simp only [clockRun, clockTick]
    norm_num
  rw [hr2] at e2
  have hnot : ¬ (r2.1.Sixteenth < r2.1.SixteenthPeriod) := by
    rw [hP2, hS2]
    norm_num
  exact ⟨_, _, e1, e2, hP2, hS2, hnot⟩

/-- C20 (amended): at 48000 Hz, from the constructed renderer, under tempo
values within `[20, 300]` that change only at block boundaries and never rise
after the first block, every state after a frame has each of the three
counters in `[0, its current period)`, and a block rendered by
`OnGenerateAudio` under such a tempo continues such a run. In every state
whatsoever a frame ticks each counter exactly once, and a tick subtracts the
period at most once (one wrap event). -/
theorem clocks_within_periods (M : FMathLib) (ω : RngSource) (g : FGrooveSoundGenerator) :
    (SlowingRun M ω g →
      (0 ≤ g.Sixteenth ∧ g.Sixteenth < g.SixteenthPeriod) ∧
      (0 ≤ g.Eighth ∧ g.Eighth < g.EighthPeriod) ∧
      (0 ≤ g.PadGate ∧ g.PadGate < g.PadPeriod) ∧
      (∀ (Owner : Option UGrooveSynthComponent) (N : Int) (res : AudioResult),
        1 ≤ g.Channels → TempoInRange Owner →
        (∀ C, Owner = some C → g.BPMShadow = -1 ∨ C.BPM ≤ g.BPM) →
        OnGenerateAudio M ω g Owner N = some res → SlowingRun M ω res.Gen)) ∧
    (∀ (Bright PercPr : ℚ) (fr : FrameResult), renderFrame M ω Bright PercPr g = some fr →
      fr.Gen.Sixteenth = (clockTick g.Sixteenth g.SixteenthPeriod).1 ∧
      fr.Gen.Eighth = (clockTick g.Eighth g.EighthPeriod).1 ∧
      fr.Gen.PadGate = (clockTick g.PadGate g.PadPeriod).1) ∧
    (∀ c P : ℚ, ((clockTick c P).2 = false ∧ (clockTick c P).1 = c + 1) ∨
      ((clockTick c P).2 = true ∧ (clockTick c P).1 = c + 1 - P)) := by
  refine ⟨fun h => ?_, fun Bright PercPr fr hfr => ?_, clockTick_once⟩
  · have hc : (0 ≤ g.Sixteenth ∧ g.Sixteenth < g.SixteenthPeriod) ∧
        (0 ≤ g.Eighth ∧ g.Eighth < g.EighthPeriod) ∧
        (0 ≤ g.PadGate ∧ g.PadGate < g.PadPeriod) := by
      rcases SlowingRun_clocks M ω g h with hf | hi
      · obtain ⟨_, _, _, _, f5, f6, f7, f8, f9, f10⟩ := hf
        rw [f8, f9, f10]
        exact ⟨⟨le_refl _, f5⟩, ⟨le_refl _, f6⟩, ⟨le_refl _, f7⟩⟩
      · exact ⟨hi.2.2.2.2.2.2.2.1, hi.2.2.2.2.2.2.2.2.1, hi.2.2.2.2.2.2.2.2.2⟩
    refine ⟨hc.1, hc.2.1, hc.2.2, fun Owner N res hch hT hslow hres => ?_⟩
    rw [OnGenerateAudio_eq M ω g Owner N hch] at hres
    cases hfs : frameSeq M ω (blockBright (prepare ω g Owner)) (blockPercPr (prepare ω g Owner))
      (frameCount N g.Channels) (prepare ω g Owner) with
    | none =>
      rw [hfs] at hres
      exact Option.noConfusion hres
    | some r =>
      rw [hfs] at hres
      have e := Option.some.inj hres
      rw [← e]
      exact SlowingRun.block g Owner _ r h hT hslow hfs
  · exact ⟨renderFrame_Sixteenth M ω Bright PercPr g fr hfr,
      renderFrame_counters M ω Bright PercPr g fr hfr⟩

/-- Witness for C20 (amended): a renderer constructed and rendered at 120 BPM
for 9000 frames: the sixteenth counter has wrapped once and stands at 3000 of
6000, and all three counters are within their periods. -/
theorem clocks_within_periods_witness :
    ∃ r, frameSeq exampleMath zeroDraws
        (blockBright (prepare zeroDraws (construct zeroDraws 48000 2 (some { BPM := 120 }))
          (some { BPM := 120 })))
        (blockPercPr (prepare zeroDraws (construct zeroDraws 48000 2 (some { BPM := 120 }))
          (some { BPM := 120 }))) 9000
        (prepare zeroDraws (construct zeroDraws 48000 2 (some { BPM := 120 }))
          (some { BPM := 120 })) = some r ∧
      SlowingRun exampleMath zeroDraws r.1 ∧
      r.1.Sixteenth = 3000 ∧ r.1.SixteenthPeriod = 6000 ∧
      (0 ≤ r.1.Sixteenth ∧ r.1.Sixteenth < r.1.SixteenthPeriod) ∧
      (0 ≤ r.1.Eighth ∧ r.1.Eighth < r.1.EighthPeriod) ∧
      (0 ≤ r.1.PadGate ∧ r.1.PadGate < r.1.PadPeriod) := by
  have hT : TempoInRange (some { BPM := 120 }) := by
    intro C h
    cases h
    exact ⟨by norm_num, by norm_num⟩
  have hO : OwnerScaleOK (some { BPM := 120 }) := by
    intro C h; cases h; decide
  obtain ⟨p1, p2, _⟩ := prepare_construct_120 zeroDraws 2 { BPM := 120 } rfl
  have hw0 := construct_WalkerOK zeroDraws 48000 2 (some { BPM := 120 }) hO
  have hwp := (prepare_WalkerOK zeroDraws _ (some { BPM := 120 }) hw0.1 hw0.2 hO).1
  obtain ⟨r, e, _, hcr, _⟩ := frameSeq_total exampleMath zeroDraws
    (blockBright (prepare zeroDraws (construct zeroDraws 48000 2 (some { BPM := 120 }))
      (some { BPM := 120 })))
    (blockPercPr (prepare zeroDraws (construct zeroDraws 48000 2 (some { BPM := 120 }))
      (some { BPM := 120 }))) 9000
    (prepare zeroDraws (construct zeroDraws 48000 2 (some { BPM := 120 }))
      (some { BPM := 120 })) hwp
  have hrun : SlowingRun exampleMath zeroDraws r.1 :=
    SlowingRun.block (construct zeroDraws 48000 2 (some { BPM := 120 })) (some { BPM := 120 })
      9000 r (SlowingRun.fresh 2 (some { BPM := 120 }) hT) hT
      (fun C _ => Or.inl (construct_timing zeroDraws 48000 2 (some { BPM := 120 })).1) e
  have hS := frameSeq_Sixteenth exampleMath zeroDraws _ _ 9000 _ r e
  rw [p1, p2] at hS
  have hP : r.1.SixteenthPeriod = 6000 :=
    ((congrArg FGrooveSoundGenerator.SixteenthPeriod hcr :)).trans p1
  have hval : (clockRun 6000 9000 0).1 = 3000 := by
    have h1 := (clockRun_inv 6000 (by norm_num) 9000).1
    have h2 := clockRun_wraps 6000 (by norm_num) 9000
    have h3 : ⌊((9000 : Nat) : ℚ) / 6000⌋ = 1 := by
      rw [Int.floor_eq_iff]
      constructor <;> norm_num
    rw [h3] at h2
    have h4 : (clockRun 6000 9000 0).2 = 1 := by exact_mod_cast h2
    rw [h1, h4]
    norm_num
  obtain ⟨c1, c2, c3, _⟩ := (clocks_within_periods exampleMath zeroDraws r.1).1 hrun
  exact ⟨r, e, hrun, hS.trans hval, hP, c1, c2, c3⟩

/-! ## Pad trigger -/

/-- Counterexample to C21: on a state with a non-empty scale table and the
arpeggio's detuned phase at 1, `TriggerPad` leaves that phase at 0. -/
theorem TriggerPad_resets_arp_phase :
    ∃ g1, TriggerPad exampleMath midNoteState = some g1 ∧
      midNoteState.ScaleSemis ≠ [] ∧ midNoteState.Arp.Phase2 = 1 ∧ g1.Arp.Phase2 = 0 ∧
      g1.Arp ≠ midNoteState.Arp := by
  refine ⟨{ midNoteState with
      Pad := ({ midNoteState.Pad with Freq := MidiToHz exampleMath (60 + 4), Phase2 := 0 }).Trigger
      Arp := { midNoteState.Arp with Phase2 := 0 } }, ?_, by decide, rfl, rfl, ?_⟩
  · simp [TriggerPad, TArrayGet, midNoteState]
  · intro h
    have h2 := congrArg FGrooveVoice.Phase2 h
    simp [midNoteState] at h2

/-- C21 (amended): when the walker is a valid index of the scale table,
`TriggerPad` returns; it sets the pad's frequency to the pitch of MIDI note
`RootMidi + ScaleSemis[Walker]`, the pad's envelope to 1, its envelope time to
0 and its detuned phase to 0, and it also sets the arpeggio's detuned phase to
0. Everything else is kept: the pad's primary phase, envelope constants and
pan, the arpeggio's primary phase, frequency, envelope, envelope time,
constants and pan, the walker, the random stream, the percussion and filter
state and every other field. -/
theorem TriggerPad_effect (M : FMathLib) (g : FGrooveSoundGenerator) (h : WalkerOK g) :
    ∃ Semi g1, TArrayGet g.ScaleSemis g.Walker = some Semi ∧
      g.ScaleSemis.get? g.Walker.toNat = some Semi ∧
      TriggerPad M g = some g1 ∧
      g1.Pad = { g.Pad with Freq := MidiToHz M (g.RootMidi + Semi), Phase2 := 0,
                            Env := 1, EnvTime := 0 } ∧
      g1.Arp = { g.Arp with Phase2 := 0 } ∧
      (g1.Arp.Phase = g.Arp.Phase ∧ g1.Arp.Freq = g.Arp.Freq ∧ g1.Arp.Env = g.Arp.Env ∧
        g1.Arp.EnvTime = g.Arp.EnvTime ∧ g1.Arp.A = g.Arp.A ∧ g1.Arp.D = g.Arp.D ∧
        g1.Arp.S = g.Arp.S ∧ g1.Arp.R = g.Arp.R ∧ g1.Arp.Pan = g.Arp.Pan) ∧
      (g.Arp.Phase2 = 0 → g1.Arp = g.Arp) ∧
      (g1.Walker = g.Walker ∧ g1.Rng = g.Rng ∧ g1.PercEnv = g.PercEnv ∧ g1.LP = g.LP ∧
        g1.BP = g.BP ∧ g1.HP = g.HP) ∧
      { g1 with Pad := g.Pad, Arp := g.Arp } = g := by
  obtain ⟨x, hx⟩ := TArrayGet_isSome g.ScaleSemis g.Walker h.1 h.2
  have hget : g.ScaleSemis.get? g.Walker.toNat = some x := by
    unfold TArrayGet at hx
    rw [if_pos ⟨h.1, h.2⟩] at hx
    exact hx
  have e : TriggerPad M g = some { g with
      Pad := ({ g.Pad with Freq := MidiToHz M (g.RootMidi + x), Phase2 := 0 }).Trigger
      Arp := { g.Arp with Phase2 := 0 } } := by
    unfold TriggerPad
    simp only [hx]
  refine ⟨x, _, hx, hget, e, rfl, rfl, ⟨rfl, rfl, rfl, rfl, rfl, rfl, rfl, rfl, rfl⟩, ?_,
    ⟨rfl, rfl, rfl, rfl, rfl, rfl⟩, rfl⟩
  intro h0
  show ({ g.Arp with Phase2 := 0 } : FGrooveVoice) = g.Arp
  rw [← h0]

/-- Witness for C21 (amended): the mid-note state, whose walker selects the
third degree (4 semitones) of the Ionian table. -/
theorem TriggerPad_effect_witness :
    WalkerOK midNoteState ∧
    ∃ g1, TriggerPad exampleMath midNoteState = some g1 ∧
      g1.Pad.Freq = MidiToHz exampleMath 64 ∧ g1.Pad.Env = 1 ∧ g1.Pad.Phase2 = 0 ∧
      g1.Pad.Phase = 2 ∧ g1.Arp.Phase2 = 0 ∧ g1.Arp.Phase = 3 ∧ g1.Walker = 2 :=
  have hw : WalkerOK midNoteState := ⟨by decide, by decide⟩
  match TriggerPad_effect exampleMath midNoteState hw with
  | ⟨Semi, g1, _, hget, e, hPad, hArp, _, _, hrest, _⟩ =>
    have hS : Semi = 4 := by
      have h4 : midNoteState.ScaleSemis.get? midNoteState.Walker.toNat = some 4 := by decide
      rw [h4] at hget
      exact (Option.some.inj hget).symm
    ⟨hw, g1, e, by rw [hPad, hS]; rfl, by rw [hPad], by rw [hPad], by rw [hPad]; rfl,
      by rw [hArp], by rw [hArp]; rfl, hrest.1.trans rfl⟩

/-! ## Soft saturation -/

/-- At the input of the block-split counterexample the per-block trigger
probability `PercPr` is 1 for every random source, so every eighth wrap
triggers the percussion whatever the draws are. -/
theorem cx_PercPr (ω : RngSource) :
    blockPercPr (prepare ω (construct ω 5 2 (some cxOwner)) (some cxOwner)) = 1 := by
  have h := (Settled_prepare ω (construct ω 5 2 (some cxOwner)) (some cxOwner)).1 cxOwner rfl
  unfold blockPercPr
  rw [h.2.2.2.1, h.2.2.2.2.2.1]
  simp [cxOwner, Clamp]

/-- Counterexample to C2 as stated: a two-channel renderer at 5 Hz and 150 BPM
with only the percussion enabled at density 1 (the eighth clock wraps on every
frame and, `PercPr` being 1, every wrap triggers the percussion for every
random source), asked for 2 samples. One call renders one frame and returns
`[dl1, dr1]`; two calls of 1 sample render two frames and return `[dl1, dl2]`,
which differs in the second sample (values for the all-zero draws). -/
theorem block_split_changes_output :
    (∃ r res,
      renderBlocks exampleMath zeroDraws [1, 1] (construct zeroDraws 5 2 (some cxOwner))
        (some cxOwner) = some r ∧
      OnGenerateAudio exampleMath zeroDraws (construct zeroDraws 5 2 (some cxOwner))
        (some cxOwner) ([1, 1] : List Int).sum = some res ∧
      r.2 = [some (-(21 / 1600)), some (-(36709659 / 1024000000))] ∧
      bufferAfter res.OutAudio ([1, 1] : List Int).sum = [some (-(21 / 1600)), some (-(21 / 1600))] ∧
      r.2 ≠ bufferAfter res.OutAudio ([1, 1] : List Int).sum) ∧
    (∀ ω : RngSource,
      blockPercPr (prepare ω (construct ω 5 2 (some cxOwner)) (some cxOwner)) = 1 ∧
      (prepare ω (construct ω 5 2 (some cxOwner)) (some cxOwner)).EighthPeriod = 1 ∧
      ∀ g : FGrooveSoundGenerator, (clockTick g.Eighth g.EighthPeriod).2 = true →
        g.bPercOn = true → (tickEighth ω 1 g).PercEnv = 1) := by
  refine ⟨?_, fun ω => ⟨cx_PercPr ω, ?_, fun g hw hb => ?_⟩⟩
  · obtain ⟨r, res, h1, h2, h3, h4⟩ := cx_block_split_values
    have hs : ([1, 1] : List Int).sum = 2 := by decide
    refine ⟨r, res, h1, by rw [hs]; exact h2, h3, by rw [hs]; exact h4, ?_⟩
    rw [hs, h3, h4]
    intro h
    have h5 := (List.cons.inj h).2
    have h6 := Option.some.inj (List.cons.inj h5).1
    norm_num at h6
  · obtain ⟨_, p1b, p2, p3, _⟩ := pullParameters_clock (construct ω 5 2 (some cxOwner))
      (some cxOwner)
    obtain ⟨_, _, _, _, _, _, u7⟩ := UpdateTimingIfChanged_clock ω
      (pullParameters (construct ω 5 2 (some cxOwner)) (some cxOwner))
    have hsr : (construct ω 5 2 (some cxOwner)).SampleRate = 5 := by
      rw [construct_SampleRate, if_pos (by norm_num)]
      unfold RoundToInt
      rw [Int.floor_eq_iff]
      constructor <;> norm_num
    rw [p2, (construct_timing ω 5 2 (some cxOwner)).1, p1b cxOwner rfl, p3, hsr] at u7
    have hb : cxOwner.BPM = 150 := rfl
    rw [hb] at u7
    obtain ⟨_, _, v3, _⟩ := u7 (IsNearlyEqual_fresh 150 (by norm_num))
    unfold prepare
    rw [v3, Clamp_of_mem _ _ _ (by norm_num) (by norm_num)]
    norm_num
  · unfold tickEighth
    simp only
    rw [if_pos ⟨hw, hb⟩, if_pos (GetFraction_lt_one ω g.Rng)]
    rfl

end GrooveSynth
